import Mathlib

/-!
# Render-scene transaction system

A shallow embedding of `libraries/render/src/render/Scene.cpp`: the `Transaction`
builder, the commit protocol `Scene::processTransactionQueue` and the helpers it
calls.  Stateful methods become functions from the old state to the new one.
A step that is undefined behaviour in the source (indexing `_items` out of
bounds, dereferencing an empty payload or stage handle, running an iterator
past the end of its vector, a failed `assert`) yields `none`.
`Scene::collectSubItems` recurses without a cycle guard, so it takes a fuel
argument that bounds the recursion depth.

The file also embeds the hold action of `interface/src/avatar/AvatarActionHold.cpp`
(its tick, its argument update and the writing and reading of its persisted
record).
-/

namespace render

/-! ## Data model -/

/-- Item identities are non-negative integers that index the item store. -/
abbrev ItemID := Nat

/-- Indices handed out by a stage (`Index` in the source). -/
abbrev Index := Int

/-- Handle of a cell of the spatial index. -/
abbrev ItemCell := Int

/-- Modelled from the spec: `Item::INVALID_ITEM_ID`, declared in the absent `Item.h`;
the spec reserves `0` as "no item". -/
def INVALID_ITEM_ID : ItemID := 0

/-- Modelled from the spec: `TransitionStage::INVALID_INDEX`, the "no transition"
sentinel, declared in an absent header. -/
def INVALID_INDEX : Index := -1

/-- Modelled from the spec: `Item::INVALID_CELL`, the value of a cleared cell
reference, declared in the absent `Item.h`. -/
def INVALID_CELL : ItemCell := -1

/-- Modelled from the spec: the item key of the absent `Item.h`, a bitset
"describing classification: spatial vs non-spatial, small vs not, plus arbitrary
tag bits". -/
structure ItemKey where
  spatial : Bool
  small : Bool
  tags : Nat
deriving DecidableEq, Repr

namespace ItemKey

/-- The key with every flag unset, as left by `_flags.reset()`. -/
def cleared : ItemKey := ⟨false, false, 0⟩

def isSpatial (k : ItemKey) : Bool := k.spatial

def isSmall (k : ItemKey) : Bool := k.small

/-- The test `_flags.none()`: no bit of the key is set. -/
def flagsNone (k : ItemKey) : Bool := !k.spatial && !k.small && k.tags == 0

def setSmaller (k : ItemKey) (b : Bool) : ItemKey := { k with small := b }

end ItemKey

/-- Modelled from the spec: the bound of an item, an axis-aligned volume; its
class is declared outside the excerpt and only handed on to the spatial index. -/
structure AABox where
  corner : Int × Int × Int
  scale : Int × Int × Int
deriving DecidableEq, Repr

/-- Modelled from the spec: the payload interface of the absent `Item.h`, reduced
to what the scene asks of it: the key it computes, its bound and the ids of its
sub-items.  A payload handle that may be empty is an `Option Payload`. -/
structure Payload where
  key : ItemKey
  bound : AABox
  subItems : List ItemID
deriving DecidableEq, Repr

/-- Modelled from the spec: an update functor is "an opaque operation applied
in-place to the item's payload". -/
abbrev UpdateFunctor := Payload → Payload

/-- Modelled from the spec: the type tag of a transition; `NONE` stands for "no
transition", the other tags are left uninterpreted. -/
inductive TransitionType where
  | NONE
  | tag (n : Nat)
deriving DecidableEq, Repr

/-- Modelled from the spec: the integer that a transition type converts to where the
source passes it as an `Index`.  The enumeration `Transition::Type` is declared
in the absent `Transition.h`; its proper types are numbered from 0 and `NONE`
follows them (`NONE = TYPE_COUNT`, after seven types), so that every enumerator
converts to a non-negative number. -/
def TransitionType.toIndex : TransitionType → Index
  | TransitionType.NONE => 7
  | TransitionType.tag n => (n : Int)

/-- Modelled from the spec: a selection is a named ordered collection of item ids. -/
structure Selection where
  name : String
  items : List ItemID
deriving DecidableEq, Repr

/-- Modelled from the spec: the item record of the absent `Item.h`: payload, key,
cell reference and transition id. -/
structure Item where
  _payload : Option Payload
  _key : ItemKey
  _cell : ItemCell
  _transitionId : Index
deriving DecidableEq, Repr

namespace Item

/-- The default-constructed item `Item()`: no payload, unset key, no cell, no
transition. -/
def new : Item := ⟨none, ItemKey.cleared, INVALID_CELL, INVALID_INDEX⟩

/-- An item exists exactly when it has a payload. -/
def exist (item : Item) : Bool := item._payload.isSome

def getKey (item : Item) : ItemKey := item._key

def getCell (item : Item) : ItemCell := item._cell

def getTransitionId (item : Item) : Index := item._transitionId

def setTransitionId (item : Item) (id : Index) : Item := { item with _transitionId := id }

/-- The bound is asked of the payload, so there is none without a payload. -/
def getBound (item : Item) : Option AABox := item._payload.map Payload.bound

/-- Install a payload and take over the key it computes. -/
def resetPayload (item : Item) (payload : Payload) : Item :=
  { item with _payload := some payload, _key := payload.key }

/-- Store a cell "along with the small flag"; `resetCell()` without arguments
stores `INVALID_CELL` and `false`. -/
def resetCell (item : Item) (cell : ItemCell) (small : Bool) : Item :=
  { item with _cell := cell, _key := item._key.setSmaller small }

/-- Apply the mutation functor to the payload and recompute the key; there is no
result when the item has no payload. -/
def update (item : Item) (functor : UpdateFunctor) : Option Item :=
  match item._payload with
  | none => none
  | some payload => some { item with _payload := some (functor payload), _key := (functor payload).key }

/-- Mark the item dead: "payload cleared, key cleared, cell cleared". -/
def kill (item : Item) : Item :=
  { item with _payload := none, _key := ItemKey.cleared, _cell := INVALID_CELL }

/-- Append the ids of the payload's sub-items to `subItems` and report how many
were appended; there is no result when the item has no payload. -/
def fetchMetaSubItems (item : Item) (subItems : List ItemID) : Option (List ItemID × Nat) :=
  match item._payload with
  | none => none
  | some payload => some (subItems ++ payload.subItems, payload.subItems.length)

end Item

/-- Modelled from the spec: the spatial index, an external collaborator whose tree
internals are out of scope.  It records which id is filed under which cell;
`locate` stands for the placement the tree computes from a bound and a key (the
cell, and the "small" flag stored with it). -/
structure ItemSpatialTree where
  locate : AABox → ItemKey → ItemCell × Bool
  placed : Finset (ItemCell × ItemID)

namespace ItemSpatialTree

/-- Insert or relocate: the id leaves its old cell and is filed under the cell
computed from the new bound; returns that cell and the small flag. -/
def resetItem (tree : ItemSpatialTree) (oldCell : ItemCell) (_oldKey : ItemKey) (bound : AABox)
    (item : ItemID) (newKey : ItemKey) : ItemSpatialTree × ItemCell × Bool :=
  let located := tree.locate bound newKey
  ({ tree with placed := insert (located.1, item) (tree.placed.erase (oldCell, item)) },
    located.1, located.2)

/-- Take the id out of the given cell. -/
def removeItem (tree : ItemSpatialTree) (cell : ItemCell) (_key : ItemKey) (item : ItemID) :
    ItemSpatialTree :=
  { tree with placed := tree.placed.erase (cell, item) }

/-- The id is filed under some cell of the index. -/
def contains (tree : ItemSpatialTree) (item : ItemID) : Bool :=
  decide (∃ p ∈ tree.placed, p.2 = item)

end ItemSpatialTree

/-- Modelled from the spec: an entry of the transition stage, "(ItemID subject,
transition type tag, ItemID boundItem)". -/
structure Transition where
  itemId : ItemID
  eventType : TransitionType
  boundItemId : ItemID
deriving DecidableEq, Repr

/-- Modelled from the spec: the transition stage of the absent `TransitionStage.h`,
a "registry mapping transition IDs to (item, transition-type, bound-item)
triples".  Slot `i` holds the entry registered under transition id `i`, or
nothing when that id is not registered. -/
structure TransitionStage where
  _transitions : List (Option Transition)
deriving DecidableEq, Repr

namespace TransitionStage

/-- Modelled from the spec: the name under which the transition stage is registered,
`TransitionStage::getName()`. -/
def getName : String := "TRANSITION_STAGE"

/-- The entry registered under a transition id, if any. -/
def getTransition (stage : TransitionStage) (index : Index) : Option Transition :=
  if index < 0 then none else (stage._transitions.getD index.toNat none)

/-- Position of the first unregistered slot, or the length when all are taken. -/
def freeSlot : List (Option Transition) → Nat
  | [] => 0
  | none :: _ => 0
  | some _ :: rest => freeSlot rest + 1

/-- Register a new entry and obtain its transition id: the first free slot is
reused, and a new slot is appended when none is free. -/
def addTransition (stage : TransitionStage) (itemId : ItemID) (type : TransitionType)
    (boundId : ItemID) : TransitionStage × Index :=
  let slot := freeSlot stage._transitions
  let entry : Option Transition := some ⟨itemId, type, boundId⟩
  if slot < stage._transitions.length then
    (⟨stage._transitions.set slot entry⟩, (slot : Int))
  else
    (⟨stage._transitions ++ [entry]⟩, (slot : Int))

/-- Deregister a transition id; an id that is not registered is left alone. -/
def removeTransition (stage : TransitionStage) (index : Index) : TransitionStage :=
  if index < 0 then stage else ⟨stage._transitions.set index.toNat none⟩

end TransitionStage

/-- Modelled from the spec: a stage is a "named pluggable sub-registry"; the
transition stage is one instance, any other kind is left uninterpreted. -/
inductive Stage where
  | transition (stage : TransitionStage)
  | other (tag : Nat)
deriving DecidableEq, Repr

/-- A stage handle; `none` is the empty handle. -/
abbrev StagePointer := Option Stage

/-! ## Transaction -/

/-- The pending batch: parallel vectors, one group per operation stream.  The
payloads of the reset stream are never empty handles, because `resetItem` is
the only writer and diverts an empty handle to the remove stream. -/
structure Transaction where
  _resetItems : List ItemID
  _resetPayloads : List Payload
  _removedItems : List ItemID
  _updatedItems : List ItemID
  _updateFunctors : List UpdateFunctor
  _resetSelections : List Selection
  _transitioningItems : List ItemID
  _transitioningItemBounds : List ItemID
  _transitionTypes : List TransitionType

namespace Transaction

/-- The default-constructed transaction: every stream is empty. -/
def empty : Transaction := ⟨[], [], [], [], [], [], [], [], []⟩

def removeItem (t : Transaction) (id : ItemID) : Transaction :=
  { t with _removedItems := t._removedItems ++ [id] }

def resetItem (t : Transaction) (id : ItemID) (payload : Option Payload) : Transaction :=
  match payload with
  | some p => { t with _resetItems := t._resetItems ++ [id], _resetPayloads := t._resetPayloads ++ [p] }
  | none => t.removeItem id

def addTransitionToItem (t : Transaction) (id : ItemID) (transition : TransitionType)
    (boundId : ItemID) : Transaction :=
  { t with
    _transitioningItems := t._transitioningItems ++ [id],
    _transitioningItemBounds := t._transitioningItemBounds ++ [boundId],
    _transitionTypes := t._transitionTypes ++ [transition] }

def removeTransitionFromItem (t : Transaction) (id : ItemID) : Transaction :=
  { t with
    _transitioningItems := t._transitioningItems ++ [id],
    _transitioningItemBounds := t._transitioningItemBounds ++ [INVALID_ITEM_ID],
    _transitionTypes := t._transitionTypes ++ [TransitionType.NONE] }

def updateItem (t : Transaction) (id : ItemID) (functor : UpdateFunctor) : Transaction :=
  { t with _updatedItems := t._updatedItems ++ [id], _updateFunctors := t._updateFunctors ++ [functor] }

def resetSelection (t : Transaction) (selection : Selection) : Transaction :=
  { t with _resetSelections := t._resetSelections ++ [selection] }

/-- The argument is a const reference: `merge` reads it and writes only `this`. -/
def merge (t : Transaction) (transaction : Transaction) : Transaction :=
  { _resetItems := t._resetItems ++ transaction._resetItems,
    _resetPayloads := t._resetPayloads ++ transaction._resetPayloads,
    _removedItems := t._removedItems ++ transaction._removedItems,
    _updatedItems := t._updatedItems ++ transaction._updatedItems,
    _updateFunctors := t._updateFunctors ++ transaction._updateFunctors,
    _resetSelections := t._resetSelections ++ transaction._resetSelections,
    _transitioningItems := t._transitioningItems ++ transaction._transitioningItems,
    _transitioningItemBounds := t._transitioningItemBounds ++ transaction._transitioningItemBounds,
    _transitionTypes := t._transitionTypes ++ transaction._transitionTypes }

/-- Modelled from the spec: `Transaction::touchTransactions`, declared in the absent
`Scene.h`: "only if the consolidated batch touched selections". -/
def touchTransactions (t : Transaction) : Bool := !t._resetSelections.isEmpty

end Transaction

/-! ## Scene -/

/-- The scene: the two id counters, the queue of pending batches, the item store,
the spatial index, the non-spatial set, the selections and the stage registry. -/
structure Scene where
  _IDAllocator : Nat
  _numAllocatedItems : Nat
  _transactionQueue : List Transaction
  _items : List Item
  _masterSpatialTree : ItemSpatialTree
  _masterNonspatialSet : Finset ItemID
  _selections : List (String × Selection)
  _stages : List (String × StagePointer)

/-- The loop of `consolidateTransaction`: merge the front batch into `singleBatch`
and pop it, until the queue is empty.  Returns the queue and the batch. -/
def consolidateTransaction : List Transaction → Transaction → List Transaction × Transaction
  | [], singleBatch => ([], singleBatch)
  | transaction :: queue, singleBatch => consolidateTransaction queue (singleBatch.merge transaction)

/-- The effect of `vector::resize(n)` on the item store. -/
def resizeItems (items : List Item) (n : Nat) : List Item :=
  items.take n ++ List.replicate (n - items.length) Item.new

/-- The assignment `(*found).second = value` on a name-keyed map: the entry stored
under `name` takes the new value. -/
def assign {β : Type} (name : String) (value : β) (entries : List (String × β)) :
    List (String × β) :=
  entries.map (fun e => if e.1 == name then (e.1, value) else e)

namespace Scene

/-- The constructor: an empty scene around a spatial tree, with the slot of item
id 0 pushed.  Modelled from the spec: both counters start at 1 (their
initialisers are in the absent `Scene.h`; id 0 is reserved). -/
def new (locate : AABox → ItemKey → ItemCell × Bool) : Scene :=
  { _IDAllocator := 1, _numAllocatedItems := 1, _transactionQueue := [],
    _items := [Item.new], _masterSpatialTree := ⟨locate, ∅⟩, _masterNonspatialSet := ∅,
    _selections := [], _stages := [] }

/-- The atomic `fetch_add(1)`: returns the previous counter value. -/
def allocateID (s : Scene) : ItemID × Scene :=
  (s._IDAllocator, { s with _IDAllocator := s._IDAllocator + 1 })

def enqueueTransaction (s : Scene) (transaction : Transaction) : Scene :=
  { s with _transactionQueue := s._transactionQueue ++ [transaction] }

def getStage (s : Scene) (name : String) : StagePointer :=
  match s._stages.find? (fun e => e.1 == name) with
  | none => none
  | some found => found.2

def resetStage (s : Scene) (name : String) (stage : StagePointer) : Scene :=
  match s._stages.find? (fun e => e.1 == name) with
  | none => { s with _stages := s._stages ++ [(name, stage)] }
  | some _ => { s with _stages := assign name stage s._stages }

/-- The call `getStage<TransitionStage>(TransitionStage::getName())`; using the
handle fails when no transition stage is registered under that name. -/
def getTransitionStage (s : Scene) : Option TransitionStage :=
  match s.getStage TransitionStage.getName with
  | some (Stage.transition stage) => some stage
  | _ => none

/-- A mutation made through the shared stage handle: the stage registered under
the transition stage's name takes the new value. -/
def putTransitionStage (s : Scene) (stage : TransitionStage) : Scene :=
  { s with _stages := assign TransitionStage.getName (some (Stage.transition stage)) s._stages }

def getSelection (s : Scene) (name : String) : Selection :=
  match s._selections.find? (fun e => e.1 == name) with
  | none => ⟨"", []⟩
  | some found => found.2

def resetSelections : Scene → List Selection → Scene
  | s, [] => s
  | s, selection :: selections =>
    match s._selections.find? (fun e => e.1 == selection.name) with
    | none =>
      resetSelections { s with _selections := s._selections ++ [(selection.name, selection)] }
        selections
    | some _ =>
      resetSelections { s with _selections := assign selection.name selection s._selections }
        selections

/-- One pass through the loop body of `resetItems`, for the id and the payload the
two iterators point at.  The outer `if` is the `assert` on the old and the new
key; the bound is asked of the item after the payload has been installed. -/
def resetItemsBody (s : Scene) (resetID : ItemID) (resetPayload : Payload) : Option Scene :=
  match s._items[resetID]? with
  | none => none
  | some item0 =>
    let oldKey := item0.getKey
    let oldCell := item0.getCell
    let item := item0.resetPayload resetPayload
    let newKey := item.getKey
    if (oldKey.isSpatial == newKey.isSpatial) || oldKey.flagsNone then
      if newKey.isSpatial then
        match item.getBound with
        | none => none
        | some bound =>
          let r := s._masterSpatialTree.resetItem oldCell oldKey bound resetID newKey
          some { s with _items := s._items.set resetID (item.resetCell r.2.1 r.2.2),
                        _masterSpatialTree := r.1 }
      else
        some { s with _items := s._items.set resetID item,
                      _masterNonspatialSet := insert resetID s._masterNonspatialSet }
    else none

def resetItems : Scene → List ItemID → List Payload → Option Scene
  | s, [], _ => some s
  | _, _ :: _, [] => none
  | s, resetID :: ids, resetPayload :: payloads =>
    match s.resetItemsBody resetID resetPayload with
    | none => none
    | some s1 => resetItems s1 ids payloads

/-- The transition of an item is deregistered through the stage handle, when the
item holds one. -/
def removeTransitionOf (s : Scene) (item : Item) : Option Scene :=
  if item.getTransitionId != INVALID_INDEX then
    match s.getTransitionStage with
    | none => none
    | some stage => some (s.putTransitionStage (stage.removeTransition item.getTransitionId))
  else some s

/-- The step "remove the item" of `removeItems`: the id leaves the container that
its old key names. -/
def removeFromContainer (s : Scene) (oldCell : ItemCell) (oldKey : ItemKey) (removedID : ItemID) :
    Scene :=
  if oldKey.isSpatial then
    { s with _masterSpatialTree := s._masterSpatialTree.removeItem oldCell oldKey removedID }
  else
    { s with _masterNonspatialSet := s._masterNonspatialSet.erase removedID }

/-- One pass through the loop body of `removeItems`. -/
def removeItemsBody (s : Scene) (removedID : ItemID) : Option Scene :=
  match s._items[removedID]? with
  | none => none
  | some item =>
    let oldCell := item.getCell
    let oldKey := item.getKey
    match (s.removeFromContainer oldCell oldKey removedID).removeTransitionOf item with
    | none => none
    | some s2 => some { s2 with _items := s2._items.set removedID item.kill }

def removeItems : Scene → List ItemID → Option Scene
  | s, [] => some s
  | s, removedID :: ids =>
    match s.removeItemsBody removedID with
    | none => none
    | some s1 => removeItems s1 ids

/-- One pass through the loop body of `updateItems`, for the id and the functor the
two iterators point at. -/
def updateItemsBody (s : Scene) (updateID : ItemID) (updateFunctor : UpdateFunctor) :
    Option Scene :=
  if updateID == INVALID_ITEM_ID then some s
  else
    match s._items[updateID]? with
    | none => none
    | some item0 =>
      let oldCell := item0.getCell
      let oldKey := item0.getKey
      match item0.update updateFunctor with
      | none => none
      | some item =>
        let newKey := item.getKey
        if oldKey.isSpatial == newKey.isSpatial then
          if newKey.isSpatial then
            match item.getBound with
            | none => none
            | some bound =>
              let r := s._masterSpatialTree.resetItem oldCell oldKey bound updateID newKey
              some { s with _items := s._items.set updateID (item.resetCell r.2.1 r.2.2),
                            _masterSpatialTree := r.1 }
          else some { s with _items := s._items.set updateID item }
        else
          if newKey.isSpatial then
            match item.getBound with
            | none => none
            | some bound =>
              let r := s._masterSpatialTree.resetItem oldCell oldKey bound updateID newKey
              some { s with _items := s._items.set updateID (item.resetCell r.2.1 r.2.2),
                            _masterNonspatialSet := s._masterNonspatialSet.erase updateID,
                            _masterSpatialTree := r.1 }
          else
            some { s with _items := s._items.set updateID (item.resetCell INVALID_CELL false),
                          _masterSpatialTree :=
                            s._masterSpatialTree.removeItem oldCell oldKey updateID,
                          _masterNonspatialSet := insert updateID s._masterNonspatialSet }

def updateItems : Scene → List ItemID → List UpdateFunctor → Option Scene
  | s, [], _ => some s
  | _, _ :: _, [] => none
  | s, updateID :: ids, updateFunctor :: functors =>
    match s.updateItemsBody updateID updateFunctor with
    | none => none
    | some s1 => updateItems s1 ids functors

/-- The recursion of `collectSubItems` on the item store; `fuel` bounds its depth.
The loop runs over the positions `subItemBeginIndex ..< subItemBeginIndex +
subItemCount` of the growing vector. -/
def collectSubItems : Nat → List Item → ItemID → List ItemID → Option (List ItemID)
  | 0, _, _, _ => none
  | fuel + 1, items, parentId, subItems =>
    match items[parentId]? with
    | none => none
    | some item =>
      if item.exist then
        let subItemBeginIndex := subItems.length
        match item.fetchMetaSubItems subItems with
        | none => none
        | some fetched =>
          (List.range fetched.2).foldlM
            (fun (acc : List ItemID) (k : Nat) =>
              match acc[subItemBeginIndex + k]? with
              | none => none
              | some subItemId => collectSubItems fuel items subItemId acc)
            fetched.1
      else some subItems

/-- The loop of `setItemTransition` over the collected sub-items. -/
def setSubItemTransitions (transitionId : Index) : List Item → List ItemID → Option (List Item)
  | items, [] => some items
  | items, subItemId :: subItems =>
    match items[subItemId]? with
    | none => none
    | some subItem =>
      setSubItemTransitions transitionId (items.set subItemId (subItem.setTransitionId transitionId))
        subItems

def setItemTransition (fuel : Nat) (s : Scene) (itemId : ItemID) (transitionId : Index) :
    Option Scene :=
  match s._items[itemId]? with
  | none => none
  | some item =>
    if item.exist then
      let items := s._items.set itemId (item.setTransitionId transitionId)
      match collectSubItems fuel items itemId [] with
      | none => none
      | some subItems =>
        match setSubItemTransitions transitionId items subItems with
        | none => none
        | some items => some { s with _items := items }
    else some s

/-- The method `resetItemTransition`.  The stage handle is used without a check, so
there is no result when no transition stage is registered; the type `NONE` is
passed where `setItemTransition` expects a transition id. -/
def resetItemTransition (fuel : Nat) (s : Scene) (itemId : ItemID) : Option Scene :=
  match s._items[itemId]? with
  | none => none
  | some item =>
    match s.getTransitionStage with
    | none => none
    | some transitionStage =>
      Scene.setItemTransition fuel
        (s.putTransitionStage (transitionStage.removeTransition item.getTransitionId))
        itemId TransitionType.NONE.toIndex

/-- The registration of a new transition through the stage handle, when the type
is not `NONE`; returns the scene and the transition id to set. -/
def addTransitionFor (s : Scene) (itemId : ItemID) (type : TransitionType) (boundId : ItemID) :
    Option (Scene × Index) :=
  if type != TransitionType.NONE then
    match s.getTransitionStage with
    | some stage =>
      let r := stage.addTransition itemId type boundId
      some (s.putTransitionStage r.1, r.2)
    | none => none
  else some (s, INVALID_INDEX)

/-- One pass through the loop body of `transitionItems`, for the id, the type and
the bound id the range and the two iterators point at. -/
def transitionItemsBody (fuel : Nat) (s : Scene) (itemId : ItemID)
    (transitionType : TransitionType) (boundId : ItemID) : Option Scene :=
  match s._items[itemId]? with
  | none => none
  | some item =>
    if item.exist then
      match s.removeTransitionOf item with
      | none => none
      | some s1 =>
        match s1.addTransitionFor itemId transitionType boundId with
        | none => none
        | some r => r.1.setItemTransition fuel itemId r.2
    else some s

def transitionItems (fuel : Nat) :
    Scene → List ItemID → List TransitionType → List ItemID → Option Scene
  | s, [], _, _ => some s
  | s, itemId :: ids, transitionType :: types, boundId :: boundIds =>
    match s.transitionItemsBody fuel itemId transitionType boundId with
    | none => none
    | some s1 => transitionItems fuel s1 ids types boundIds
  | _, _ :: _, _, _ => none

def processTransactionQueue (fuel : Nat) (s : Scene) : Option Scene :=
  let consolidated := consolidateTransaction s._transactionQueue Transaction.empty
  let consolidatedTransaction := consolidated.2
  let s0 : Scene := { s with _transactionQueue := consolidated.1 }
  let maxID := s0._IDAllocator
  let s1 : Scene :=
    if maxID > s0._items.length then { s0 with _items := resizeItems s0._items (maxID + 100) }
    else s0
  match s1.resetItems consolidatedTransaction._resetItems consolidatedTransaction._resetPayloads with
  | none => none
  | some s2 =>
    let s3 : Scene := { s2 with _numAllocatedItems := maxID }
    match s3.updateItems consolidatedTransaction._updatedItems
        consolidatedTransaction._updateFunctors with
    | none => none
    | some s4 =>
      match s4.removeItems consolidatedTransaction._removedItems with
      | none => none
      | some s5 =>
        match s5.transitionItems fuel consolidatedTransaction._transitioningItems
            consolidatedTransaction._transitionTypes
            consolidatedTransaction._transitioningItemBounds with
        | none => none
        | some s6 =>
          let s7 : Scene := { s6 with _numAllocatedItems := maxID }
          if consolidatedTransaction.touchTransactions then
            some (s7.resetSelections consolidatedTransaction._resetSelections)
          else some s7

end Scene

/-! ## The avatar hold action

A shallow embedding of `interface/src/avatar/AvatarActionHold.cpp`.  The class
lives outside the `render` namespace in the source; its definitions are kept
under its own name `AvatarActionHold`.  The action's base classes, the argument
helpers, the avatar manager and the data stream are declared outside the
excerpt: the state they hold is a record, and their operations are taken as
arguments of the methods that call them.  A blocking lock is transparent to a
sequential run; the outcome of a non-blocking lock attempt is an input. -/

/-- Modelled from the spec: a `float`, given by its 32 bits (sign, 8 bits of
exponent, 23 bits of fraction). -/
structure Float32 where
  bits : Nat
deriving DecidableEq, Repr

namespace Float32

/-- Not a number: the exponent is all ones and the fraction is not zero. -/
def isNaN (f : Float32) : Bool := (f.bits / 2 ^ 23) % 256 == 255 && f.bits % 2 ^ 23 != 0

/-- The magnitude bits, without the sign. -/
def magnitude (f : Float32) : Nat := f.bits % 2 ^ 31

/-- The position of a number in the order of the floats: the magnitude, negated
when the sign bit is set (both zeros take the position 0). -/
def rank (f : Float32) : Int :=
  if (f.bits / 2 ^ 31) % 2 == 1 then -(f.magnitude : Int) else (f.magnitude : Int)

/-- The comparison `a != b` of two floats: true when either is not a number,
false for two zeros of any sign, and otherwise true when they differ. -/
def ne (a b : Float32) : Bool := a.isNaN || b.isNaN || a.rank != b.rank

/-- The comparison `a < b` of two floats: false when either is not a number. -/
def lt (a b : Float32) : Bool := !a.isNaN && !b.isNaN && decide (a.rank < b.rank)

/-- Modelled from the spec: `glm::max(x, y)`, which is `y` when `x < y` and `x`
otherwise. -/
def max (x y : Float32) : Float32 := if x.lt y then y else x

end Float32

/-- Modelled from the spec: `glm::vec3`, three floats. -/
structure Vec3 where
  x : Float32
  y : Float32
  z : Float32
deriving DecidableEq, Repr

/-- The comparison `a != b` of two vectors: some component differs. -/
def Vec3.ne (a b : Vec3) : Bool := a.x.ne b.x || a.y.ne b.y || a.z.ne b.z

/-- Modelled from the spec: `glm::quat`, four floats. -/
structure Quat where
  x : Float32
  y : Float32
  z : Float32
  w : Float32
deriving DecidableEq, Repr

/-- The comparison `a != b` of two quaternions: some component differs. -/
def Quat.ne (a b : Quat) : Bool := a.x.ne b.x || a.y.ne b.y || a.z.ne b.z || a.w.ne b.w

/-- A `QUuid`, given by its 128-bit value. -/
abbrev QUuid := Nat

/-- A `QByteArray`: a sequence of bytes. -/
abbrev QByteArray := List Nat

/-- Modelled from the spec: a value of the named-argument map. -/
inductive QVariant where
  | vec3 (v : Vec3)
  | quat (q : Quat)
  | float (f : Float32)
  | string (s : String)
  | invalid
deriving DecidableEq, Repr

/-- The named-argument map `QVariantMap`. -/
abbrev QVariantMap := List (String × QVariant)

/-- Modelled from the spec: the static argument helpers of `EntityActionInterface`,
declared outside the excerpt.  Each yields the value stored under the argument
name, or nothing (the flag `ok` set to false) when the entry is "missing,
invalid or malformed". -/
structure EntityActionInterface where
  extractVec3Argument : QVariantMap → String → Option Vec3
  extractQuatArgument : QVariantMap → String → Option Quat
  extractFloatArgument : QVariantMap → String → Option Float32
  extractStringArgument : QVariantMap → String → Option String

/-- Modelled from the spec: the state of the base class `ObjectAction` that the hold
action reads and writes: type tag, id, active flag, expiry, tag, the owner
entity (a weak handle; when the owner is alive its action-data-dirty flag), and
whether the physics body has been activated. -/
structure ObjectAction where
  _type : Nat
  _id : QUuid
  _active : Bool
  _expires : Nat
  _tag : String
  _ownerEntity : Option Bool
  bodyActivated : Bool
deriving DecidableEq, Repr

/-- Modelled from the spec: the state that `ObjectActionSpring` adds: the positional
and rotational targets and the two time scales. -/
structure ObjectActionSpring extends ObjectAction where
  _positionalTarget : Vec3
  _rotationalTarget : Quat
  _linearTimeScale : Float32
  _angularTimeScale : Float32
deriving DecidableEq, Repr

/-- The hold action: the spring action plus the pose relative to the palm, the hand
side and the holder's id. -/
structure AvatarActionHold extends ObjectActionSpring where
  _relativePosition : Vec3
  _relativeRotation : Quat
  _hand : String
  _holderID : QUuid
deriving DecidableEq, Repr

/-- Modelled from the spec: what the tick asks of the holder's avatar, the pose of
its two palms. -/
structure Avatar where
  rightPalmPosition : Vec3
  rightPalmRotation : Quat
  leftPalmPosition : Vec3
  leftPalmRotation : Quat
deriving DecidableEq, Repr

/-- The collaborators that the hold action calls and the excerpt does not define:
`ObjectAction::updateArguments` (acts on the base-class state and reports
whether it changed something), the session id of the local user's avatar,
the avatar manager's lookup by session id, the quaternion and vector
arithmetic, and `ObjectActionSpring::updateActionWorker`. -/
structure HoldCollaborators where
  objectActionUpdateArguments : QVariantMap → ObjectAction → Bool × ObjectAction
  mySessionUUID : QUuid
  getAvatarBySessionID : QUuid → Option Avatar
  quatMul : Quat → Quat → Quat
  quatRotate : Quat → Vec3 → Vec3
  vecAdd : Vec3 → Vec3 → Vec3
  springUpdateActionWorker : Float32 → ObjectActionSpring → ObjectActionSpring

/-- Modelled from the spec: the readers `dataStream >> value` of `QDataStream` for
the field types of the persisted record.  Each takes the bytes not yet read and
yields the value and the bytes that remain. -/
structure QDataStream where
  readEntityActionType : QByteArray → Nat × QByteArray
  readQUuid : QByteArray → QUuid × QByteArray
  readUInt16 : QByteArray → Nat × QByteArray
  readVec3 : QByteArray → Vec3 × QByteArray
  readQuat : QByteArray → Quat × QByteArray
  readFloat : QByteArray → Float32 × QByteArray
  readQString : QByteArray → String × QByteArray
  readUInt64 : QByteArray → Nat × QByteArray

/-- Modelled from the spec: the writers `dataStream << value` of `QDataStream` for
the field types of the persisted record.  Each yields the bytes that the value
adds to the end of the record. -/
structure QDataStreamWriter where
  writeEntityActionType : Nat → QByteArray
  writeQUuid : QUuid → QByteArray
  writeUInt16 : Nat → QByteArray
  writeVec3 : Vec3 → QByteArray
  writeQuat : Quat → QByteArray
  writeFloat : Float32 → QByteArray
  writeQString : String → QByteArray
  writeUInt64 : Nat → QByteArray

namespace AvatarActionHold

def holdVersion : Nat := 1

/-- The constant `MIN_TIMESCALE = 0.1f`: the float nearest to 0.1 has the bits
`0x3DCCCCCD`. -/
def MIN_TIMESCALE : Float32 := ⟨0x3DCCCCCD⟩

/-- The outcome of a tick: the state of the action, and whether the tick called
`ObjectActionSpring::updateActionWorker`. -/
structure Tick where
  action : AvatarActionHold
  forwarded : Bool
deriving DecidableEq, Repr

/-- One tick.  `readLocked` and `writeLocked` tell whether `withTryReadLock` and
`withTryWriteLock` acquire their lock; a block whose lock is not acquired does
not run. -/
def updateActionWorker (world : HoldCollaborators) (readLocked writeLocked : Bool)
    (self : AvatarActionHold) (deltaTimeStep : Float32) : Tick :=
  let gotLock := readLocked
  let holdingAvatar : Option Avatar :=
    if readLocked then world.getAvatarBySessionID self._holderID else none
  match holdingAvatar with
  | some avatar =>
    let palmPosition :=
      if self._hand == "right" then avatar.rightPalmPosition else avatar.leftPalmPosition
    let palmRotation :=
      if self._hand == "right" then avatar.rightPalmRotation else avatar.leftPalmRotation
    let rotation := world.quatMul palmRotation self._relativeRotation
    let offset := world.quatRotate rotation self._relativePosition
    let position := world.vecAdd palmPosition offset
    let attempt : Bool × AvatarActionHold :=
      if gotLock then
        if writeLocked then
          (true, { self with _positionalTarget := position, _rotationalTarget := rotation })
        else (false, self)
      else (gotLock, self)
    if attempt.1 then
      ⟨{ attempt.2 with
          toObjectActionSpring :=
            world.springUpdateActionWorker deltaTimeStep attempt.2.toObjectActionSpring }, true⟩
    else ⟨attempt.2, false⟩
  | none => ⟨self, false⟩

/-- The locals of `updateArguments` at the end of its read block. -/
structure Update where
  relativePosition : Vec3
  relativeRotation : Quat
  timeScale : Float32
  hand : String
  holderID : QUuid
  needUpdate : Bool
deriving DecidableEq, Repr

/-- The read block of `updateArguments`: each argument is extracted, an argument
that is not there stands back for the stored value, and the decision
`needUpdate` is taken. -/
def readArguments (api : EntityActionInterface) (world : HoldCollaborators)
    (somethingChanged : Bool) (self : AvatarActionHold) (arguments : QVariantMap) : Update :=
  let relativePosition :=
    match api.extractVec3Argument arguments "relativePosition" with
    | some v => v
    | none => self._relativePosition
  let relativeRotation :=
    match api.extractQuatArgument arguments "relativeRotation" with
    | some q => q
    | none => self._relativeRotation
  let timeScale :=
    match api.extractFloatArgument arguments "timeScale" with
    | some f => f
    | none => self._linearTimeScale
  let hand :=
    match api.extractStringArgument arguments "hand" with
    | some h => if !(h == "left" || h == "right") then self._hand else h
    | none => self._hand
  let holderID := world.mySessionUUID
  { relativePosition := relativePosition, relativeRotation := relativeRotation,
    timeScale := timeScale, hand := hand, holderID := holderID,
    needUpdate :=
      somethingChanged || relativePosition.ne self._relativePosition
        || relativeRotation.ne self._relativeRotation || timeScale.ne self._linearTimeScale
        || hand != self._hand || holderID != self._holderID }

/-- The method `updateArguments`: returns the value the method returns and the
state it leaves. -/
def updateArguments (api : EntityActionInterface) (world : HoldCollaborators)
    (self : AvatarActionHold) (arguments : QVariantMap) : Bool × AvatarActionHold :=
  let base := world.objectActionUpdateArguments arguments self.toObjectAction
  let somethingChanged := base.1
  let self1 : AvatarActionHold := { self with toObjectAction := base.2 }
  let read := readArguments api world somethingChanged self1 arguments
  if read.needUpdate then
    let linearTimeScale := Float32.max MIN_TIMESCALE read.timeScale
    (true,
      { self1 with
        _relativePosition := read.relativePosition,
        _relativeRotation := read.relativeRotation,
        _linearTimeScale := linearTimeScale,
        _angularTimeScale := linearTimeScale,
        _hand := read.hand,
        _holderID := read.holderID,
        _active := true,
        _ownerEntity := self1._ownerEntity.map (fun _ => true),
        bodyActivated := true })
  else (true, self1)

/-- Modelled from the spec: the type tag `ACTION_TYPE_HOLD` of a hold action; its
value is declared in the absent `EntityActionInterface.h`. -/
def ACTION_TYPE_HOLD : Nat := 3000

/-- The method `serialize`: the fields are written one after the other. -/
def serialize (dataStream : QDataStreamWriter) (self : AvatarActionHold) : QByteArray :=
  dataStream.writeEntityActionType ACTION_TYPE_HOLD
    ++ dataStream.writeQUuid self._id
    ++ dataStream.writeUInt16 holdVersion
    ++ dataStream.writeQUuid self._holderID
    ++ dataStream.writeVec3 self._relativePosition
    ++ dataStream.writeQuat self._relativeRotation
    ++ dataStream.writeFloat self._linearTimeScale
    ++ dataStream.writeQString self._hand
    ++ dataStream.writeUInt64 self._expires
    ++ dataStream.writeQString self._tag

/-- The method `deserialize`; there is no result when one of its two `assert`s
fails. -/
def deserialize (stream : QDataStream) (self : AvatarActionHold)
    (serializedArguments : QByteArray) : Option AvatarActionHold :=
  let type := stream.readEntityActionType serializedArguments
  if type.1 != self._type then none
  else
    let id := stream.readQUuid type.2
    if id.1 != self._id then none
    else
      let serializationVersion := stream.readUInt16 id.2
      if serializationVersion.1 != holdVersion then some self
      else
        let holderID := stream.readQUuid serializationVersion.2
        let relativePosition := stream.readVec3 holderID.2
        let relativeRotation := stream.readQuat relativePosition.2
        let linearTimeScale := stream.readFloat relativeRotation.2
        let hand := stream.readQString linearTimeScale.2
        let expires := stream.readUInt64 hand.2
        let tag := stream.readQString expires.2
        some { self with
          _holderID := holderID.1,
          _relativePosition := relativePosition.1,
          _relativeRotation := relativeRotation.1,
          _linearTimeScale := linearTimeScale.1,
          _angularTimeScale := linearTimeScale.1,
          _hand := hand.1,
          _expires := expires.1,
          _tag := tag.1,
          _active := true }

end AvatarActionHold

/-! # Specification-level definitions -/

/-! ## The commit in stages, and what the stages leave alone -/

/-- The commit as the spec words it: the queue is drained, its batches merged in
FIFO order into one batch, the store grown, and then the stages run in the
fixed order reset, update, remove, transition, selection reset (the visible-id
counter is published after the resets and again after the transitions). -/
def Scene.commitInStages (fuel : Nat) (s : Scene) : Option Scene :=
  let batch := s._transactionQueue.foldl Transaction.merge Transaction.empty
  let maxID := s._IDAllocator
  let grown := if s._items.length < maxID then resizeItems s._items (maxID + 100) else s._items
  let start : Scene := { s with _transactionQueue := [], _items := grown }
  (start.resetItems batch._resetItems batch._resetPayloads).bind fun afterResets =>
  (Scene.updateItems { afterResets with _numAllocatedItems := maxID }
    batch._updatedItems batch._updateFunctors).bind fun afterUpdates =>
  (afterUpdates.removeItems batch._removedItems).bind fun afterRemoves =>
  (afterRemoves.transitionItems fuel batch._transitioningItems batch._transitionTypes
    batch._transitioningItemBounds).bind fun afterTransitions =>
  some (Scene.resetSelections { afterTransitions with _numAllocatedItems := maxID }
    batch._resetSelections)

/-- The parts of a scene that the item stages never write: both counters, the
queue, the selections, the size of the store and the placement function. -/
def Scene.sameFrame (s s1 : Scene) : Prop :=
  s1._IDAllocator = s._IDAllocator ∧ s1._numAllocatedItems = s._numAllocatedItems
  ∧ s1._transactionQueue = s._transactionQueue ∧ s1._selections = s._selections
  ∧ s1._items.length = s._items.length
  ∧ s1._masterSpatialTree.locate = s._masterSpatialTree.locate

/-! ## Operations as producers enqueue them -/

/-- An operation on an item as a producer enqueues it: a reset with a payload, an
update, a remove, or a transition descriptor (a transition removal is the
descriptor of type `NONE`). -/
inductive Op where
  | reset (id : ItemID) (payload : Payload)
  | update (id : ItemID) (functor : UpdateFunctor)
  | remove (id : ItemID)
  | transition (id : ItemID) (type : TransitionType) (boundId : ItemID)

namespace Op

/-- The item an operation targets. -/
def id : Op → ItemID
  | reset i _ => i
  | update i _ => i
  | remove i => i
  | transition i _ _ => i

/-- The position of the operation's kind in the commit: resets are stage 0, updates
stage 1, removes stage 2, transitions stage 3. -/
def stage : Op → Nat
  | reset _ _ => 0
  | update _ _ => 1
  | remove _ => 2
  | transition _ _ _ => 3

/-- The producer call that appends the operation to a transaction. -/
def record (t : Transaction) : Op → Transaction
  | reset i payload => t.resetItem i (some payload)
  | update i functor => t.updateItem i functor
  | remove i => t.removeItem i
  | transition i type boundId => t.addTransitionToItem i type boundId

end Op

/-- The transaction a producer builds by appending the operations in order. -/
def Transaction.ofOps (ops : List Op) : Transaction :=
  ops.foldl Op.record Transaction.empty

/-- Applying one operation: one pass through the loop body of its stage. -/
def Scene.applyOp (fuel : Nat) (s : Scene) : Op → Option Scene
  | Op.reset i payload => s.resetItemsBody i payload
  | Op.update i functor => s.updateItemsBody i functor
  | Op.remove i => s.removeItemsBody i
  | Op.transition i type boundId => s.transitionItemsBody fuel i type boundId

/-- The order in which a commit applies operations enqueued in the order `ops`:
stage by stage, and within a stage in enqueue order. -/
def stageOrder (ops : List Op) : List Op :=
  ops.filter (fun o => o.stage == 0) ++ ops.filter (fun o => o.stage == 1)
    ++ ops.filter (fun o => o.stage == 2) ++ ops.filter (fun o => o.stage == 3)

/-- The start of a commit: the queue is drained and the store grown to hold every
allocated id. -/
def Scene.beginCommit (s : Scene) : Scene :=
  { s with
    _transactionQueue := [],
    _items := if s._items.length < s._IDAllocator then resizeItems s._items (s._IDAllocator + 100)
              else s._items }

/-- The publication of the visible-id counter. -/
def Scene.publish (maxID : Nat) (s : Scene) : Scene := { s with _numAllocatedItems := maxID }

/-! ## The classification of items into the two containers -/

/-- Where the containers should file an id, as the item store tells it. -/
inductive Placement where
  | absent
  | nonspatial
  | spatial (cell : ItemCell)
deriving DecidableEq, Repr

/-- The placement an item calls for: a live item with a spatial key belongs in the
spatial index under its cell, a live item with a non-spatial key in the
non-spatial set, a dead item nowhere. -/
def Item.placement (item : Item) : Placement :=
  if item.exist then
    if item.getKey.isSpatial then Placement.spatial item.getCell else Placement.nonspatial
  else Placement.absent

/-- The placement that the slot stored under an id calls for; an id beyond the
store calls for none. -/
def Scene.expected (s : Scene) (id : ItemID) : Placement :=
  match s._items[id]? with
  | none => Placement.absent
  | some item => item.placement

/-- The non-spatial set and the spatial index file the id as the placement says. -/
def filedAs (set : Finset ItemID) (placed : Finset (ItemCell × ItemID)) (id : ItemID) :
    Placement → Prop
  | Placement.absent => id ∉ set ∧ ∀ c, (c, id) ∉ placed
  | Placement.nonspatial => id ∈ set ∧ ∀ c, (c, id) ∉ placed
  | Placement.spatial cell => id ∉ set ∧ ∀ c, (c, id) ∈ placed ↔ c = cell

/-- The classification invariant: every id is filed as its slot calls for. -/
def Scene.classified (s : Scene) : Prop :=
  ∀ id, filedAs s._masterNonspatialSet s._masterSpatialTree.placed id (s.expected id)

/-- A reset respects the classification of its target: the item is dead, or its
key has the spatial flag of the payload's key. -/
def Scene.resetKeepsClass (s : Scene) (id : ItemID) (payload : Payload) : Bool :=
  match s._items[id]? with
  | none => true
  | some item => !item.exist || (item.getKey.isSpatial == payload.key.isSpatial)

/-- Every reset of the stream respects the classification of its target at the time
it is applied. -/
def Scene.resetsKeepClass : Scene → List ItemID → List Payload → Bool
  | s, id :: ids, payload :: payloads =>
    s.resetKeepsClass id payload &&
      (match s.resetItemsBody id payload with
       | none => true
       | some s1 => s1.resetsKeepClass ids payloads)
  | _, _, _ => true

/-- Every reset of the batch that a commit is about to consolidate respects the
classification of its target. -/
def Scene.commitKeepsClass (s : Scene) : Bool :=
  s.beginCommit.resetsKeepClass
    (s._transactionQueue.foldl Transaction.merge Transaction.empty)._resetItems
    (s._transactionQueue.foldl Transaction.merge Transaction.empty)._resetPayloads

/-- The scenes reached from a freshly constructed one by allocating ids,
registering stages, enqueuing transactions and making commits that complete and
whose resets respect the classification of their targets. -/
inductive Scene.Reached (locate : AABox → ItemKey → ItemCell × Bool) : Scene → Prop where
  | fresh : Scene.Reached locate (Scene.new locate)
  | allocate {s : Scene} : Scene.Reached locate s → Scene.Reached locate s.allocateID.2
  | stage {s : Scene} (name : String) (stage : StagePointer) :
      Scene.Reached locate s → Scene.Reached locate (s.resetStage name stage)
  | enqueue {s : Scene} (transaction : Transaction) :
      Scene.Reached locate s → Scene.Reached locate (s.enqueueTransaction transaction)
  | commit {s s1 : Scene} (fuel : Nat) :
      Scene.Reached locate s → s.commitKeepsClass = true →
      s.processTransactionQueue fuel = some s1 → Scene.Reached locate s1

/-! ## The sub-item graph -/

/-- The ids that the payload stored under `p` lists as its sub-items; a dead slot
and an id beyond the store list none. -/
def subItemsOf (items : List Item) (p : ItemID) : List ItemID :=
  match items[p]? with
  | none => []
  | some item =>
    match item._payload with
    | none => []
    | some payload => payload.subItems

/-- The id `c` is a direct sub-item of the item stored under `p`. -/
def isSubItem (items : List Item) (p c : ItemID) : Prop := c ∈ subItemsOf items p

/-- The id `c` is reachable from `p` through live items: it is a direct sub-item of
`p`, or a sub-item of a (live) item that is itself reachable. -/
def Reach (items : List Item) : ItemID → ItemID → Prop := Relation.TransGen (isSubItem items)

/-- The sub-item graph below `id` is acyclic: neither `id` nor any sub-item
reachable from it is reachable from itself. -/
def AcyclicFrom (items : List Item) (id : ItemID) : Prop :=
  ∀ x, (x = id ∨ Reach items id x) → ¬ Reach items x x

/-- Every sub-item reachable from `id` indexes a slot of the store. -/
def SubItemsInStore (items : List Item) (id : ItemID) : Prop :=
  ∀ x, Reach items id x → x < items.length

/-- With at least `N` units of fuel, `collectSubItems` on `c` appends `D`, and `D`
lists exactly the ids reachable from `c`. -/
def collectsTo (items : List Item) (c : ItemID) (N : Nat) (D : List ItemID) : Prop :=
  (∀ x, x ∈ D ↔ Reach items c x)
  ∧ ∀ m, N ≤ m → ∀ acc, Scene.collectSubItems m items c acc = some (acc ++ D)

/-! ## Committing a remove -/

/-- The commit of a single `removeItem(id)`: the transaction is enqueued and the
queue processed. -/
def Scene.commitRemove (fuel : Nat) (s : Scene) (id : ItemID) : Option Scene :=
  (s.enqueueTransaction (Transaction.empty.removeItem id)).processTransactionQueue fuel

/-- The committed state that a remove may touch: the item store, the spatial index,
the non-spatial set and the transition stage. -/
def Scene.observed (s : Scene) :
    List Item × Finset (ItemCell × ItemID) × Finset ItemID × Option TransitionStage :=
  (s._items, s._masterSpatialTree.placed, s._masterNonspatialSet, s.getTransitionStage)

/-- The transition id that a dead or live item holds is not registered: it is the
sentinel, or the registered stage has no entry under it. -/
def Scene.holdsNoTransition (s : Scene) (item : Item) : Prop :=
  item.getTransitionId = INVALID_INDEX
    ∨ ∃ st, s.getTransitionStage = some st ∧ st.getTransition item.getTransitionId = none

/-! ## Concrete scenes used as test inputs -/

/-- A placement function for the test scenes: the cell is the first coordinate of
the bound's corner, the small flag is the key's. -/
def demoLocate : AABox → ItemKey → ItemCell × Bool := fun b k => (b.corner.1, k.small)

/-- A payload with a spatial key and no sub-items. -/
def demoSpatialPayload : Payload := ⟨⟨true, false, 1⟩, ⟨(7, 0, 0), (1, 1, 1)⟩, []⟩

/-- A fresh scene after one `allocateID`, which returned id 1, with one queued
transaction that records `removeItem(1)` and then `resetItem(1, payload)`. -/
def demoRemoveThenReset : Scene :=
  ((Scene.new demoLocate).allocateID).2.enqueueTransaction
    ((Transaction.empty.removeItem 1).resetItem 1 (some demoSpatialPayload))

/-- A payload whose key has no flag set: non-spatial, not small, no tags. -/
def demoPlainPayload : Payload := ⟨ItemKey.cleared, ⟨(0, 0, 0), (1, 1, 1)⟩, []⟩

/-- A fresh scene after one `allocateID` (id 1) and a completed commit of
`resetItem(1, payload)` with the spatial test payload. -/
def demoSpatialItem : Option Scene :=
  (((Scene.new demoLocate).allocateID).2.enqueueTransaction
    (Transaction.empty.resetItem 1 (some demoSpatialPayload))).processTransactionQueue 0

/-- The scene that the commit of `demoSpatialItem` produces. -/
def demoSpatialScene : Scene := demoSpatialItem.get (by decide)

/-- A fresh scene after one `allocateID` (id 1), a commit of `resetItem(1, plain
payload)` and a second commit of `resetItem(1, spatial payload)`. -/
def demoResetTwice : Option Scene :=
  ((((Scene.new demoLocate).allocateID).2.enqueueTransaction
      (Transaction.empty.resetItem 1 (some demoPlainPayload))).processTransactionQueue 0).bind
    fun s => (s.enqueueTransaction
      (Transaction.empty.resetItem 1 (some demoSpatialPayload))).processTransactionQueue 0

/-- An update functor that turns the key of a payload non-spatial. -/
def demoMakeNonspatial : UpdateFunctor := fun p => { p with key := { p.key with spatial := false } }

/-- A small store for the sub-item tests: slot 1 holds a live item with the
sub-items 2 and 3, slot 2 a live item with the sub-item 3, slot 3 a live item
without sub-items, and slot 4 a live item that is nobody's sub-item. -/
def demoFamily : Scene :=
  { _IDAllocator := 5, _numAllocatedItems := 5, _transactionQueue := [],
    _items :=
      [Item.new,
       ⟨some ⟨⟨false, false, 1⟩, ⟨(0, 0, 0), (1, 1, 1)⟩, [2, 3]⟩, ⟨false, false, 1⟩, -1, -1⟩,
       ⟨some ⟨⟨false, false, 1⟩, ⟨(0, 0, 0), (1, 1, 1)⟩, [3]⟩, ⟨false, false, 1⟩, -1, -1⟩,
       ⟨some ⟨⟨false, false, 1⟩, ⟨(0, 0, 0), (1, 1, 1)⟩, []⟩, ⟨false, false, 1⟩, -1, -1⟩,
       ⟨some ⟨⟨false, false, 1⟩, ⟨(0, 0, 0), (1, 1, 1)⟩, []⟩, ⟨false, false, 1⟩, -1, -1⟩],
    _masterSpatialTree := ⟨demoLocate, ∅⟩, _masterNonspatialSet := {1, 2, 3, 4},
    _selections := [],
    _stages := [(TransitionStage.getName, some (Stage.transition ⟨[]⟩))] }

/-- A payload with a non-spatial key that lists item 2 as its sub-item. -/
def demoParentPayload : Payload := ⟨⟨false, false, 1⟩, ⟨(0, 0, 0), (1, 1, 1)⟩, [2]⟩

/-- A payload with a non-spatial key and no sub-items. -/
def demoLeafPayload : Payload := ⟨⟨false, false, 1⟩, ⟨(0, 0, 0), (1, 1, 1)⟩, []⟩

/-- A fresh scene with an empty transition stage registered, ids 1 and 2 allocated,
and a completed commit that created item 1 (whose sub-item is item 2) and
item 2. -/
def demoParentAndChild : Option Scene :=
  (((((Scene.new demoLocate).resetStage TransitionStage.getName
        (some (Stage.transition ⟨[]⟩))).allocateID).2.allocateID).2.enqueueTransaction
    ((Transaction.empty.resetItem 1 (some demoParentPayload)).resetItem 2
      (some demoLeafPayload))).processTransactionQueue 2

/-- From `demoParentAndChild`: a commit of a transition on the sub-item 2, then a
commit of a transition on its parent 1, then a commit of one batch with two
transition descriptors for item 2. -/
def demoTwoDescriptors : Option Scene :=
  demoParentAndChild.bind fun s0 =>
  ((s0.enqueueTransaction
      (Transaction.empty.addTransitionToItem 2 (TransitionType.tag 1) 0)).processTransactionQueue
    2).bind fun s1 =>
  ((s1.enqueueTransaction
      (Transaction.empty.addTransitionToItem 1 (TransitionType.tag 1) 0)).processTransactionQueue
    2).bind fun s2 =>
  (s2.enqueueTransaction
      ((Transaction.empty.addTransitionToItem 2 (TransitionType.tag 2) 0).addTransitionToItem 2
        (TransitionType.tag 3) 0)).processTransactionQueue 2

/-- The scene `demoResetTwice` yields: item 1 is alive with a spatial key and a
member of both containers. -/
def demoFiledTwice : Scene := demoResetTwice.get (by decide)

/-- A fresh scene with an empty transition stage registered and ids 1 and 2
allocated, after a commit that created item 1 (which lists the never-created
item 2 as its sub-item) and a commit of a transition on item 1. -/
def demoDeadSubItem : Option Scene :=
  ((((((Scene.new demoLocate).resetStage TransitionStage.getName
        (some (Stage.transition ⟨[]⟩))).allocateID).2.allocateID).2.enqueueTransaction
    (Transaction.empty.resetItem 1 (some demoParentPayload))).processTransactionQueue 2).bind
  fun s => (s.enqueueTransaction
    (Transaction.empty.addTransitionToItem 1 (TransitionType.tag 1) 0)).processTransactionQueue 2

/-! ## Scenes that follow one another -/

/-- The batch that a commit consolidates from the queue. -/
def Scene.batch (s : Scene) : Transaction :=
  s._transactionQueue.foldl Transaction.merge Transaction.empty

/-! ## The states a commit passes through -/

/-- Every live item of the store that holds a transition id other than the
sentinel refers to an entry registered in the transition stage. -/
def Scene.transitionsRegistered (s : Scene) : Prop :=
  ∀ (id : ItemID) (item : Item), s._items[id]? = some item → item.exist = true →
    item.getTransitionId ≠ INVALID_INDEX →
    ∃ st entry, s.getTransitionStage = some st ∧ st.getTransition item.getTransitionId = some entry

/-- From `demoParentAndChild` (live item 1 with the live sub-item 2): a commit of a
transition on item 1, then a commit of `removeItem(1)`. -/
def demoRemovedParent : Option Scene :=
  demoParentAndChild.bind fun s0 =>
  ((s0.enqueueTransaction
      (Transaction.empty.addTransitionToItem 1 (TransitionType.tag 1) 0)).processTransactionQueue
    2).bind fun s1 =>
  (s1.enqueueTransaction (Transaction.empty.removeItem 1)).processTransactionQueue 2

/-- From `demoParentAndChild`: a commit of a transition on item 1, then a commit of
`removeTransitionFromItem(2)` for its sub-item. -/
def demoClearedSubItem : Option Scene :=
  demoParentAndChild.bind fun s0 =>
  ((s0.enqueueTransaction
      (Transaction.empty.addTransitionToItem 1 (TransitionType.tag 1) 0)).processTransactionQueue
    2).bind fun s1 =>
  (s1.enqueueTransaction (Transaction.empty.removeTransitionFromItem 2)).processTransactionQueue 2

/-! ## The hold action: the decision to update, and test inputs -/

/-- The hand argument names no hand: it is missing or malformed, or it is neither
"left" nor "right". -/
def AvatarActionHold.handRejected (api : EntityActionInterface) (arguments : QVariantMap) : Bool :=
  match api.extractStringArgument arguments "hand" with
  | none => true
  | some h => !(h == "left" || h == "right")

/-- The state on which the read block of `updateArguments` runs: the action after
`ObjectAction::updateArguments` has acted on its base-class state. -/
def AvatarActionHold.afterBase (world : HoldCollaborators) (self : AvatarActionHold)
    (arguments : QVariantMap) : AvatarActionHold :=
  { self with toObjectAction := (world.objectActionUpdateArguments arguments self.toObjectAction).2 }

/-- The internal decision of `updateArguments` to apply the update: the value of the
local `needUpdate` when its read block ends.  It is not what the call returns. -/
def AvatarActionHold.needsUpdate (api : EntityActionInterface) (world : HoldCollaborators)
    (self : AvatarActionHold) (arguments : QVariantMap) : Bool :=
  (AvatarActionHold.readArguments api world
    (world.objectActionUpdateArguments arguments self.toObjectAction).1
    (self.afterBase world arguments) arguments).needUpdate

/-- Argument helpers for the test inputs: the entry stored under the name, when it
has the type asked for. -/
def demoInterface : EntityActionInterface :=
  { extractVec3Argument := fun arguments name =>
      match arguments.lookup name with
      | some (QVariant.vec3 v) => some v
      | _ => none,
    extractQuatArgument := fun arguments name =>
      match arguments.lookup name with
      | some (QVariant.quat q) => some q
      | _ => none,
    extractFloatArgument := fun arguments name =>
      match arguments.lookup name with
      | some (QVariant.float f) => some f
      | _ => none,
    extractStringArgument := fun arguments name =>
      match arguments.lookup name with
      | some (QVariant.string s) => some s
      | _ => none }

/-- An avatar for the test inputs, with both palms at the origin. -/
def demoAvatar : Avatar :=
  ⟨⟨⟨0⟩, ⟨0⟩, ⟨0⟩⟩, ⟨⟨0⟩, ⟨0⟩, ⟨0⟩, ⟨0x3F800000⟩⟩, ⟨⟨0⟩, ⟨0⟩, ⟨0⟩⟩, ⟨⟨0⟩, ⟨0⟩, ⟨0⟩, ⟨0x3F800000⟩⟩⟩

/-- Collaborators for the test inputs: a base class that changes nothing, the local
session id 7, one known avatar (session id 7), and arithmetic that returns its
first operand. -/
def demoWorld : HoldCollaborators :=
  { objectActionUpdateArguments := fun _ base => (false, base),
    mySessionUUID := 7,
    getAvatarBySessionID := fun id => if id == 7 then some demoAvatar else none,
    quatMul := fun a _ => a,
    quatRotate := fun _ v => v,
    vecAdd := fun a _ => a,
    springUpdateActionWorker := fun _ spring => spring }

/-- A hold action for the test inputs: type tag 3000, id 42, held by session 7 in
the left hand, with time scale 1.0. -/
def demoHold : AvatarActionHold :=
  { _type := 3000, _id := 42, _active := true, _expires := 0, _tag := "",
    _ownerEntity := some false, bodyActivated := false,
    _positionalTarget := ⟨⟨0⟩, ⟨0⟩, ⟨0⟩⟩, _rotationalTarget := ⟨⟨0⟩, ⟨0⟩, ⟨0⟩, ⟨0x3F800000⟩⟩,
    _linearTimeScale := ⟨0x3F800000⟩, _angularTimeScale := ⟨0x3F800000⟩,
    _relativePosition := ⟨⟨0⟩, ⟨0⟩, ⟨0⟩⟩, _relativeRotation := ⟨⟨0⟩, ⟨0⟩, ⟨0⟩, ⟨0x3F800000⟩⟩,
    _hand := "left", _holderID := 7 }

/-- The first `n` bytes read as a big-endian number, and the bytes that remain. -/
def readBigEndian (n : Nat) (bytes : QByteArray) : Nat × QByteArray :=
  ((bytes.take n).foldl (fun acc b => acc * 256 + b) 0, bytes.drop n)

/-- A data stream for the test inputs: numbers are big-endian (two bytes for a type
tag and for a 16-bit number, sixteen for an id, four for a float, eight for a
64-bit number), a vector is its components in order, and a string is a
four-byte length followed by one byte per character. -/
def demoStream : QDataStream :=
  { readEntityActionType := readBigEndian 2,
    readQUuid := readBigEndian 16,
    readUInt16 := readBigEndian 2,
    readVec3 := fun bytes =>
      (⟨⟨(readBigEndian 4 bytes).1⟩, ⟨(readBigEndian 4 (bytes.drop 4)).1⟩,
         ⟨(readBigEndian 4 (bytes.drop 8)).1⟩⟩, bytes.drop 12),
    readQuat := fun bytes =>
      (⟨⟨(readBigEndian 4 bytes).1⟩, ⟨(readBigEndian 4 (bytes.drop 4)).1⟩,
         ⟨(readBigEndian 4 (bytes.drop 8)).1⟩, ⟨(readBigEndian 4 (bytes.drop 12)).1⟩⟩,
        bytes.drop 16),
    readFloat := fun bytes => (⟨(readBigEndian 4 bytes).1⟩, bytes.drop 4),
    readQString := fun bytes =>
      (String.mk (((bytes.drop 4).take (readBigEndian 4 bytes).1).map Char.ofNat),
        (bytes.drop 4).drop (readBigEndian 4 bytes).1),
    readUInt64 := readBigEndian 8 }

/-- A record for the hold action `demoHold` (type tag 3000, id 42) with the version
field 2, followed by a holder id and nothing else. -/
def demoRecordOfVersion2 : QByteArray :=
  [11, 184] ++ (List.replicate 15 0 ++ [42]) ++ [0, 2] ++ (List.replicate 15 0 ++ [9])

/-- Some component of the vector is not a number. -/
def Vec3.hasNaN (v : Vec3) : Bool := v.x.isNaN || v.y.isNaN || v.z.isNaN

/-- Some component of the quaternion is not a number. -/
def Quat.hasNaN (q : Quat) : Bool := q.x.isNaN || q.y.isNaN || q.z.isNaN || q.w.isNaN

/-! ## Transactions as producers build them -/

/-- The transactions that producers can make: the empty transaction, a transaction
extended by one of the six recording calls, and a transaction merged with
another such transaction. -/
inductive Transaction.Built : Transaction → Prop where
  | empty : Transaction.Built Transaction.empty
  | resetItem {t : Transaction} (id : ItemID) (payload : Option Payload) :
      Transaction.Built t → Transaction.Built (t.resetItem id payload)
  | removeItem {t : Transaction} (id : ItemID) :
      Transaction.Built t → Transaction.Built (t.removeItem id)
  | updateItem {t : Transaction} (id : ItemID) (functor : UpdateFunctor) :
      Transaction.Built t → Transaction.Built (t.updateItem id functor)
  | addTransitionToItem {t : Transaction} (id : ItemID) (transition : TransitionType)
      (boundId : ItemID) :
      Transaction.Built t → Transaction.Built (t.addTransitionToItem id transition boundId)
  | removeTransitionFromItem {t : Transaction} (id : ItemID) :
      Transaction.Built t → Transaction.Built (t.removeTransitionFromItem id)
  | resetSelection {t : Transaction} (selection : Selection) :
      Transaction.Built t → Transaction.Built (t.resetSelection selection)
  | merge {t transaction : Transaction} :
      Transaction.Built t → Transaction.Built transaction →
      Transaction.Built (t.merge transaction)

/-- The parallel streams of a transaction are aligned: ids and payloads of the
resets, ids and functors of the updates, and ids, types and bound ids of the
transitions come in equal numbers. -/
def Transaction.aligned (t : Transaction) : Prop :=
  t._resetItems.length = t._resetPayloads.length
    ∧ t._updatedItems.length = t._updateFunctors.length
    ∧ t._transitioningItems.length = t._transitionTypes.length
    ∧ t._transitioningItems.length = t._transitioningItemBounds.length

/-! ## Resetting the transition of an item -/

/-- From `demoParentAndChild` (live item 1 with the live sub-item 2): a commit of a
transition on item 1, after which both items hold the transition id 0. -/
def demoTransitionOnParent : Option Scene :=
  demoParentAndChild.bind fun s0 =>
  (s0.enqueueTransaction
    (Transaction.empty.addTransitionToItem 1 (TransitionType.tag 1) 0)).processTransactionQueue 2

/-- What the transition tests look at: the transition ids of the items 1 and 2, and
the transition stage. -/
def Scene.transitionView (s : Scene) : Option Index × Option Index × Option TransitionStage :=
  (s._items[1]?.map Item.getTransitionId, s._items[2]?.map Item.getTransitionId,
    s.getTransitionStage)

/-! ## The persisted record of the hold action -/

/-- The reader gives back a written value: reading the bytes that `write` makes of
`value`, whatever bytes follow them, yields `value` and the bytes that follow. -/
def Inverts {α : Type} (read : QByteArray → α × QByteArray) (write : α → QByteArray)
    (value : α) : Prop :=
  ∀ rest, read (write value ++ rest) = (value, rest)

/-- The readers of `reader` give back each field as `writer` writes it for the
record of the action. -/
def QDataStreamWriter.readBackBy (writer : QDataStreamWriter) (reader : QDataStream)
    (action : AvatarActionHold) : Prop :=
  Inverts reader.readEntityActionType writer.writeEntityActionType
      AvatarActionHold.ACTION_TYPE_HOLD
    ∧ Inverts reader.readQUuid writer.writeQUuid action._id
    ∧ Inverts reader.readUInt16 writer.writeUInt16 AvatarActionHold.holdVersion
    ∧ Inverts reader.readQUuid writer.writeQUuid action._holderID
    ∧ Inverts reader.readVec3 writer.writeVec3 action._relativePosition
    ∧ Inverts reader.readQuat writer.writeQuat action._relativeRotation
    ∧ Inverts reader.readFloat writer.writeFloat action._linearTimeScale
    ∧ Inverts reader.readQString writer.writeQString action._hand
    ∧ Inverts reader.readUInt64 writer.writeUInt64 action._expires
    ∧ Inverts reader.readQString writer.writeQString action._tag

/-- The last `n` base-256 digits of a number, most significant first. -/
def writeBigEndian : Nat → Nat → QByteArray
  | 0, _ => []
  | n + 1, value => writeBigEndian n (value / 256) ++ [value % 256]

/-- The writers that go with `demoStream`. -/
def demoWriter : QDataStreamWriter :=
  { writeEntityActionType := writeBigEndian 2,
    writeQUuid := writeBigEndian 16,
    writeUInt16 := writeBigEndian 2,
    writeVec3 := fun v =>
      writeBigEndian 4 v.x.bits ++ writeBigEndian 4 v.y.bits ++ writeBigEndian 4 v.z.bits,
    writeQuat := fun q =>
      writeBigEndian 4 q.x.bits ++ writeBigEndian 4 q.y.bits ++ writeBigEndian 4 q.z.bits
        ++ writeBigEndian 4 q.w.bits,
    writeFloat := fun f => writeBigEndian 4 f.bits,
    writeQString := fun s => writeBigEndian 4 s.length ++ s.data.map Char.toNat,
    writeUInt64 := writeBigEndian 8 }

/-- A second hold action with the type tag and the id of `demoHold`: held by
session 9 in the right hand at the offset (1.0, 0, 0), with time scale 0.5, the
expiry 5 and the tag "t", and not active. -/
def demoHeldRight : AvatarActionHold :=
  { demoHold with
    _active := false, _expires := 5, _tag := "t",
    _linearTimeScale := ⟨0x3F000000⟩, _angularTimeScale := ⟨0x3F800000⟩,
    _relativePosition := ⟨⟨0x3F800000⟩, ⟨0⟩, ⟨0⟩⟩,
    _hand := "right", _holderID := 9 }

/-! # Properties -/

/-! ## Transaction: merge and the null-payload reset -/

/-- C1: merge is associative: merging B into A and then C into the result gives the
same transaction, stream by stream, as merging C into B and then that result
into A. -/
theorem merge_assoc (A B C : Transaction) :
    (A.merge B).merge C = A.merge (B.merge C) := by
  simp [Transaction.merge, List.append_assoc]

/-- C2: after `T.merge O` every stream of T is T's old stream followed by O's stream
(O itself is only read: it is a const reference, a value in this embedding), and
merging an empty transaction changes nothing. -/
theorem merge_appends (T O : Transaction) :
    (T.merge O)._resetItems = T._resetItems ++ O._resetItems
    ∧ (T.merge O)._resetPayloads = T._resetPayloads ++ O._resetPayloads
    ∧ (T.merge O)._removedItems = T._removedItems ++ O._removedItems
    ∧ (T.merge O)._updatedItems = T._updatedItems ++ O._updatedItems
    ∧ (T.merge O)._updateFunctors = T._updateFunctors ++ O._updateFunctors
    ∧ (T.merge O)._resetSelections = T._resetSelections ++ O._resetSelections
    ∧ (T.merge O)._transitioningItems = T._transitioningItems ++ O._transitioningItems
    ∧ (T.merge O)._transitioningItemBounds
        = T._transitioningItemBounds ++ O._transitioningItemBounds
    ∧ (T.merge O)._transitionTypes = T._transitionTypes ++ O._transitionTypes
    ∧ T.merge Transaction.empty = T := by
  refine ⟨rfl, rfl, rfl, rfl, rfl, rfl, rfl, rfl, rfl, ?_⟩
  simp [Transaction.merge, Transaction.empty]

/-- C3: `resetItem` with an empty payload handle is total, is exactly `removeItem`,
leaves the reset stream (ids and payloads) unchanged and appends the id to the
remove stream; with a payload `p` it appends `(id, p)` to the reset stream and
leaves the remove stream unchanged. -/
theorem resetItem_null_is_remove (T : Transaction) (id : ItemID) (p : Payload) :
    T.resetItem id none = T.removeItem id
    ∧ (T.resetItem id none)._resetItems = T._resetItems
    ∧ (T.resetItem id none)._resetPayloads = T._resetPayloads
    ∧ (T.resetItem id none)._removedItems = T._removedItems ++ [id]
    ∧ (T.resetItem id (some p))._resetItems = T._resetItems ++ [id]
    ∧ (T.resetItem id (some p))._resetPayloads = T._resetPayloads ++ [p]
    ∧ (T.resetItem id (some p))._removedItems = T._removedItems :=
  ⟨rfl, rfl, rfl, rfl, rfl, rfl, rfl⟩

/-! ## Frame lemmas: what the stages leave alone -/

theorem sameFrame_refl (s : Scene) : s.sameFrame s := ⟨rfl, rfl, rfl, rfl, rfl, rfl⟩

theorem sameFrame_trans {a b c : Scene} (h1 : a.sameFrame b) (h2 : b.sameFrame c) :
    a.sameFrame c :=
  ⟨h2.1.trans h1.1, h2.2.1.trans h1.2.1, h2.2.2.1.trans h1.2.2.1,
    h2.2.2.2.1.trans h1.2.2.2.1, h2.2.2.2.2.1.trans h1.2.2.2.2.1,
    h2.2.2.2.2.2.trans h1.2.2.2.2.2⟩

theorem resetItemsBody_frame {s s1 : Scene} {id : ItemID} {p : Payload}
    (h : s.resetItemsBody id p = some s1) : s.sameFrame s1 := by
  simp only [Scene.resetItemsBody] at h
  repeat' split at h
  all_goals first
    | (simp at h; done)
    | (simp only [Option.some.injEq] at h; subst h
       simp [Scene.sameFrame, ItemSpatialTree.resetItem])

theorem putTransitionStage_frame (s : Scene) (st : TransitionStage) :
    s.sameFrame (s.putTransitionStage st) := ⟨rfl, rfl, rfl, rfl, rfl, rfl⟩

theorem removeTransitionOf_frame {s s1 : Scene} {item : Item}
    (h : s.removeTransitionOf item = some s1) : s.sameFrame s1 ∧ s1._items = s._items := by
  unfold Scene.removeTransitionOf at h
  repeat' split at h
  all_goals first
    | (simp at h; done)
    | (simp only [Option.some.injEq] at h; subst h
       simp [Scene.sameFrame, Scene.putTransitionStage])

theorem removeFromContainer_frame (s : Scene) (c : ItemCell) (k : ItemKey) (id : ItemID) :
    s.sameFrame (s.removeFromContainer c k id)
      ∧ (s.removeFromContainer c k id)._items = s._items
      ∧ (s.removeFromContainer c k id)._stages = s._stages := by
  unfold Scene.removeFromContainer
  split <;> exact ⟨⟨rfl, rfl, rfl, rfl, rfl, rfl⟩, rfl, rfl⟩

theorem removeItemsBody_frame {s s1 : Scene} {id : ItemID}
    (h : s.removeItemsBody id = some s1) : s.sameFrame s1 := by
  simp only [Scene.removeItemsBody] at h
  split at h
  · simp at h
  · rename_i item hitem
    split at h
    · simp at h
    · rename_i s2 h2
      simp only [Option.some.injEq] at h; subst h
      obtain ⟨a1, a2, a3, a4, a5, a6⟩ :=
        sameFrame_trans (removeFromContainer_frame s _ _ _).1 (removeTransitionOf_frame h2).1
      exact ⟨a1, a2, a3, a4, by simpa using a5, a6⟩

theorem updateItemsBody_frame {s s1 : Scene} {id : ItemID} {f : UpdateFunctor}
    (h : s.updateItemsBody id f = some s1) : s.sameFrame s1 := by
  simp only [Scene.updateItemsBody] at h
  repeat' split at h
  all_goals first
    | (simp at h; done)
    | (simp only [Option.some.injEq] at h; subst h
       simp [Scene.sameFrame, ItemSpatialTree.resetItem, ItemSpatialTree.removeItem])

theorem setSubItemTransitions_length {t : Index} {items items1 : List Item} {subs : List ItemID}
    (h : Scene.setSubItemTransitions t items subs = some items1) : items1.length = items.length := by
  induction subs generalizing items with
  | nil => simp [Scene.setSubItemTransitions] at h; subst h; rfl
  | cons x xs ih =>
    simp only [Scene.setSubItemTransitions] at h
    split at h
    · simp at h
    · rw [ih h, List.length_set]

theorem setItemTransition_frame {fuel : Nat} {s s1 : Scene} {id : ItemID} {t : Index}
    (h : s.setItemTransition fuel id t = some s1) :
    s.sameFrame s1 ∧ s1._stages = s._stages ∧ s1._masterSpatialTree = s._masterSpatialTree
      ∧ s1._masterNonspatialSet = s._masterNonspatialSet := by
  simp only [Scene.setItemTransition] at h
  repeat' split at h
  all_goals first
    | (simp at h; done)
    | (simp only [Option.some.injEq] at h; subst h
       rename_i h2
       simp [Scene.sameFrame, setSubItemTransitions_length h2])
    | (simp only [Option.some.injEq] at h; subst h
       simp [Scene.sameFrame])

theorem addTransitionFor_frame {s : Scene} {id b : ItemID} {ty : TransitionType}
    {r : Scene × Index} (h : s.addTransitionFor id ty b = some r) :
    s.sameFrame r.1 ∧ r.1._items = s._items ∧ r.1._masterSpatialTree = s._masterSpatialTree
      ∧ r.1._masterNonspatialSet = s._masterNonspatialSet := by
  simp only [Scene.addTransitionFor] at h
  repeat' split at h
  all_goals first
    | (simp at h; done)
    | (simp only [Option.some.injEq] at h; subst h
       simp [Scene.sameFrame, Scene.putTransitionStage])

theorem transitionItemsBody_frame {fuel : Nat} {s s1 : Scene} {id b : ItemID} {ty : TransitionType}
    (h : s.transitionItemsBody fuel id ty b = some s1) : s.sameFrame s1 := by
  simp only [Scene.transitionItemsBody] at h
  split at h
  · simp at h
  · split at h
    · split at h
      · simp at h
      · rename_i s2 h2
        split at h
        · simp at h
        · rename_i r h3
          exact sameFrame_trans (removeTransitionOf_frame h2).1
            (sameFrame_trans (addTransitionFor_frame h3).1 (setItemTransition_frame h).1)
    · simp only [Option.some.injEq] at h; subst h; exact sameFrame_refl _

theorem resetItems_frame {s s1 : Scene} {ids : List ItemID} {ps : List Payload}
    (h : s.resetItems ids ps = some s1) : s.sameFrame s1 := by
  induction ids generalizing s ps with
  | nil => simp [Scene.resetItems] at h; subst h; exact sameFrame_refl _
  | cons id ids ih =>
    cases ps with
    | nil => simp [Scene.resetItems] at h
    | cons p ps =>
      simp only [Scene.resetItems] at h
      split at h
      · simp at h
      · rename_i s2 h2
        exact sameFrame_trans (resetItemsBody_frame h2) (ih h)

theorem updateItems_frame {s s1 : Scene} {ids : List ItemID} {fs : List UpdateFunctor}
    (h : s.updateItems ids fs = some s1) : s.sameFrame s1 := by
  induction ids generalizing s fs with
  | nil => simp [Scene.updateItems] at h; subst h; exact sameFrame_refl _
  | cons id ids ih =>
    cases fs with
    | nil => simp [Scene.updateItems] at h
    | cons p ps =>
      simp only [Scene.updateItems] at h
      split at h
      · simp at h
      · rename_i s2 h2
        exact sameFrame_trans (updateItemsBody_frame h2) (ih h)

theorem removeItems_frame {s s1 : Scene} {ids : List ItemID}
    (h : s.removeItems ids = some s1) : s.sameFrame s1 := by
  induction ids generalizing s with
  | nil => simp [Scene.removeItems] at h; subst h; exact sameFrame_refl _
  | cons id ids ih =>
    simp only [Scene.removeItems] at h
    split at h
    · simp at h
    · rename_i s2 h2
      exact sameFrame_trans (removeItemsBody_frame h2) (ih h)

theorem transitionItems_frame {fuel : Nat} {s s1 : Scene} {ids : List ItemID}
    {tys : List TransitionType} {bs : List ItemID}
    (h : s.transitionItems fuel ids tys bs = some s1) : s.sameFrame s1 := by
  induction ids generalizing s tys bs with
  | nil => simp [Scene.transitionItems] at h; subst h; exact sameFrame_refl _
  | cons id ids ih =>
    cases tys with
    | nil => simp [Scene.transitionItems] at h
    | cons ty tys =>
      cases bs with
      | nil => simp [Scene.transitionItems] at h
      | cons b bs =>
        simp only [Scene.transitionItems] at h
        split at h
        · simp at h
        · rename_i s2 h2
          exact sameFrame_trans (transitionItemsBody_frame h2) (ih h)

theorem resetSelections_frame (s : Scene) (sels : List Selection) :
    (s.resetSelections sels)._transactionQueue = s._transactionQueue
    ∧ (s.resetSelections sels)._items = s._items
    ∧ (s.resetSelections sels)._masterSpatialTree = s._masterSpatialTree
    ∧ (s.resetSelections sels)._masterNonspatialSet = s._masterNonspatialSet
    ∧ (s.resetSelections sels)._stages = s._stages
    ∧ (s.resetSelections sels)._IDAllocator = s._IDAllocator
    ∧ (s.resetSelections sels)._numAllocatedItems = s._numAllocatedItems := by
  induction sels generalizing s with
  | nil => simp [Scene.resetSelections]
  | cons x xs ih =>
    simp only [Scene.resetSelections]
    split <;> simp [ih]

/-! ## The commit protocol -/

theorem consolidateTransaction_eq (queue : List Transaction) (singleBatch : Transaction) :
    consolidateTransaction queue singleBatch = ([], queue.foldl Transaction.merge singleBatch) := by
  induction queue generalizing singleBatch with
  | nil => rfl
  | cons t q ih => simp [consolidateTransaction, ih]

theorem resetSelections_if_touch (s : Scene) (t : Transaction) :
    (if t.touchTransactions then some (s.resetSelections t._resetSelections) else some s)
      = some (s.resetSelections t._resetSelections) := by
  unfold Transaction.touchTransactions
  cases h : t._resetSelections with
  | nil => simp [Scene.resetSelections]
  | cons x xs => simp

theorem processTransactionQueue_eq_stages (fuel : Nat) (s : Scene) :
    s.processTransactionQueue fuel = s.commitInStages fuel := by
  simp only [Scene.processTransactionQueue, Scene.commitInStages, consolidateTransaction_eq,
    gt_iff_lt, resetSelections_if_touch]
  by_cases h : s._items.length < s._IDAllocator <;> simp only [h, if_true, if_false] <;>
    repeat (split <;> rename_i heq <;> simp only [heq, Option.none_bind, Option.some_bind])

theorem foldl_merge_stream {α : Type} (stream : Transaction → List α)
    (hmerge : ∀ a b : Transaction, stream (a.merge b) = stream a ++ stream b)
    (queue : List Transaction) (t : Transaction) :
    stream (queue.foldl Transaction.merge t) = stream t ++ (queue.map stream).flatten := by
  induction queue generalizing t with
  | nil => simp
  | cons x xs ih => simp [ih, hmerge, List.append_assoc]

theorem commitInStages_queue {fuel : Nat} {s s1 : Scene} (h : s.commitInStages fuel = some s1) :
    s1._transactionQueue = [] := by
  simp only [Scene.commitInStages, Option.bind_eq_some, Option.some.injEq] at h
  obtain ⟨a, h1, b, h2, c, h3, d, h4, h⟩ := h
  subst h
  rw [(resetSelections_frame _ _).1]
  have e1 := (resetItems_frame h1).2.2.1
  have e2 := (updateItems_frame h2).2.2.1
  have e3 := (removeItems_frame h3).2.2.1
  have e4 := (transitionItems_frame h4).2.2.1
  simp only at e1 e2 ⊢
  rw [e4, e3, e2, e1]

/-- C5: for every scene state and queue, `processTransactionQueue` is the commit in
stages: the queued batches merged in FIFO order into one batch (each stream of
the batch is the concatenation, in queue order, of that stream of the queued
batches), the store grown, then all resets, all updates, all removes, all
transitions and all selection resets of that batch in this fixed order; and the
state it produces has an empty queue. -/
theorem processTransactionQueue_stage_order (fuel : Nat) (s : Scene) :
    s.processTransactionQueue fuel = s.commitInStages fuel
    ∧ (∀ s1, s.processTransactionQueue fuel = some s1 → s1._transactionQueue = [])
    ∧ (∀ batch, batch = s._transactionQueue.foldl Transaction.merge Transaction.empty →
        batch._resetItems = (s._transactionQueue.map Transaction._resetItems).flatten
        ∧ batch._resetPayloads = (s._transactionQueue.map Transaction._resetPayloads).flatten
        ∧ batch._updatedItems = (s._transactionQueue.map Transaction._updatedItems).flatten
        ∧ batch._updateFunctors = (s._transactionQueue.map Transaction._updateFunctors).flatten
        ∧ batch._removedItems = (s._transactionQueue.map Transaction._removedItems).flatten
        ∧ batch._transitioningItems
            = (s._transactionQueue.map Transaction._transitioningItems).flatten
        ∧ batch._transitionTypes = (s._transactionQueue.map Transaction._transitionTypes).flatten
        ∧ batch._transitioningItemBounds
            = (s._transactionQueue.map Transaction._transitioningItemBounds).flatten
        ∧ batch._resetSelections
            = (s._transactionQueue.map Transaction._resetSelections).flatten) := by
  refine ⟨processTransactionQueue_eq_stages fuel s, ?_, ?_⟩
  · intro s1 h
    rw [processTransactionQueue_eq_stages] at h
    exact commitInStages_queue h
  · intro batch hb
    subst hb
    refine ⟨?_, ?_, ?_, ?_, ?_, ?_, ?_, ?_, ?_⟩ <;>
      exact (foldl_merge_stream _ (fun _ _ => rfl) _ _).trans (by simp [Transaction.empty])

/-! ## The order in which a commit applies the queued operations -/

theorem record_eq_merge (t : Transaction) (o : Op) :
    Op.record t o = t.merge (Op.record Transaction.empty o) := by
  cases o <;>
    simp [Op.record, Transaction.merge, Transaction.empty, Transaction.resetItem,
      Transaction.updateItem, Transaction.removeItem, Transaction.addTransitionToItem]

theorem foldl_record_stream {α : Type} (stream : Transaction → List α)
    (hmerge : ∀ a b : Transaction, stream (a.merge b) = stream a ++ stream b)
    (ops : List Op) (t : Transaction) :
    stream (ops.foldl Op.record t)
      = stream t ++ (ops.map (fun o => stream (Op.record Transaction.empty o))).flatten := by
  induction ops generalizing t with
  | nil => simp
  | cons x xs ih =>
    simp only [List.foldl_cons, List.map_cons, List.flatten_cons]
    rw [ih, record_eq_merge, hmerge, List.append_assoc]

theorem queue_stream {α : Type} (stream : Transaction → List α)
    (hmerge : ∀ a b : Transaction, stream (a.merge b) = stream a ++ stream b)
    (hempty : stream Transaction.empty = [])
    (batches : List (List Op)) :
    stream ((batches.map Transaction.ofOps).foldl Transaction.merge Transaction.empty)
      = (batches.flatten.map (fun o => stream (Op.record Transaction.empty o))).flatten := by
  rw [foldl_merge_stream stream hmerge, hempty, List.nil_append]
  induction batches with
  | nil => simp
  | cons b bs ih =>
    simp only [List.map_cons, List.flatten_cons, List.map_append, List.flatten_append, ih]
    congr 1
    unfold Transaction.ofOps
    rw [foldl_record_stream stream hmerge, hempty, List.nil_append]

theorem resetItems_ops (fuel : Nat) (ops : List Op) (s : Scene) :
    s.resetItems (ops.map (fun o => (Op.record Transaction.empty o)._resetItems)).flatten
        (ops.map (fun o => (Op.record Transaction.empty o)._resetPayloads)).flatten
      = (ops.filter (fun o => o.stage == 0)).foldlM (Scene.applyOp fuel) s := by
  induction ops generalizing s with
  | nil => simp [Scene.resetItems]
  | cons o os ih =>
    cases o with
    | reset i p =>
      simp only [List.map_cons, List.flatten_cons, Op.record, Transaction.resetItem,
        Transaction.empty, List.nil_append, List.singleton_append, Scene.resetItems, Op.stage,
        beq_self_eq_true, List.filter_cons_of_pos, List.foldlM_cons, Scene.applyOp]
      cases h : s.resetItemsBody i p with
      | none => rfl
      | some s1 => simpa using ih s1
    | update i f => simpa [Op.record, Transaction.updateItem, Transaction.empty, Op.stage] using ih s
    | remove i => simpa [Op.record, Transaction.removeItem, Transaction.empty, Op.stage] using ih s
    | transition i ty b =>
      simpa [Op.record, Transaction.addTransitionToItem, Transaction.empty, Op.stage] using ih s

theorem updateItems_ops (fuel : Nat) (ops : List Op) (s : Scene) :
    s.updateItems (ops.map (fun o => (Op.record Transaction.empty o)._updatedItems)).flatten
        (ops.map (fun o => (Op.record Transaction.empty o)._updateFunctors)).flatten
      = (ops.filter (fun o => o.stage == 1)).foldlM (Scene.applyOp fuel) s := by
  induction ops generalizing s with
  | nil => simp [Scene.updateItems]
  | cons o os ih =>
    cases o with
    | update i f =>
      simp only [List.map_cons, List.flatten_cons, Op.record, Transaction.updateItem,
        Transaction.empty, List.nil_append, List.singleton_append, Scene.updateItems, Op.stage,
        beq_self_eq_true, List.filter_cons_of_pos, List.foldlM_cons, Scene.applyOp]
      cases h : s.updateItemsBody i f with
      | none => rfl
      | some s1 => simpa using ih s1
    | reset i p =>
      simpa [Op.record, Transaction.resetItem, Transaction.empty, Op.stage] using ih s
    | remove i => simpa [Op.record, Transaction.removeItem, Transaction.empty, Op.stage] using ih s
    | transition i ty b =>
      simpa [Op.record, Transaction.addTransitionToItem, Transaction.empty, Op.stage] using ih s

theorem removeItems_ops (fuel : Nat) (ops : List Op) (s : Scene) :
    s.removeItems (ops.map (fun o => (Op.record Transaction.empty o)._removedItems)).flatten
      = (ops.filter (fun o => o.stage == 2)).foldlM (Scene.applyOp fuel) s := by
  induction ops generalizing s with
  | nil => simp [Scene.removeItems]
  | cons o os ih =>
    cases o with
    | remove i =>
      simp only [List.map_cons, List.flatten_cons, Op.record, Transaction.removeItem,
        Transaction.empty, List.nil_append, List.singleton_append, Scene.removeItems, Op.stage,
        beq_self_eq_true, List.filter_cons_of_pos, List.foldlM_cons, Scene.applyOp]
      cases h : s.removeItemsBody i with
      | none => rfl
      | some s1 => simpa using ih s1
    | reset i p =>
      simpa [Op.record, Transaction.resetItem, Transaction.empty, Op.stage] using ih s
    | update i f => simpa [Op.record, Transaction.updateItem, Transaction.empty, Op.stage] using ih s
    | transition i ty b =>
      simpa [Op.record, Transaction.addTransitionToItem, Transaction.empty, Op.stage] using ih s

theorem transitionItems_ops (fuel : Nat) (ops : List Op) (s : Scene) :
    s.transitionItems fuel
        (ops.map (fun o => (Op.record Transaction.empty o)._transitioningItems)).flatten
        (ops.map (fun o => (Op.record Transaction.empty o)._transitionTypes)).flatten
        (ops.map (fun o => (Op.record Transaction.empty o)._transitioningItemBounds)).flatten
      = (ops.filter (fun o => o.stage == 3)).foldlM (Scene.applyOp fuel) s := by
  induction ops generalizing s with
  | nil => simp [Scene.transitionItems]
  | cons o os ih =>
    cases o with
    | transition i ty b =>
      simp only [List.map_cons, List.flatten_cons, Op.record, Transaction.addTransitionToItem,
        Transaction.empty, List.nil_append, List.singleton_append, Scene.transitionItems, Op.stage,
        beq_self_eq_true, List.filter_cons_of_pos, List.foldlM_cons, Scene.applyOp]
      cases h : s.transitionItemsBody fuel i ty b with
      | none => rfl
      | some s1 => simpa using ih s1
    | reset i p =>
      simpa [Op.record, Transaction.resetItem, Transaction.empty, Op.stage] using ih s
    | update i f => simpa [Op.record, Transaction.updateItem, Transaction.empty, Op.stage] using ih s
    | remove i => simpa [Op.record, Transaction.removeItem, Transaction.empty, Op.stage] using ih s

theorem removeFromContainer_publish (n : Nat) (s : Scene) (c : ItemCell) (k : ItemKey)
    (id : ItemID) :
    Scene.removeFromContainer (Scene.publish n s) c k id
      = Scene.publish n (s.removeFromContainer c k id) := by
  unfold Scene.removeFromContainer
  split <;> rfl

theorem removeTransitionOf_publish (n : Nat) (s : Scene) (item : Item) :
    Scene.removeTransitionOf (Scene.publish n s) item
      = (s.removeTransitionOf item).map (Scene.publish n) := by
  simp only [Scene.removeTransitionOf, Scene.publish, Scene.getTransitionStage, Scene.getStage]
  repeat' split
  all_goals rfl

theorem addTransitionFor_publish (n : Nat) (s : Scene) (i b : ItemID) (ty : TransitionType) :
    Scene.addTransitionFor (Scene.publish n s) i ty b
      = (s.addTransitionFor i ty b).map (fun r => (Scene.publish n r.1, r.2)) := by
  simp only [Scene.addTransitionFor, Scene.publish, Scene.getTransitionStage, Scene.getStage]
  repeat' split
  all_goals rfl

theorem setItemTransition_publish (fuel n : Nat) (s : Scene) (i : ItemID) (t : Index) :
    Scene.setItemTransition fuel (Scene.publish n s) i t
      = (s.setItemTransition fuel i t).map (Scene.publish n) := by
  simp only [Scene.setItemTransition, Scene.publish]
  repeat' split
  all_goals rfl

theorem applyOp_publish (fuel n : Nat) (s : Scene) (o : Op) :
    Scene.applyOp fuel (Scene.publish n s) o = (Scene.applyOp fuel s o).map (Scene.publish n) := by
  cases o with
  | reset i p =>
    simp only [Scene.applyOp, Scene.resetItemsBody, Scene.publish]
    repeat' split
    all_goals rfl
  | update i f =>
    simp only [Scene.applyOp, Scene.updateItemsBody, Scene.publish]
    repeat' split
    all_goals rfl
  | remove i =>
    simp only [Scene.applyOp, Scene.removeItemsBody]
    have e : (Scene.publish n s)._items = s._items := rfl
    rw [e]
    cases s._items[i]? with
    | none => rfl
    | some item =>
      simp only
      rw [removeFromContainer_publish, removeTransitionOf_publish]
      cases Scene.removeTransitionOf _ item with
      | none => rfl
      | some s2 => rfl
  | transition i ty b =>
    simp only [Scene.applyOp, Scene.transitionItemsBody]
    have e : (Scene.publish n s)._items = s._items := rfl
    rw [e]
    cases s._items[i]? with
    | none => rfl
    | some item =>
      simp only
      split
      · rw [removeTransitionOf_publish]
        cases Scene.removeTransitionOf s item with
        | none => rfl
        | some s1 =>
          simp only [Option.map_some']
          rw [addTransitionFor_publish]
          cases Scene.addTransitionFor s1 i ty b with
          | none => rfl
          | some r => simp only [Option.map_some']; rw [setItemTransition_publish]
      · rfl

theorem foldlM_applyOp_publish (fuel n : Nat) (ops : List Op) (s : Scene) :
    ops.foldlM (Scene.applyOp fuel) (Scene.publish n s)
      = (ops.foldlM (Scene.applyOp fuel) s).map (Scene.publish n) := by
  induction ops generalizing s with
  | nil => rfl
  | cons o os ih =>
    simp only [List.foldlM_cons, applyOp_publish]
    cases Scene.applyOp fuel s o with
    | none => rfl
    | some s1 => simpa using ih s1

theorem mem_stage_filter {o : Op} {ops : List Op} (h : o ∈ ops) (k : Nat) (hk : o.stage = k) :
    o ∈ ops.filter (fun x => x.stage == k) := by
  simp [List.mem_filter, h, hk]

theorem pair_sublist_append {a b : Op} {A B : List Op} (ha : a ∈ A) (hb : b ∈ B) :
    List.Sublist [a, b] (A ++ B) :=
  (List.singleton_sublist.2 ha).append (List.singleton_sublist.2 hb)

theorem stage_lt_four (o : Op) : o.stage < 4 := by
  cases o <;> simp [Op.stage]

theorem filter_stage_sublist_stageOrder (ops : List Op) (k : Nat) (hk : k < 4) :
    List.Sublist (ops.filter (fun o => o.stage == k)) (stageOrder ops) := by
  unfold stageOrder
  have h0 : k = 0 ∨ k = 1 ∨ k = 2 ∨ k = 3 := by omega
  rcases h0 with rfl | rfl | rfl | rfl
  · exact (List.sublist_append_left _ _).trans
      ((List.sublist_append_left _ _).trans (List.sublist_append_left _ _))
  · exact (List.sublist_append_right _ _).trans
      ((List.sublist_append_left _ _).trans (List.sublist_append_left _ _))
  · exact (List.sublist_append_right _ _).trans (List.sublist_append_left _ _)
  · exact List.sublist_append_right _ _

theorem same_stage_order_kept {ops : List Op} {o1 o2 : Op} (hs : o1.stage = o2.stage)
    (h : List.Sublist [o1, o2] ops) : List.Sublist [o1, o2] (stageOrder ops) := by
  have hf := h.filter (fun o => o.stage == o1.stage)
  have e : List.filter (fun o => o.stage == o1.stage) [o1, o2] = [o1, o2] := by
    simp [List.filter, hs]
  rw [e] at hf
  exact hf.trans (filter_stage_sublist_stageOrder ops _ (stage_lt_four o1))

theorem lower_stage_first {ops : List Op} {o1 o2 : Op} (h1 : o1 ∈ ops) (h2 : o2 ∈ ops)
    (hs : o1.stage < o2.stage) : List.Sublist [o1, o2] (stageOrder ops) := by
  have m1 := mem_stage_filter h1 _ rfl
  have m2 := mem_stage_filter h2 _ rfl
  have b1 := stage_lt_four o1
  have b2 := stage_lt_four o2
  unfold stageOrder
  have c : (o1.stage = 0 ∧ o2.stage = 1) ∨ (o1.stage = 0 ∧ o2.stage = 2)
      ∨ (o1.stage = 0 ∧ o2.stage = 3) ∨ (o1.stage = 1 ∧ o2.stage = 2)
      ∨ (o1.stage = 1 ∧ o2.stage = 3) ∨ (o1.stage = 2 ∧ o2.stage = 3) := by omega
  rcases c with ⟨e1, e2⟩ | ⟨e1, e2⟩ | ⟨e1, e2⟩ | ⟨e1, e2⟩ | ⟨e1, e2⟩ | ⟨e1, e2⟩ <;>
    rw [e1] at m1 <;> rw [e2] at m2
  · exact (pair_sublist_append m1 m2).trans
      ((List.sublist_append_left _ _).trans (List.sublist_append_left _ _))
  · exact (pair_sublist_append (List.mem_append_left _ m1) m2).trans (List.sublist_append_left _ _)
  · exact pair_sublist_append (List.mem_append_left _ (List.mem_append_left _ m1)) m2
  · exact (pair_sublist_append (List.mem_append_right _ m1) m2).trans (List.sublist_append_left _ _)
  · exact pair_sublist_append (List.mem_append_left _ (List.mem_append_right _ m1)) m2
  · exact pair_sublist_append (List.mem_append_right _ m1) m2

theorem ops_selections_empty (ops : List Op) :
    (ops.map (fun o => (Op.record Transaction.empty o)._resetSelections)).flatten = [] := by
  induction ops with
  | nil => rfl
  | cons o os ih =>
    cases o <;>
      simpa [Op.record, Transaction.resetItem, Transaction.updateItem, Transaction.removeItem,
        Transaction.addTransitionToItem, Transaction.empty] using ih

theorem commit_of_ops (fuel : Nat) (s : Scene) (batches : List (List Op)) :
    Scene.processTransactionQueue fuel { s with _transactionQueue := batches.map Transaction.ofOps }
      = ((stageOrder batches.flatten).foldlM (Scene.applyOp fuel) s.beginCommit).map
          (Scene.publish s._IDAllocator) := by
  rw [processTransactionQueue_eq_stages]
  simp only [Scene.commitInStages]
  rw [queue_stream Transaction._resetItems (fun _ _ => rfl) rfl,
    queue_stream Transaction._resetPayloads (fun _ _ => rfl) rfl,
    queue_stream Transaction._updatedItems (fun _ _ => rfl) rfl,
    queue_stream Transaction._updateFunctors (fun _ _ => rfl) rfl,
    queue_stream Transaction._removedItems (fun _ _ => rfl) rfl,
    queue_stream Transaction._transitioningItems (fun _ _ => rfl) rfl,
    queue_stream Transaction._transitionTypes (fun _ _ => rfl) rfl,
    queue_stream Transaction._transitioningItemBounds (fun _ _ => rfl) rfl,
    queue_stream Transaction._resetSelections (fun _ _ => rfl) rfl,
    ops_selections_empty, resetItems_ops fuel]
  simp only [stageOrder, List.foldlM_append, Scene.resetSelections]
  show (List.foldlM (Scene.applyOp fuel) s.beginCommit _).bind _ = _
  cases List.foldlM (Scene.applyOp fuel) s.beginCommit
      (List.filter (fun o => o.stage == 0) batches.flatten) with
  | none => rfl
  | some a =>
    simp only [Option.some_bind, Option.bind_eq_bind]
    rw [updateItems_ops fuel]
    show (List.foldlM (Scene.applyOp fuel) (Scene.publish s._IDAllocator a) _).bind _ = _
    rw [foldlM_applyOp_publish]
    cases List.foldlM (Scene.applyOp fuel) a
        (List.filter (fun o => o.stage == 1) batches.flatten) with
    | none => rfl
    | some b =>
      simp only [Option.map_some', Option.some_bind]
      rw [removeItems_ops fuel, foldlM_applyOp_publish]
      cases List.foldlM (Scene.applyOp fuel) b
          (List.filter (fun o => o.stage == 2) batches.flatten) with
      | none => rfl
      | some c =>
        simp only [Option.map_some', Option.some_bind]
        rw [transitionItems_ops fuel, foldlM_applyOp_publish]
        cases List.foldlM (Scene.applyOp fuel) c
            (List.filter (fun o => o.stage == 3) batches.flatten) with
        | none => rfl
        | some d => rfl

/-- C4 (as stated, refuted): a `removeItem(1)` recorded before a `resetItem(1, payload)`
and committed in one batch does not leave item 1 alive: the commit produces a
state in which item 1 has no payload, whereas applying the two operations in
enqueue order would leave it alive. -/
theorem remove_before_reset_leaves_item_dead :
    (demoRemoveThenReset.processTransactionQueue 0).map
        (fun r => (r._items[1]?).map Item.exist) = some (some false)
    ∧ ([Op.remove 1, Op.reset 1 demoSpatialPayload].foldlM (Scene.applyOp 0)
          demoRemoveThenReset.beginCommit).map
        (fun r => (r._items[1]?).map Item.exist) = some (some true) := by
  constructor <;> decide

/-- C4 (amended): a commit of queued batches applies the enqueued operations stage by
stage (resets, updates, removes, transitions) and, within a stage, in enqueue
order.  So two operations on the same id of the same kind are applied in
enqueue order, and two of different kinds in the order of their stages,
whatever their enqueue order. -/
theorem commit_applies_stage_then_enqueue_order (fuel : Nat) (s : Scene)
    (batches : List (List Op)) :
    Scene.processTransactionQueue fuel { s with _transactionQueue := batches.map Transaction.ofOps }
      = ((stageOrder batches.flatten).foldlM (Scene.applyOp fuel) s.beginCommit).map
          (Scene.publish s._IDAllocator)
    ∧ (∀ o1 o2 : Op, o1.id = o2.id → o1.stage = o2.stage →
        List.Sublist [o1, o2] batches.flatten → List.Sublist [o1, o2] (stageOrder batches.flatten))
    ∧ (∀ o1 o2 : Op, o1.id = o2.id → o1 ∈ batches.flatten → o2 ∈ batches.flatten →
        o1.stage < o2.stage → List.Sublist [o1, o2] (stageOrder batches.flatten)) :=
  ⟨commit_of_ops fuel s batches,
    fun _ _ _ hs h => same_stage_order_kept hs h,
    fun _ _ _ h1 h2 hs => lower_stage_first h1 h2 hs⟩

/-- The amended C4 at the batch `[remove 1, reset 1 payload]`: the reset is applied
before the remove. -/
theorem commit_applies_stage_then_enqueue_order_witness :
    List.Sublist [Op.reset 1 demoSpatialPayload, Op.remove 1]
      (stageOrder [Op.remove 1, Op.reset 1 demoSpatialPayload]) :=
  (commit_applies_stage_then_enqueue_order 0 demoRemoveThenReset
      [[Op.remove 1, Op.reset 1 demoSpatialPayload]]).2.2
    (Op.reset 1 demoSpatialPayload) (Op.remove 1) rfl (by simp) (by simp) (by decide)

/-! ## Classification: every live item is filed in one container -/

theorem lt_length_of_getElem? {α : Type} {l : List α} {i : Nat} {a : α} (h : l[i]? = some a) :
    i < l.length := by
  by_contra hc
  rw [List.getElem?_eq_none (Nat.le_of_not_lt hc)] at h
  cases h

theorem expected_of_items_set {s s1 : Scene} {id j : ItemID} {it : Item}
    (hs1 : s1._items = s._items.set id it) (hj : j ≠ id) : s1.expected j = s.expected j := by
  unfold Scene.expected
  rw [hs1, List.getElem?_set_ne (Ne.symm hj)]

theorem expected_of_items_set_self {s s1 : Scene} {id : ItemID} {it : Item}
    (hs1 : s1._items = s._items.set id it) (hlt : id < s._items.length) :
    s1.expected id = it.placement := by
  unfold Scene.expected
  rw [hs1, List.getElem?_set_self hlt]

/-- A step that rewrites one slot and touches the containers only at that id keeps
the invariant, provided the id ends up filed as its new slot calls for. -/
theorem classified_of_step {s s1 : Scene} {id : ItemID} {it : Item}
    (hinv : s.classified) (hitems : s1._items = s._items.set id it)
    (hlt : id < s._items.length)
    (hset : ∀ j, j ≠ id → (j ∈ s1._masterNonspatialSet ↔ j ∈ s._masterNonspatialSet))
    (hplaced : ∀ j, j ≠ id → ∀ c,
      ((c, j) ∈ s1._masterSpatialTree.placed ↔ (c, j) ∈ s._masterSpatialTree.placed))
    (hid : filedAs s1._masterNonspatialSet s1._masterSpatialTree.placed id it.placement) :
    s1.classified := by
  intro j
  by_cases hj : j = id
  · subst hj
    rw [expected_of_items_set_self hitems hlt]
    exact hid
  · rw [expected_of_items_set hitems hj]
    have h := hinv j
    cases he : s.expected j with
    | absent =>
      rw [he] at h
      simp only [filedAs, hset j hj, hplaced j hj] at h ⊢
      exact h
    | nonspatial =>
      rw [he] at h
      simp only [filedAs, hset j hj, hplaced j hj] at h ⊢
      exact h
    | spatial cell =>
      rw [he] at h
      simp only [filedAs, hset j hj, hplaced j hj] at h ⊢
      exact h

theorem filedAs_relocate {set : Finset ItemID} {placed : Finset (ItemCell × ItemID)}
    {id : ItemID} {pl : Placement} (c0 c1 : ItemCell)
    (h : filedAs set placed id pl) (hpl : pl = Placement.absent ∨ pl = Placement.spatial c0) :
    filedAs set (insert (c1, id) (placed.erase (c0, id))) id (Placement.spatial c1) := by
  rcases hpl with rfl | rfl
  · obtain ⟨h1, h2⟩ := h
    refine ⟨h1, fun c => ?_⟩
    simp [Finset.mem_insert, Finset.mem_erase, h2]
  · obtain ⟨h1, h2⟩ := h
    refine ⟨h1, fun c => ?_⟩
    simp only [Finset.mem_insert, Finset.mem_erase, Prod.mk.injEq, and_true, ne_eq, h2]
    tauto

theorem filedAs_insert_set {set : Finset ItemID} {placed : Finset (ItemCell × ItemID)}
    {id : ItemID} {pl : Placement}
    (h : filedAs set placed id pl) (hpl : pl = Placement.absent ∨ pl = Placement.nonspatial) :
    filedAs (insert id set) placed id Placement.nonspatial := by
  rcases hpl with rfl | rfl <;> exact ⟨Finset.mem_insert_self _ _, h.2⟩

theorem filedAs_to_set {set : Finset ItemID} {placed : Finset (ItemCell × ItemID)}
    {id : ItemID} (c0 : ItemCell) (h : filedAs set placed id (Placement.spatial c0)) :
    filedAs (insert id set) (placed.erase (c0, id)) id Placement.nonspatial := by
  refine ⟨Finset.mem_insert_self _ _, fun c => ?_⟩
  simp only [Finset.mem_erase, ne_eq, Prod.mk.injEq, and_true, h.2]
  tauto

theorem filedAs_to_tree {set : Finset ItemID} {placed : Finset (ItemCell × ItemID)}
    {id : ItemID} (c0 c1 : ItemCell) (h : filedAs set placed id Placement.nonspatial) :
    filedAs (set.erase id) (insert (c1, id) (placed.erase (c0, id))) id (Placement.spatial c1) := by
  refine ⟨Finset.not_mem_erase _ _, fun c => ?_⟩
  simp [Finset.mem_insert, Finset.mem_erase, h.2]

theorem filedAs_remove {set : Finset ItemID} {placed : Finset (ItemCell × ItemID)}
    {id : ItemID} {pl : Placement} (spatial : Bool) (c0 : ItemCell)
    (h : filedAs set placed id pl)
    (hpl : pl = Placement.absent ∨ (spatial = true ∧ pl = Placement.spatial c0)
      ∨ (spatial = false ∧ pl = Placement.nonspatial)) :
    filedAs (if spatial then set else set.erase id)
      (if spatial then placed.erase (c0, id) else placed) id Placement.absent := by
  rcases hpl with rfl | ⟨rfl, rfl⟩ | ⟨rfl, rfl⟩
  · obtain ⟨h1, h2⟩ := h
    cases spatial
    · exact ⟨Finset.not_mem_erase _ _, h2⟩
    · refine ⟨h1, fun c => ?_⟩
      simp [Finset.mem_erase, h2]
  · obtain ⟨h1, h2⟩ := h
    refine ⟨h1, fun c => ?_⟩
    simp only [if_true, Finset.mem_erase, ne_eq, Prod.mk.injEq, and_true, h2]
    tauto
  · exact ⟨Finset.not_mem_erase _ _, h.2⟩

theorem expected_of_getElem? {s : Scene} {id : ItemID} {item : Item} (h : s._items[id]? = some item) :
    s.expected id = item.placement := by
  simp [Scene.expected, h]

theorem placement_cases (item : Item) :
    item.placement = Placement.absent
      ∨ (item.getKey.isSpatial = true ∧ item.placement = Placement.spatial item.getCell)
      ∨ (item.getKey.isSpatial = false ∧ item.placement = Placement.nonspatial) := by
  unfold Item.placement
  cases item.exist <;> cases item.getKey.isSpatial <;> simp

theorem placement_resetCell_spatial (item : Item) (c : ItemCell) (small : Bool)
    (hex : item.exist = true) (hsp : item.getKey.isSpatial = true) :
    (item.resetCell c small).placement = Placement.spatial c := by
  simp only [Item.exist, Item.getKey, ItemKey.isSpatial] at hex hsp
  simp [Item.placement, Item.resetCell, Item.exist, Item.getKey, ItemKey.setSmaller,
    ItemKey.isSpatial, Item.getCell, hex, hsp]

theorem placement_resetCell_nonspatial (item : Item) (c : ItemCell) (small : Bool)
    (hex : item.exist = true) (hsp : item.getKey.isSpatial = false) :
    (item.resetCell c small).placement = Placement.nonspatial := by
  simp only [Item.exist, Item.getKey, ItemKey.isSpatial] at hex hsp
  simp [Item.placement, Item.resetCell, Item.exist, Item.getKey, ItemKey.setSmaller,
    ItemKey.isSpatial, hex, hsp]

theorem placement_nonspatial (item : Item)
    (hex : item.exist = true) (hsp : item.getKey.isSpatial = false) :
    item.placement = Placement.nonspatial := by
  simp [Item.placement, hex, hsp]

theorem placement_dead (item : Item) (hex : item.exist = false) :
    item.placement = Placement.absent := by
  simp [Item.placement, hex]

theorem resetItemsBody_classified {s s1 : Scene} {id : ItemID} {p : Payload}
    (hinv : s.classified) (hk : s.resetKeepsClass id p = true)
    (h : s.resetItemsBody id p = some s1) : s1.classified := by
  simp only [Scene.resetItemsBody] at h
  simp only [Scene.resetKeepsClass] at hk
  cases hi : s._items[id]? with
  | none => simp [hi] at h
  | some item0 =>
    have hlt : id < s._items.length := lt_length_of_getElem? hi
    have hid := hinv id
    rw [expected_of_getElem? hi] at hid
    simp only [hi, Bool.or_eq_true, Bool.not_eq_true', beq_iff_eq] at h hk
    have hkey : (item0.resetPayload p).getKey.isSpatial = p.key.isSpatial := rfl
    have hex : (item0.resetPayload p).exist = true := rfl
    split at h
    · split at h
      · rename_i hsp
        split at h
        · simp at h
        · simp only [Option.some.injEq] at h
          subst h
          refine classified_of_step hinv rfl hlt (fun j hj => Iff.rfl) (fun j hj c => ?_) ?_
          · simp [ItemSpatialTree.resetItem, hj]
          · rw [placement_resetCell_spatial _ _ _ hex hsp]
            refine filedAs_relocate item0.getCell _ hid ?_
            rcases placement_cases item0 with h0 | ⟨_, h0⟩ | ⟨h0, h1⟩
            · exact Or.inl h0
            · exact Or.inr h0
            · rcases hk with hk | hk
              · exact Or.inl (placement_dead _ hk)
              · rw [hkey] at hsp; rw [hk, hsp] at h0; cases h0
      · rename_i hsp
        simp only [Bool.not_eq_true] at hsp
        simp only [Option.some.injEq] at h
        subst h
        refine classified_of_step hinv rfl hlt (fun j hj => ?_) (fun j hj c => Iff.rfl) ?_
        · simp [hj]
        · rw [placement_nonspatial _ hex hsp]
          refine filedAs_insert_set hid ?_
          rcases placement_cases item0 with h0 | ⟨h0, h1⟩ | ⟨_, h0⟩
          · exact Or.inl h0
          · rcases hk with hk | hk
            · exact Or.inl (placement_dead _ hk)
            · rw [hkey] at hsp; rw [hk, hsp] at h0; cases h0
          · exact Or.inr h0
    · simp at h

theorem update_some {item0 item : Item} {f : UpdateFunctor} (h : item0.update f = some item) :
    item0.exist = true ∧ item.exist = true ∧ item.getCell = item0.getCell := by
  unfold Item.update at h
  split at h
  · simp at h
  · rename_i payload hp
    simp only [Option.some.injEq] at h
    subst h
    simp [Item.exist, hp, Item.getCell]

theorem placement_live_spatial (item : Item) (hex : item.exist = true)
    (hsp : item.getKey.isSpatial = true) : item.placement = Placement.spatial item.getCell := by
  simp [Item.placement, hex, hsp]

theorem updateItemsBody_classified {s s1 : Scene} {id : ItemID} {f : UpdateFunctor}
    (hinv : s.classified) (h : s.updateItemsBody id f = some s1) : s1.classified := by
  simp only [Scene.updateItemsBody] at h
  split at h
  · simp only [Option.some.injEq] at h; subst h; exact hinv
  · cases hi : s._items[id]? with
    | none => simp [hi] at h
    | some item0 =>
      have hlt : id < s._items.length := lt_length_of_getElem? hi
      have hid := hinv id
      rw [expected_of_getElem? hi] at hid
      simp only [hi] at h
      cases hu : item0.update f with
      | none => simp [hu] at h
      | some item =>
        obtain ⟨hex0, hex, hcell⟩ := update_some hu
        simp only [hu, beq_iff_eq] at h
        split at h
        · rename_i hsame
          split at h
          · rename_i hsp
            split at h
            · simp at h
            · simp only [Option.some.injEq] at h
              subst h
              refine classified_of_step hinv rfl hlt (fun j hj => Iff.rfl) (fun j hj c => ?_) ?_
              · simp [ItemSpatialTree.resetItem, hj]
              · rw [placement_resetCell_spatial _ _ _ hex hsp]
                refine filedAs_relocate item0.getCell _ hid (Or.inr ?_)
                exact placement_live_spatial _ hex0 (hsame.trans hsp)
          · rename_i hsp
            simp only [Bool.not_eq_true] at hsp
            simp only [Option.some.injEq] at h
            subst h
            refine classified_of_step hinv rfl hlt (fun j hj => Iff.rfl) (fun j hj c => Iff.rfl) ?_
            rw [placement_nonspatial _ hex hsp]
            rw [placement_nonspatial _ hex0 (hsame.trans hsp)] at hid
            exact hid
        · rename_i hdiff
          split at h
          · rename_i hsp
            split at h
            · simp at h
            · simp only [Option.some.injEq] at h
              subst h
              refine classified_of_step hinv rfl hlt (fun j hj => ?_) (fun j hj c => ?_) ?_
              · simp [hj]
              · simp [ItemSpatialTree.resetItem, hj]
              · rw [placement_resetCell_spatial _ _ _ hex hsp]
                refine filedAs_to_tree item0.getCell _ ?_
                have h0 : item0.getKey.isSpatial = false := by
                  cases hk0 : item0.getKey.isSpatial
                  · rfl
                  · exact absurd (hk0.trans hsp.symm) hdiff
                rw [placement_nonspatial _ hex0 h0] at hid
                exact hid
          · rename_i hsp
            simp only [Bool.not_eq_true] at hsp
            simp only [Option.some.injEq] at h
            subst h
            refine classified_of_step hinv rfl hlt (fun j hj => ?_) (fun j hj c => ?_) ?_
            · simp [hj]
            · simp [ItemSpatialTree.removeItem, hj]
            · rw [placement_resetCell_nonspatial _ _ _ hex hsp]
              have h0 : item0.getKey.isSpatial = true := by
                cases hk0 : item0.getKey.isSpatial
                · exact absurd (hk0.trans hsp.symm) hdiff
                · rfl
              rw [placement_live_spatial _ hex0 h0] at hid
              exact filedAs_to_set item0.getCell hid

theorem removeFromContainer_containers (s : Scene) (c : ItemCell) (k : ItemKey) (id : ItemID) :
    (s.removeFromContainer c k id)._masterNonspatialSet
        = (if k.isSpatial then s._masterNonspatialSet else s._masterNonspatialSet.erase id)
    ∧ (s.removeFromContainer c k id)._masterSpatialTree.placed
        = (if k.isSpatial then s._masterSpatialTree.placed.erase (c, id)
           else s._masterSpatialTree.placed) := by
  unfold Scene.removeFromContainer
  split <;> exact ⟨rfl, rfl⟩

theorem removeTransitionOf_containers {s s1 : Scene} {item : Item}
    (h : s.removeTransitionOf item = some s1) :
    s1._items = s._items ∧ s1._masterNonspatialSet = s._masterNonspatialSet
      ∧ s1._masterSpatialTree = s._masterSpatialTree := by
  unfold Scene.removeTransitionOf at h
  repeat' split at h
  all_goals first
    | (simp at h; done)
    | (simp only [Option.some.injEq] at h; subst h
       simp [Scene.putTransitionStage])

theorem removeItemsBody_classified {s s1 : Scene} {id : ItemID}
    (hinv : s.classified) (h : s.removeItemsBody id = some s1) : s1.classified := by
  simp only [Scene.removeItemsBody] at h
  cases hi : s._items[id]? with
  | none => simp [hi] at h
  | some item =>
    have hlt : id < s._items.length := lt_length_of_getElem? hi
    have hid := hinv id
    rw [expected_of_getElem? hi] at hid
    simp only [hi] at h
    split at h
    · simp at h
    · rename_i s2 h2
      simp only [Option.some.injEq] at h
      subst h
      obtain ⟨e1, e2, e3⟩ := removeTransitionOf_containers h2
      obtain ⟨c1, c2⟩ := removeFromContainer_containers s item.getCell item.getKey id
      have hitems : s2._items = s._items := e1.trans (removeFromContainer_frame s _ _ _).2.1
      refine @classified_of_step _ _ _ item.kill hinv (by simp only [hitems]) hlt
        (fun j hj => ?_) (fun j hj c => ?_) ?_
      · simp only [e2, c1]
        split <;> simp [hj]
      · simp only [e3, c2]
        split <;> simp [hj]
      · simp only [e2, e3, c1, c2]
        have hk : item.kill.placement = Placement.absent := rfl
        rw [hk]
        exact filedAs_remove item.getKey.isSpatial item.getCell hid (placement_cases item)

theorem map_set_of_same {α β : Type} (f : α → β) {l : List α} {k : Nat} {a b : α}
    (hk : l[k]? = some a) (hf : f b = f a) : (l.set k b).map f = l.map f := by
  apply List.ext_getElem?
  intro n
  simp only [List.getElem?_map, List.getElem?_set]
  by_cases hkn : k = n
  · subst hkn
    simp [lt_length_of_getElem? hk, hk, hf]
  · simp [hkn]

theorem expected_eq_of_placements {s s1 : Scene}
    (h : s1._items.map Item.placement = s._items.map Item.placement) (j : ItemID) :
    s1.expected j = s.expected j := by
  have e : ∀ t : Scene, t.expected j = ((t._items.map Item.placement)[j]?).getD Placement.absent := by
    intro t
    unfold Scene.expected
    rw [List.getElem?_map]
    cases t._items[j]? <;> rfl
  rw [e, e, h]

theorem classified_of_same {s s1 : Scene} (hinv : s.classified)
    (hitems : s1._items.map Item.placement = s._items.map Item.placement)
    (hset : s1._masterNonspatialSet = s._masterNonspatialSet)
    (htree : s1._masterSpatialTree = s._masterSpatialTree) : s1.classified := by
  intro j
  rw [expected_eq_of_placements hitems, hset, htree]
  exact hinv j

theorem setSubItemTransitions_placements {t : Index} {items items1 : List Item}
    {subs : List ItemID} (h : Scene.setSubItemTransitions t items subs = some items1) :
    items1.map Item.placement = items.map Item.placement := by
  induction subs generalizing items with
  | nil => simp [Scene.setSubItemTransitions] at h; subst h; rfl
  | cons x xs ih =>
    simp only [Scene.setSubItemTransitions] at h
    split at h
    · simp at h
    · rename_i sub hsub
      rw [ih h]
      exact map_set_of_same _ hsub rfl

theorem setItemTransition_placements {fuel : Nat} {s s1 : Scene} {id : ItemID} {t : Index}
    (h : s.setItemTransition fuel id t = some s1) :
    s1._items.map Item.placement = s._items.map Item.placement := by
  simp only [Scene.setItemTransition] at h
  split at h
  · simp at h
  · rename_i item hitem
    split at h
    · split at h
      · simp at h
      · split at h
        · simp at h
        · rename_i items1 h2
          simp only [Option.some.injEq] at h
          subst h
          simp only
          rw [setSubItemTransitions_placements h2]
          exact map_set_of_same _ hitem rfl
    · simp only [Option.some.injEq] at h
      subst h
      rfl

theorem transitionItemsBody_classified {fuel : Nat} {s s1 : Scene} {id b : ItemID}
    {ty : TransitionType} (hinv : s.classified)
    (h : s.transitionItemsBody fuel id ty b = some s1) : s1.classified := by
  simp only [Scene.transitionItemsBody] at h
  split at h
  · simp at h
  · split at h
    · split at h
      · simp at h
      · rename_i s2 h2
        split at h
        · simp at h
        · rename_i r h3
          obtain ⟨a1, a2, a3⟩ := removeTransitionOf_containers h2
          obtain ⟨_, b1, b3, b2⟩ := addTransitionFor_frame h3
          obtain ⟨_, _, c3, c2⟩ := setItemTransition_frame h
          have c1 := setItemTransition_placements h
          refine classified_of_same hinv ?_ ?_ ?_
          · rw [c1, b1, a1]
          · rw [c2, b2, a2]
          · rw [c3, b3, a3]
    · simp only [Option.some.injEq] at h
      subst h
      exact hinv

theorem updateItems_classified {s s1 : Scene} {ids : List ItemID} {fs : List UpdateFunctor}
    (hinv : s.classified) (h : s.updateItems ids fs = some s1) : s1.classified := by
  induction ids generalizing s fs with
  | nil => simp [Scene.updateItems] at h; subst h; exact hinv
  | cons id ids ih =>
    cases fs with
    | nil => simp [Scene.updateItems] at h
    | cons f fs =>
      simp only [Scene.updateItems] at h
      split at h
      · simp at h
      · rename_i s2 h2
        exact ih (updateItemsBody_classified hinv h2) h

theorem removeItems_classified {s s1 : Scene} {ids : List ItemID}
    (hinv : s.classified) (h : s.removeItems ids = some s1) : s1.classified := by
  induction ids generalizing s with
  | nil => simp [Scene.removeItems] at h; subst h; exact hinv
  | cons id ids ih =>
    simp only [Scene.removeItems] at h
    split at h
    · simp at h
    · rename_i s2 h2
      exact ih (removeItemsBody_classified hinv h2) h

theorem transitionItems_classified {fuel : Nat} {s s1 : Scene} {ids : List ItemID}
    {tys : List TransitionType} {bs : List ItemID} (hinv : s.classified)
    (h : s.transitionItems fuel ids tys bs = some s1) : s1.classified := by
  induction ids generalizing s tys bs with
  | nil => simp [Scene.transitionItems] at h; subst h; exact hinv
  | cons id ids ih =>
    cases tys with
    | nil => simp [Scene.transitionItems] at h
    | cons ty tys =>
      cases bs with
      | nil => simp [Scene.transitionItems] at h
      | cons b bs =>
        simp only [Scene.transitionItems] at h
        split at h
        · simp at h
        · rename_i s2 h2
          exact ih (transitionItemsBody_classified hinv h2) h

theorem resetItems_classified {s s1 : Scene} {ids : List ItemID} {ps : List Payload}
    (hinv : s.classified) (hk : s.resetsKeepClass ids ps = true)
    (h : s.resetItems ids ps = some s1) : s1.classified := by
  induction ids generalizing s ps with
  | nil => simp [Scene.resetItems] at h; subst h; exact hinv
  | cons id ids ih =>
    cases ps with
    | nil => simp [Scene.resetItems] at h
    | cons p ps =>
      simp only [Scene.resetItems] at h
      simp only [Scene.resetsKeepClass, Bool.and_eq_true] at hk
      split at h
      · simp at h
      · rename_i s2 h2
        rw [h2] at hk
        exact ih (resetItemsBody_classified hinv hk.1 h2) hk.2 h

theorem beginCommit_classified {s : Scene} (hinv : s.classified) : s.beginCommit.classified := by
  intro j
  have hj := hinv j
  have hset : s.beginCommit._masterNonspatialSet = s._masterNonspatialSet := rfl
  have htree : s.beginCommit._masterSpatialTree = s._masterSpatialTree := rfl
  rw [hset, htree]
  by_cases hgrow : s._items.length < s._IDAllocator
  · have hitems : s.beginCommit._items = resizeItems s._items (s._IDAllocator + 100) := by
      simp [Scene.beginCommit, hgrow]
    have hex : s.beginCommit.expected j = s.expected j := by
      unfold Scene.expected
      rw [hitems]
      unfold resizeItems
      rw [List.take_of_length_le (by omega)]
      by_cases hlt : j < s._items.length
      · rw [List.getElem?_append_left hlt]
      · have hle : s._items.length ≤ j := Nat.le_of_not_lt hlt
        rw [List.getElem?_append_right hle, List.getElem?_eq_none (l := s._items) hle]
        rw [List.getElem?_replicate]
        by_cases hb : j - s._items.length < s._IDAllocator + 100 - s._items.length
        · simp only [hb, if_true]; rfl
        · simp only [hb, if_false]
    rw [hex]
    exact hj
  · have hitems : s.beginCommit._items = s._items := by
      simp [Scene.beginCommit, hgrow]
    have hex : s.beginCommit.expected j = s.expected j := by
      unfold Scene.expected
      rw [hitems]
    rw [hex]
    exact hj

theorem publish_classified {s : Scene} (n : Nat) (hinv : s.classified) :
    Scene.classified { s with _numAllocatedItems := n } :=
  classified_of_same hinv rfl rfl rfl

theorem processTransactionQueue_classified {fuel : Nat} {s s1 : Scene} (hinv : s.classified)
    (hk : s.commitKeepsClass = true) (h : s.processTransactionQueue fuel = some s1) :
    s1.classified := by
  rw [processTransactionQueue_eq_stages] at h
  simp only [Scene.commitInStages, Option.bind_eq_some, Option.some.injEq] at h
  obtain ⟨a, h1, b, h2, c, h3, d, h4, h⟩ := h
  subst h
  have ha : a.classified := resetItems_classified (beginCommit_classified hinv) hk h1
  have hb : b.classified := updateItems_classified (publish_classified _ ha) h2
  have hc : c.classified := removeItems_classified hb h3
  have hd : d.classified := transitionItems_classified hc h4
  obtain ⟨_, e1, e2, e3, _⟩ := resetSelections_frame { d with _numAllocatedItems := s._IDAllocator }
    (s._transactionQueue.foldl Transaction.merge Transaction.empty)._resetSelections
  exact classified_of_same hd (by rw [e1]) e3 e2

theorem new_classified (locate : AABox → ItemKey → ItemCell × Bool) :
    (Scene.new locate).classified := by
  intro j
  have e : (Scene.new locate).expected j = Placement.absent := by
    unfold Scene.expected Scene.new
    cases j with
    | zero => rfl
    | succ n => rfl
  rw [e]
  exact ⟨Finset.not_mem_empty _, fun c => Finset.not_mem_empty _⟩

theorem resetStage_containers (s : Scene) (name : String) (stage : StagePointer) :
    (s.resetStage name stage)._items = s._items
    ∧ (s.resetStage name stage)._masterNonspatialSet = s._masterNonspatialSet
    ∧ (s.resetStage name stage)._masterSpatialTree = s._masterSpatialTree := by
  unfold Scene.resetStage
  split <;> exact ⟨rfl, rfl, rfl⟩

theorem reached_classified {locate : AABox → ItemKey → ItemCell × Bool} {s : Scene}
    (h : Scene.Reached locate s) : s.classified := by
  induction h with
  | fresh => exact new_classified locate
  | allocate _ ih => exact classified_of_same ih rfl rfl rfl
  | stage name stage _ ih =>
    obtain ⟨e1, e2, e3⟩ := resetStage_containers _ name stage
    exact classified_of_same ih (by rw [e1]) e2 e3
  | enqueue t _ ih => exact classified_of_same ih rfl rfl rfl
  | commit fuel _ hk hc ih => exact processTransactionQueue_classified ih hk hc

theorem contains_iff (tree : ItemSpatialTree) (id : ItemID) :
    tree.contains id = true ↔ ∃ c, (c, id) ∈ tree.placed := by
  simp only [ItemSpatialTree.contains, decide_eq_true_eq]
  constructor
  · rintro ⟨⟨c, j⟩, hp, rfl⟩
    exact ⟨c, hp⟩
  · rintro ⟨c, hp⟩
    exact ⟨(c, id), hp, rfl⟩

theorem classified_live {s : Scene} (hinv : s.classified) {id : ItemID} {item : Item}
    (hitem : s._items[id]? = some item) (hlive : item.exist = true) :
    s._masterSpatialTree.contains id = item.getKey.isSpatial
    ∧ decide (id ∈ s._masterNonspatialSet) = !item.getKey.isSpatial := by
  have h := hinv id
  rw [expected_of_getElem? hitem] at h
  cases hsp : item.getKey.isSpatial with
  | true =>
    rw [placement_live_spatial _ hlive hsp] at h
    refine ⟨(contains_iff _ _).2 ⟨item.getCell, (h.2 _).2 rfl⟩, ?_⟩
    simp [h.1]
  | false =>
    rw [placement_nonspatial _ hlive hsp] at h
    constructor
    · cases hc : s._masterSpatialTree.contains id with
      | false => rfl
      | true =>
        obtain ⟨c, hp⟩ := (contains_iff _ _).1 hc
        exact absurd hp (h.2 c)
    · simp [h.1]

/-- C6 (as stated, refuted): from a fresh scene, allocating id 1, committing a reset
of item 1 with a payload whose key has no flag set, then committing a reset of
item 1 with a spatial payload, both commits complete and leave item 1 alive with
a spatial key and a member of both the spatial index and the non-spatial set. -/
theorem reset_to_spatial_files_item_twice :
    demoResetTwice.map (fun s =>
        ((s._items[1]?).map Item.exist, (s._items[1]?).map (fun i => i.getKey.isSpatial),
          s._masterSpatialTree.contains 1, decide (1 ∈ s._masterNonspatialSet)))
      = some (some true, some true, true, true) := by
  decide

/-- C6 (amended): in every scene reached from a freshly constructed one by allocating
ids, registering stages, enqueuing transactions and making commits that complete
and in which every reset targets a dead item or keeps the spatial flag of the
item's key, every live item is a member of exactly one of the spatial index and
the non-spatial set: of the spatial index iff its key is spatial, of the
non-spatial set iff its key is non-spatial. -/
theorem live_item_filed_in_one_container (locate : AABox → ItemKey → ItemCell × Bool)
    (s : Scene) (h : Scene.Reached locate s) (id : ItemID) (item : Item)
    (hitem : s._items[id]? = some item) (hlive : item.exist = true) :
    s._masterSpatialTree.contains id = item.getKey.isSpatial
    ∧ decide (id ∈ s._masterNonspatialSet) = !item.getKey.isSpatial :=
  classified_live (reached_classified h) hitem hlive

/-- The amended C6 at the scene reached by allocating id 1 and committing
`resetItem(1, spatial payload)`: item 1 is in the spatial index and not in the
non-spatial set. -/
theorem live_item_filed_in_one_container_witness :
    demoSpatialScene._masterSpatialTree.contains 1 = true
      ∧ decide (1 ∈ demoSpatialScene._masterNonspatialSet) = false :=
  live_item_filed_in_one_container demoLocate demoSpatialScene
    (Scene.Reached.commit 0
      (Scene.Reached.enqueue _ (Scene.Reached.allocate Scene.Reached.fresh))
      (by decide) (Option.some_get _).symm)
    1 ⟨some demoSpatialPayload, ⟨true, false, 1⟩, 7, -1⟩ (by decide) (by decide)

/-! ## Updates reclassify an item -/

theorem updateItems_single (s : Scene) (id : ItemID) (f : UpdateFunctor) :
    s.updateItems [id] [f] = s.updateItemsBody id f := by
  simp only [Scene.updateItems]
  cases s.updateItemsBody id f <;> rfl

theorem resetItems_single (s : Scene) (id : ItemID) (p : Payload) :
    s.resetItems [id] [p] = s.resetItemsBody id p := by
  simp only [Scene.resetItems]
  cases s.resetItemsBody id p <;> rfl

theorem update_live {item0 : Item} {p0 : Payload} (f : UpdateFunctor)
    (hp : item0._payload = some p0) :
    item0.update f = some { item0 with _payload := some (f p0), _key := (f p0).key } := by
  simp [Item.update, hp]

/-- C7: applying an update to a live item with a valid id installs the functor's
result and reclassifies the item by the old and the new spatial flag: spatial to
spatial relocates it in the spatial index and stores the returned cell; spatial
to non-spatial takes it out of the spatial index, clears its cell and inserts
the id into the non-spatial set; non-spatial to spatial erases the id from the
non-spatial set and inserts it into the spatial index, storing the returned
cell; non-spatial to non-spatial changes neither container.  In particular an
item that sits in the spatial index under its cell only, as creation with a
spatial key leaves it, is after an update to a non-spatial key in the
non-spatial set and absent from the spatial index. -/
theorem updateItems_reclassifies (s : Scene) (id : ItemID) (item0 : Item) (p0 : Payload)
    (f : UpdateFunctor) (hid : id ≠ INVALID_ITEM_ID) (hitem : s._items[id]? = some item0)
    (hp : item0._payload = some p0) :
    ∃ s1 item1, s.updateItems [id] [f] = some s1 ∧ s1._items[id]? = some item1
      ∧ item1._payload = some (f p0)
      ∧ (item0.getKey.isSpatial = true → (f p0).key.isSpatial = true →
          s1._masterSpatialTree = (s._masterSpatialTree.resetItem item0.getCell item0.getKey
              (f p0).bound id (f p0).key).1
          ∧ item1.getCell = (s._masterSpatialTree.resetItem item0.getCell item0.getKey
              (f p0).bound id (f p0).key).2.1
          ∧ s1._masterNonspatialSet = s._masterNonspatialSet)
      ∧ (item0.getKey.isSpatial = true → (f p0).key.isSpatial = false →
          s1._masterSpatialTree = s._masterSpatialTree.removeItem item0.getCell item0.getKey id
          ∧ item1.getCell = INVALID_CELL
          ∧ s1._masterNonspatialSet = insert id s._masterNonspatialSet)
      ∧ (item0.getKey.isSpatial = false → (f p0).key.isSpatial = true →
          s1._masterNonspatialSet = s._masterNonspatialSet.erase id
          ∧ s1._masterSpatialTree = (s._masterSpatialTree.resetItem item0.getCell item0.getKey
              (f p0).bound id (f p0).key).1
          ∧ item1.getCell = (s._masterSpatialTree.resetItem item0.getCell item0.getKey
              (f p0).bound id (f p0).key).2.1)
      ∧ (item0.getKey.isSpatial = false → (f p0).key.isSpatial = false →
          s1._masterSpatialTree = s._masterSpatialTree
          ∧ s1._masterNonspatialSet = s._masterNonspatialSet)
      ∧ (item0.getKey.isSpatial = true → (f p0).key.isSpatial = false →
          filedAs s._masterNonspatialSet s._masterSpatialTree.placed id
            (Placement.spatial item0.getCell) →
          id ∈ s1._masterNonspatialSet ∧ s1._masterSpatialTree.contains id = false) := by
  have hlt : id < s._items.length := lt_length_of_getElem? hitem
  have hid2 : (id == INVALID_ITEM_ID) = false := by simpa using hid
  rw [updateItems_single]
  simp only [Scene.updateItemsBody, hid2, hitem, update_live f hp, Bool.false_eq_true, if_false]
  cases h0 : item0.getKey.isSpatial <;> cases h1 : (f p0).key.isSpatial
  all_goals
    simp only [Item.getKey, Item.getBound, Option.map_some', h0, h1, beq_self_eq_true,
      if_true, if_false, Bool.false_eq_true]
  · exact ⟨_, _, rfl, List.getElem?_set_self hlt, rfl, by simp⟩
  · exact ⟨_, _, rfl, List.getElem?_set_self hlt, rfl, by simp [Item.resetCell, Item.getCell]⟩
  · refine ⟨_, _, rfl, List.getElem?_set_self hlt, rfl, ?_⟩
    simp only [Item.resetCell, Item.getCell, IsEmpty.forall_iff, forall_const, true_and,
      and_self, implies_true, and_true]
    refine ⟨fun hx => absurd hx (by decide), fun hf => ?_⟩
    refine ⟨Finset.mem_insert_self _ _, ?_⟩
    cases hc : (s._masterSpatialTree.removeItem item0._cell item0._key id).contains id with
    | false => rfl
    | true =>
      obtain ⟨c, hm⟩ := (contains_iff _ _).1 hc
      simp only [ItemSpatialTree.removeItem, Finset.mem_erase, ne_eq, Prod.mk.injEq, and_true] at hm
      exact absurd ((hf.2 c).1 hm.2) hm.1
  · exact ⟨_, _, rfl, List.getElem?_set_self hlt, rfl, by simp [Item.resetCell, Item.getCell]⟩

/-- C7 at the committed scene with the spatial item 1 and an update that makes its
key non-spatial: afterwards id 1 is in the non-spatial set and absent from the
spatial index. -/
theorem updateItems_reclassifies_witness :
    ∃ s1, demoSpatialScene.updateItems [1] [demoMakeNonspatial] = some s1
      ∧ 1 ∈ s1._masterNonspatialSet ∧ s1._masterSpatialTree.contains 1 = false := by
  obtain ⟨s1, item1, h1, _, _, _, _, _, _, h7⟩ :=
    updateItems_reclassifies demoSpatialScene 1 ⟨some demoSpatialPayload, ⟨true, false, 1⟩, 7, -1⟩
      demoSpatialPayload demoMakeNonspatial (by decide) (by decide) rfl
  exact ⟨s1, h1, h7 rfl rfl (by
    refine ⟨by decide, fun c => ?_⟩
    have e : demoSpatialScene._masterSpatialTree.placed = {(7, 1)} := by decide
    rw [e]
    simp [Item.getCell])⟩

/-! ## Transitions propagate to the reachable sub-items -/

theorem collectSubItems_dead {fuel : Nat} {items : List Item} {p : ItemID} {item : Item}
    (hitem : items[p]? = some item) (hdead : item.exist = false) (acc : List ItemID) :
    Scene.collectSubItems (fuel + 1) items p acc = some acc := by
  simp [Scene.collectSubItems, hitem, hdead]

theorem collectSubItems_live {fuel : Nat} {items : List Item} {p : ItemID} {item : Item}
    {payload : Payload} (hitem : items[p]? = some item) (hp : item._payload = some payload)
    (acc : List ItemID) :
    Scene.collectSubItems (fuel + 1) items p acc
      = (List.range payload.subItems.length).foldlM
          (fun (a : List ItemID) (k : Nat) =>
            match a[acc.length + k]? with
            | none => none
            | some subItemId => Scene.collectSubItems fuel items subItemId a)
          (acc ++ payload.subItems) := by
  simp [Scene.collectSubItems, hitem, Item.exist, hp, Item.fetchMetaSubItems]

/-- The index loop of `collectSubItems`, when every recursive call on a child `c`
appends the list `D c`: the first `k` passes append the lists of the first `k`
children. -/
theorem collect_loop {fuel : Nat} {items : List Item} (pre cs : List ItemID)
    (D : ItemID → List ItemID)
    (hD : ∀ c ∈ cs, ∀ acc, Scene.collectSubItems fuel items c acc = some (acc ++ D c))
    (k : Nat) (hk : k ≤ cs.length) :
    (List.range k).foldlM
        (fun (a : List ItemID) (i : Nat) =>
          match a[pre.length + i]? with
          | none => none
          | some subItemId => Scene.collectSubItems fuel items subItemId a)
        (pre ++ cs)
      = some (pre ++ cs ++ ((cs.take k).map D).flatten) := by
  induction k with
  | zero => simp
  | succ n ih =>
    have hn : n < cs.length := hk
    rw [List.range_succ, List.foldlM_append, ih (Nat.le_of_lt hn)]
    simp only [Option.bind_eq_bind, Option.some_bind, List.foldlM_cons, List.foldlM_nil]
    have hget : (pre ++ cs ++ ((cs.take n).map D).flatten)[pre.length + n]? = some cs[n] := by
      rw [List.append_assoc, List.getElem?_append_right (Nat.le_add_right _ _)]
      simp only [Nat.add_sub_cancel_left]
      rw [List.getElem?_append_left hn]
      exact List.getElem?_eq_getElem hn
    rw [hget]
    simp only
    rw [hD _ (List.getElem_mem hn)]
    simp only [Option.some_bind, pure, Option.some.injEq, List.append_assoc]
    congr 2
    rw [List.take_succ, List.getElem?_eq_getElem hn]
    simp
    rw [List.take_succ, List.getElem?_eq_getElem (by simpa using hn)]
    simp

theorem reach_iff (items : List Item) (p x : ItemID) :
    Reach items p x ↔ isSubItem items p x ∨ ∃ c, isSubItem items p c ∧ Reach items c x := by
  unfold Reach
  constructor
  · intro h
    rcases Relation.TransGen.head'_iff.1 h with ⟨b, hb, hrest⟩
    rcases Relation.reflTransGen_iff_eq_or_transGen.1 hrest with heq | ht
    · left; rw [heq]; exact hb
    · right; exact ⟨b, hb, ht⟩
  · rintro (h | ⟨c, hc, ht⟩)
    · exact Relation.TransGen.single h
    · exact Relation.TransGen.head hc ht

theorem collectsTo_uniform (items : List Item) (cs : List ItemID)
    (h : ∀ c ∈ cs, ∃ N D, collectsTo items c N D) :
    ∃ N, ∃ D : ItemID → List ItemID, ∀ c ∈ cs, collectsTo items c N (D c) := by
  induction cs with
  | nil => exact ⟨0, fun _ => [], fun c hc => absurd hc (List.not_mem_nil c)⟩
  | cons c rest ih =>
    obtain ⟨Nc, Dc, hc1, hc2⟩ := h c (List.mem_cons_self c rest)
    obtain ⟨Nr, Dr, hr⟩ := ih (fun x hx => h x (List.mem_cons_of_mem c hx))
    refine ⟨max Nc Nr, fun x => if x = c then Dc else Dr x, fun x hx => ?_⟩
    by_cases hxc : x = c
    · subst hxc
      simp only [if_true]
      exact ⟨hc1, fun m hm acc => hc2 m (le_trans (le_max_left _ _) hm) acc⟩
    · simp only [hxc, if_false]
      have hxr : x ∈ rest := by
        rcases List.mem_cons.1 hx with h1 | h1
        · exact absurd h1 hxc
        · exact h1
      obtain ⟨hr1, hr2⟩ := hr x hxr
      exact ⟨hr1, fun m hm acc => hr2 m (le_trans (le_max_right _ _) hm) acc⟩

theorem collectsTo_of_acc (items : List Item) (p : ItemID)
    (hacc : Acc (fun c q => isSubItem items q c) p)
    (hstore : ∀ x, (x = p ∨ Reach items p x) → x < items.length) :
    ∃ N D, collectsTo items p N D := by
  induction hacc with
  | intro p _ ih =>
    have hp : p < items.length := hstore p (Or.inl rfl)
    have hitem : items[p]? = some items[p] := List.getElem?_eq_getElem hp
    cases hpay : (items[p])._payload with
    | none =>
      have hsub : subItemsOf items p = [] := by simp [subItemsOf, hitem, hpay]
      refine ⟨1, [], fun x => ?_, fun m hm acc => ?_⟩
      · constructor
        · intro hx; exact absurd hx (List.not_mem_nil x)
        · intro hx
          rcases (reach_iff items p x).1 hx with h1 | ⟨c, h1, _⟩ <;>
            · unfold isSubItem at h1
              rw [hsub] at h1
              exact absurd h1 (List.not_mem_nil _)
      · obtain ⟨m1, rfl⟩ : ∃ m1, m = m1 + 1 := ⟨m - 1, by omega⟩
        rw [collectSubItems_dead hitem (by simp [Item.exist, hpay])]
        simp
    | some payload =>
      have hsub : subItemsOf items p = payload.subItems := by simp [subItemsOf, hitem, hpay]
      have hchildren : ∀ c ∈ payload.subItems, ∃ N D, collectsTo items c N D := by
        intro c hc
        have hcp : isSubItem items p c := by unfold isSubItem; rw [hsub]; exact hc
        refine ih c hcp (fun x hx => hstore x (Or.inr ?_))
        rcases hx with rfl | hx
        · exact Relation.TransGen.single hcp
        · exact Relation.TransGen.head hcp hx
      obtain ⟨N, D, hND⟩ := collectsTo_uniform items payload.subItems hchildren
      refine ⟨N + 1, payload.subItems ++ (payload.subItems.map D).flatten, fun x => ?_,
        fun m hm acc => ?_⟩
      · rw [reach_iff]
        simp only [List.mem_append, List.mem_flatten, List.mem_map, isSubItem, hsub]
        constructor
        · rintro (h1 | ⟨l, ⟨c, hc, rfl⟩, hx⟩)
          · exact Or.inl h1
          · exact Or.inr ⟨c, hc, ((hND c hc).1 x).1 hx⟩
        · rintro (h1 | ⟨c, hc, hx⟩)
          · exact Or.inl h1
          · exact Or.inr ⟨D c, ⟨c, hc, rfl⟩, ((hND c hc).1 x).2 hx⟩
      · obtain ⟨m1, rfl⟩ : ∃ m1, m = m1 + 1 := ⟨m - 1, by omega⟩
        rw [collectSubItems_live hitem hpay]
        have hloop := @collect_loop m1 items acc payload.subItems D
          (fun c hc a => (hND c hc).2 m1 (by omega) a) payload.subItems.length (le_refl _)
        rw [hloop, List.take_length, List.append_assoc]

theorem isSubItem_lt {items : List Item} {p c : ItemID} (h : isSubItem items p c) :
    p < items.length := by
  by_contra hc
  unfold isSubItem subItemsOf at h
  rw [List.getElem?_eq_none (Nat.le_of_not_lt hc)] at h
  exact absurd h (List.not_mem_nil c)

theorem reach_is_child {items : List Item} {p x : ItemID} (h : Reach items p x) :
    ∃ q, isSubItem items q x := by
  rcases Relation.TransGen.tail'_iff.1 h with ⟨b, _, hb⟩
  exact ⟨b, hb⟩

theorem below_finite (items : List Item) (id : ItemID) :
    Set.Finite {x : ItemID | x = id ∨ Reach items id x} := by
  refine Set.Finite.subset
    (Finset.finite_toSet
      (insert id ((List.range items.length).flatMap (subItemsOf items)).toFinset)) ?_
  intro x hx
  simp only [Set.mem_setOf_eq] at hx
  simp only [Finset.coe_insert, List.coe_toFinset, Set.mem_insert_iff, Set.mem_setOf_eq,
    List.mem_flatMap, List.mem_range]
  rcases hx with h | h
  · exact Or.inl h
  · obtain ⟨q, hq⟩ := reach_is_child h
    exact Or.inr ⟨q, isSubItem_lt hq, hq⟩

theorem acc_of_acyclic (items : List Item) (id : ItemID) (hacyc : AcyclicFrom items id) :
    Acc (fun c q => isSubItem items q c) id := by
  haveI : Finite {x : ItemID // x = id ∨ Reach items id x} :=
    Set.Finite.to_subtype (below_finite items id)
  let R : {x : ItemID // x = id ∨ Reach items id x} → {x : ItemID // x = id ∨ Reach items id x}
      → Prop := fun x y => Reach items y.1 x.1
  haveI : IsTrans _ R := ⟨fun a b c hab hbc => Relation.TransGen.trans hbc hab⟩
  haveI : IsIrrefl _ R := ⟨fun a ha => hacyc a.1 a.2 ha⟩
  have hwf : WellFounded R := Finite.wellFounded_of_trans_of_irrefl R
  have key : ∀ a : {x : ItemID // x = id ∨ Reach items id x},
      Acc (fun c q => isSubItem items q c) a.1 := by
    intro a
    induction hwf.apply a with
    | intro a _ ih =>
      refine Acc.intro _ (fun c hc => ?_)
      have hcS : c = id ∨ Reach items id c := by
        right
        rcases a.2 with h | h
        · rw [← h]; exact Relation.TransGen.single hc
        · exact Relation.TransGen.tail h hc
      exact ih ⟨c, hcS⟩ (Relation.TransGen.single hc)
  exact key ⟨id, Or.inl rfl⟩

theorem subItemsOf_eq_of_payloads {items items1 : List Item}
    (h : items1.map Item._payload = items.map Item._payload) (p : ItemID) :
    subItemsOf items1 p = subItemsOf items p := by
  have e : ∀ l : List Item, subItemsOf l p
      = match (l.map Item._payload)[p]? with
        | some (some payload) => payload.subItems
        | _ => [] := by
    intro l
    unfold subItemsOf
    rw [List.getElem?_map]
    cases l[p]? with
    | none => rfl
    | some item => cases hp : item._payload <;> simp [hp]
  rw [e, e, h]

theorem isSubItem_eq_of_payloads {items items1 : List Item}
    (h : items1.map Item._payload = items.map Item._payload) :
    isSubItem items1 = isSubItem items := by
  funext p c
  unfold isSubItem
  rw [subItemsOf_eq_of_payloads h]

theorem setSubItemTransitions_spec (t : Index) (subs : List ItemID) (items : List Item)
    (hsub : ∀ x ∈ subs, x < items.length) :
    ∃ items1, Scene.setSubItemTransitions t items subs = some items1
      ∧ ∀ j, items1[j]? =
          if j ∈ subs then (items[j]?).map (fun i => i.setTransitionId t) else items[j]? := by
  induction subs generalizing items with
  | nil => exact ⟨items, rfl, fun j => by simp⟩
  | cons x xs ih =>
    have hx : x < items.length := hsub x (List.mem_cons_self x xs)
    have hitem : items[x]? = some items[x] := List.getElem?_eq_getElem hx
    obtain ⟨items1, h1, h2⟩ := ih (items.set x (items[x].setTransitionId t))
      (fun y hy => by rw [List.length_set]; exact hsub y (List.mem_cons_of_mem x hy))
    refine ⟨items1, ?_, fun j => ?_⟩
    · simp only [Scene.setSubItemTransitions, hitem]
      exact h1
    · rw [h2 j, List.getElem?_set]
      by_cases hjx : x = j
      · subst hjx
        simp only [if_true, hx, List.mem_cons, true_or, hitem, Option.map_some']
        split <;> rfl
      · have hjx2 : ¬ j = x := fun h => hjx h.symm
        simp only [hjx, if_false, List.mem_cons, hjx2, false_or]

theorem setItemTransition_reaches (s : Scene) (id : ItemID) (t : Index) (item : Item)
    (hitem : s._items[id]? = some item) (hlive : item.exist = true)
    (hacyc : AcyclicFrom s._items id) (hstore : SubItemsInStore s._items id) :
    ∃ N subItems s1,
      (∀ x, x ∈ subItems ↔ Reach s._items id x)
      ∧ (∀ fuel, N ≤ fuel →
          Scene.collectSubItems fuel s._items id [] = some subItems
          ∧ s.setItemTransition fuel id t = some s1)
      ∧ (∀ x, (x = id ∨ Reach s._items id x) →
          (s1._items[x]?).map Item.getTransitionId = some t
          ∧ s1._items[x]? = (s._items[x]?).map (fun i => i.setTransitionId t))
      ∧ (∀ x, ¬ (x = id ∨ Reach s._items id x) → s1._items[x]? = s._items[x]?)
      ∧ s1 = { s with _items := s1._items } := by
  have hlt : id < s._items.length := lt_length_of_getElem? hitem
  have hstore2 : ∀ x, (x = id ∨ Reach s._items id x) → x < s._items.length := by
    rintro x (rfl | hx)
    · exact hlt
    · exact hstore x hx
  obtain ⟨N, D, hD1, hD2⟩ := collectsTo_of_acc s._items id (acc_of_acyclic _ _ hacyc) hstore2
  have hpay : (s._items.set id (item.setTransitionId t)).map Item._payload
      = s._items.map Item._payload := map_set_of_same _ hitem rfl
  have hrel := isSubItem_eq_of_payloads hpay
  have hreach : Reach (s._items.set id (item.setTransitionId t)) = Reach s._items := by
    unfold Reach; rw [hrel]
  have hacc0 : Acc (fun c q => isSubItem (s._items.set id (item.setTransitionId t)) q c) id := by
    rw [hrel]; exact acc_of_acyclic _ _ hacyc
  obtain ⟨N0, D0, hE1, hE2⟩ := collectsTo_of_acc (s._items.set id (item.setTransitionId t)) id
    hacc0 (fun x hx => by rw [List.length_set]; rw [hreach] at hx; exact hstore2 x hx)
  rw [hreach] at hE1
  obtain ⟨items1, h3, h4⟩ := setSubItemTransitions_spec t D0
    (s._items.set id (item.setTransitionId t))
    (fun x hx => by rw [List.length_set]; exact hstore x ((hE1 x).1 hx))
  have key : ∀ x, (x = id ∨ Reach s._items id x) →
      items1[x]? = (s._items[x]?).map (fun i => i.setTransitionId t) := by
    intro x hx
    rw [h4 x, List.getElem?_set]
    by_cases hxid : id = x
    · subst hxid
      simp only [if_true, hlt, hitem, Option.map_some']
      split <;> rfl
    · have hr : Reach s._items id x := by
        rcases hx with h | h
        · exact absurd h.symm hxid
        · exact h
      simp only [hxid, if_false, (hE1 x).2 hr, if_true]
  refine ⟨max N N0, D, { s with _items := items1 }, hD1, fun fuel hfuel => ?_, ?_, ?_, rfl⟩
  · have h1 := hD2 fuel (le_trans (le_max_left _ _) hfuel) []
    have h2 := hE2 fuel (le_trans (le_max_right _ _) hfuel) []
    simp only [List.nil_append] at h1 h2
    refine ⟨h1, ?_⟩
    simp [Scene.setItemTransition, hitem, hlive, h2, h3]
  · intro x hx
    refine ⟨?_, key x hx⟩
    show (items1[x]?).map Item.getTransitionId = some t
    rw [key x hx, List.getElem?_eq_getElem (hstore2 x hx)]
    rfl
  · intro x hx
    show items1[x]? = s._items[x]?
    rw [h4 x, List.getElem?_set]
    have hxid : ¬ id = x := fun h => hx (Or.inl h.symm)
    have hnr : x ∉ D0 := fun h => hx (Or.inr ((hE1 x).1 h))
    simp only [hnr, if_false, hxid]

/-- C9: for a live item whose sub-item graph is acyclic and whose reachable sub-item
ids index the store: from some amount of fuel on, `collectSubItems` returns one
list whose members are exactly the sub-items reachable through live items, and
`setItemTransition(id, t)` returns one scene, in which the item and every
reachable sub-item are their old selves with transition id `t`, and every other
slot (and everything outside the item store) is unchanged. -/
theorem setItemTransition_propagates (s : Scene) (id : ItemID) (t : Index) (item : Item)
    (hitem : s._items[id]? = some item) (hlive : item.exist = true)
    (hacyc : AcyclicFrom s._items id) (hstore : SubItemsInStore s._items id) :
    ∃ N subItems s1,
      (∀ x, x ∈ subItems ↔ Reach s._items id x)
      ∧ (∀ fuel, N ≤ fuel →
          Scene.collectSubItems fuel s._items id [] = some subItems
          ∧ s.setItemTransition fuel id t = some s1)
      ∧ (∀ x, (x = id ∨ Reach s._items id x) →
          (s1._items[x]?).map Item.getTransitionId = some t
          ∧ s1._items[x]? = (s._items[x]?).map (fun i => i.setTransitionId t))
      ∧ (∀ x, ¬ (x = id ∨ Reach s._items id x) → s1._items[x]? = s._items[x]?)
      ∧ s1 = { s with _items := s1._items } :=
  setItemTransition_reaches s id t item hitem hlive hacyc hstore

theorem demoFamily_children_above :
    ∀ p, p < demoFamily._items.length → ∀ c ∈ subItemsOf demoFamily._items p,
      p < c ∧ c < demoFamily._items.length := by
  decide

theorem demoFamily_reach_above {x y : ItemID} (h : Reach demoFamily._items x y) : x < y := by
  induction h with
  | single h1 => exact (demoFamily_children_above _ (isSubItem_lt h1) _ h1).1
  | tail _ h2 ih => exact lt_trans ih (demoFamily_children_above _ (isSubItem_lt h2) _ h2).1

theorem demoFamily_acyclic (id : ItemID) : AcyclicFrom demoFamily._items id :=
  fun _ _ hx => lt_irrefl _ (demoFamily_reach_above hx)

theorem demoFamily_inStore (id : ItemID) : SubItemsInStore demoFamily._items id := by
  intro x hx
  obtain ⟨q, hq⟩ := reach_is_child hx
  exact (demoFamily_children_above q (isSubItem_lt hq) x hq).2

/-- C9 at the store `demoFamily`, where item 1 has the sub-items 2 and 3 and item 2
the sub-item 3: from some amount of fuel on, `setItemTransition(1, 5)` returns a
scene in which item 3 reports transition id 5. -/
theorem setItemTransition_propagates_witness :
    ∃ N s1, (∀ fuel, N ≤ fuel → demoFamily.setItemTransition fuel 1 5 = some s1)
      ∧ (s1._items[3]?).map Item.getTransitionId = some 5 := by
  obtain ⟨N, subItems, s1, _, h1, h2, _⟩ :=
    setItemTransition_propagates demoFamily 1 5
      ⟨some ⟨⟨false, false, 1⟩, ⟨(0, 0, 0), (1, 1, 1)⟩, [2, 3]⟩, ⟨false, false, 1⟩, -1, -1⟩
      (by decide) (by decide) (demoFamily_acyclic 1) (demoFamily_inStore 1)
  exact ⟨N, s1, fun fuel hfuel => (h1 fuel hfuel).2,
    (h2 3 (Or.inr (Relation.TransGen.single
      (show 3 ∈ subItemsOf demoFamily._items 1 by decide)))).1⟩

/-! ## Two transition descriptors for one item -/

theorem getD_set_none {α : Type} (l : List (Option α)) (i j : Nat) (v : Option α) :
    (l.set i v).getD j none = if j = i ∧ i < l.length then v else l.getD j none := by
  simp only [List.getD_eq_getElem?_getD, List.getElem?_set]
  by_cases hij : i = j
  · subst hij
    by_cases hi : i < l.length
    · simp [hi]
    · simp only [hi, if_false, and_false]
      rw [List.getElem?_eq_none (Nat.le_of_not_lt hi)]
      simp
  · have hji : ¬ j = i := fun h => hij h.symm
    simp [hij, hji]

theorem getD_none_of_le {α : Type} (l : List (Option α)) (i : Nat) (h : l.length ≤ i) :
    l.getD i none = none := by
  rw [List.getD_eq_getElem?_getD, List.getElem?_eq_none h]
  rfl

theorem getTransition_removeTransition (st : TransitionStage) (i j : Int) :
    (st.removeTransition i).getTransition j = if j = i then none else st.getTransition j := by
  unfold TransitionStage.removeTransition TransitionStage.getTransition
  by_cases hi : i < 0
  · simp only [hi, if_true]
    by_cases hji : j = i
    · subst hji; simp [hi]
    · simp [hji]
  · simp only [hi, if_false]
    by_cases hj : j < 0
    · have hji : ¬ j = i := by omega
      simp [hj, hji]
    · simp only [hj, if_false, getD_set_none]
      have e : (j.toNat = i.toNat) ↔ j = i := by omega
      by_cases hji : j = i
      · subst hji
        simp only [true_and, if_true]
        by_cases hlen : j.toNat < st._transitions.length
        · simp [hlen]
        · simp only [hlen, if_false]
          exact getD_none_of_le _ _ (Nat.le_of_not_lt hlen)
      · have hne : ¬ j.toNat = i.toNat := fun h => hji (e.1 h)
        simp [hne, hji]

theorem freeSlot_le (l : List (Option Transition)) : TransitionStage.freeSlot l ≤ l.length := by
  induction l with
  | nil => simp [TransitionStage.freeSlot]
  | cons x xs ih =>
    cases x with
    | none => simp [TransitionStage.freeSlot]
    | some e => simp [TransitionStage.freeSlot, ih]

theorem getD_freeSlot (l : List (Option Transition)) :
    l.getD (TransitionStage.freeSlot l) none = none := by
  induction l with
  | nil => simp [TransitionStage.freeSlot]
  | cons x xs ih =>
    cases x with
    | none => simp [TransitionStage.freeSlot]
    | some e => simpa [TransitionStage.freeSlot] using ih

theorem addTransition_index (st : TransitionStage) (id b : ItemID) (ty : TransitionType) :
    (st.addTransition id ty b).2 = (TransitionStage.freeSlot st._transitions : Int) := by
  unfold TransitionStage.addTransition
  simp only
  split <;> rfl

theorem addTransition_spec (st : TransitionStage) (id b : ItemID) (ty : TransitionType) :
    0 ≤ (st.addTransition id ty b).2
    ∧ st.getTransition (st.addTransition id ty b).2 = none
    ∧ ∀ j : Int, (st.addTransition id ty b).1.getTransition j
        = if j = (st.addTransition id ty b).2 then some ⟨id, ty, b⟩ else st.getTransition j := by
  have hle := freeSlot_le st._transitions
  have hfree := getD_freeSlot st._transitions
  have hidx := addTransition_index st id b ty
  generalize hn : TransitionStage.freeSlot st._transitions = n at hle hfree hidx
  refine ⟨by rw [hidx]; exact Int.ofNat_nonneg _, ?_, fun j => ?_⟩
  · rw [hidx]
    have h0 : ¬ ((n : Int) < 0) := by omega
    simp only [TransitionStage.getTransition, h0, if_false, Int.toNat_ofNat]
    exact hfree
  · rw [hidx]
    unfold TransitionStage.addTransition TransitionStage.getTransition
    simp only [hn]
    by_cases hj : j < 0
    · have hne : ¬ j = (n : Int) := by omega
      simp [hj, hne]
    · have e : (j = (n : Int)) ↔ j.toNat = n := by omega
      by_cases hlt : n < st._transitions.length
      · simp only [hlt, if_true, hj, if_false, getD_set_none]
        by_cases hjf : j.toNat = n
        · simp [hjf, hlt, e.2 hjf]
        · have hne : ¬ j = (n : Int) := fun h => hjf (e.1 h)
          simp [hjf, hne]
      · have hlen : n = st._transitions.length := by omega
        simp only [hlt, if_false, hj, List.getD_eq_getElem?_getD]
        by_cases hjf : j.toNat = n
        · have hje := e.2 hjf
          rw [hlen] at hjf
          simp only [hje, if_true, Int.toNat_ofNat]
          rw [hlen, List.getElem?_append_right (le_refl _)]
          simp
        · have hne : ¬ j = (n : Int) := fun h => hjf (e.1 h)
          rw [hlen] at hjf
          simp only [hne, if_false]
          by_cases hjl : j.toNat < st._transitions.length
          · rw [List.getElem?_append_left hjl]
          · have h1 : st._transitions.length ≤ j.toNat := by omega
            rw [List.getElem?_append_right h1, List.getElem?_eq_none (l := st._transitions) h1]
            have h2 : [some (⟨id, ty, b⟩ : Transition)].length ≤ j.toNat - st._transitions.length := by
              simp only [List.length_singleton]; omega
            rw [List.getElem?_eq_none h2]

theorem find?_assign {β : Type} (name : String) (v : β) (l : List (String × β)) :
    (assign name v l).find? (fun e => e.1 == name)
      = (l.find? (fun e => e.1 == name)).map (fun e => (e.1, v)) := by
  induction l with
  | nil => rfl
  | cons x xs ih =>
    unfold assign at ih ⊢
    simp only [List.map_cons, List.find?_cons]
    by_cases hx : (x.1 == name) = true
    · simp [hx]
    · simp only [hx, if_false, Bool.false_eq_true]
      simpa using ih

theorem getTransitionStage_put {s : Scene} {st0 : TransitionStage} (st : TransitionStage)
    (h : s.getTransitionStage = some st0) : (s.putTransitionStage st).getTransitionStage = some st := by
  unfold Scene.getTransitionStage Scene.getStage at h ⊢
  unfold Scene.putTransitionStage
  simp only [find?_assign]
  cases hf : s._stages.find? (fun e => e.1 == TransitionStage.getName) with
  | none => simp [hf] at h
  | some found => simp

theorem removeTransition_invalid (st : TransitionStage) :
    st.removeTransition INVALID_INDEX = st := by
  simp [TransitionStage.removeTransition, INVALID_INDEX]

theorem removeTransitionOf_registered {s : Scene} {st : TransitionStage} (item : Item)
    (h : s.getTransitionStage = some st) :
    s.removeTransitionOf item
      = some (if item.getTransitionId != INVALID_INDEX
          then s.putTransitionStage (st.removeTransition item.getTransitionId) else s) := by
  unfold Scene.removeTransitionOf
  split
  · simp [h]
  · rfl

theorem setSubItemTransitions_map {β : Type} (f : Item → β)
    (hf : ∀ (it : Item) (t : Index), f (it.setTransitionId t) = f it)
    {t : Index} {items items1 : List Item} {subs : List ItemID}
    (h : Scene.setSubItemTransitions t items subs = some items1) :
    items1.map f = items.map f := by
  induction subs generalizing items with
  | nil => simp [Scene.setSubItemTransitions] at h; subst h; rfl
  | cons x xs ih =>
    simp only [Scene.setSubItemTransitions] at h
    split at h
    · simp at h
    · rename_i sub hsub
      rw [ih h]
      exact map_set_of_same _ hsub (hf _ _)

theorem setItemTransition_map {β : Type} (f : Item → β)
    (hf : ∀ (it : Item) (t : Index), f (it.setTransitionId t) = f it)
    {fuel : Nat} {s s1 : Scene} {id : ItemID} {t : Index}
    (h : s.setItemTransition fuel id t = some s1) : s1._items.map f = s._items.map f := by
  simp only [Scene.setItemTransition] at h
  split at h
  · simp at h
  · rename_i item hitem
    split at h
    · split at h
      · simp at h
      · split at h
        · simp at h
        · rename_i items1 h2
          simp only [Option.some.injEq] at h
          subst h
          simp only
          rw [setSubItemTransitions_map f hf h2]
          exact map_set_of_same _ hitem (hf _ _)
    · simp only [Option.some.injEq] at h
      subst h
      rfl

theorem graph_eq_of_payloads {items items1 : List Item}
    (h : items1.map Item._payload = items.map Item._payload) (id : ItemID) :
    (AcyclicFrom items id → AcyclicFrom items1 id)
    ∧ (SubItemsInStore items id → SubItemsInStore items1 id) := by
  have hrel := isSubItem_eq_of_payloads h
  have hreach : Reach items1 = Reach items := by unfold Reach; rw [hrel]
  have hlen : items1.length = items.length := by
    have := congrArg List.length h
    simpa using this
  constructor
  · intro ha x hx
    rw [hreach] at hx ⊢
    exact ha x hx
  · intro hs x hx
    rw [hreach] at hx
    rw [hlen]
    exact hs x hx

/-- One transition descriptor with a type other than `NONE` on a live item, with the
transition stage registered: from some fuel on the loop body returns one scene;
in it the stage is the old one with the item's old transition deregistered and
the new entry registered, and the item holds the new entry's id. -/
theorem transitionItemsBody_live (s : Scene) (id b : ItemID) (ty : TransitionType) (item : Item)
    (st : TransitionStage) (hitem : s._items[id]? = some item) (hlive : item.exist = true)
    (hst : s.getTransitionStage = some st) (hty : ty ≠ TransitionType.NONE)
    (hacyc : AcyclicFrom s._items id) (hstore : SubItemsInStore s._items id) :
    ∃ N s1, (∀ fuel, N ≤ fuel → s.transitionItemsBody fuel id ty b = some s1)
      ∧ s1.getTransitionStage
          = some ((st.removeTransition item.getTransitionId).addTransition id ty b).1
      ∧ s1._items[id]? = some (item.setTransitionId
          ((st.removeTransition item.getTransitionId).addTransition id ty b).2)
      ∧ s1._items.map Item._payload = s._items.map Item._payload := by
  -- the scene after the stage has been updated
  have hrem := removeTransitionOf_registered item hst
  have hst1 : ∀ s1 : Scene,
      s1 = (if item.getTransitionId != INVALID_INDEX
          then s.putTransitionStage (st.removeTransition item.getTransitionId) else s) →
      s1.getTransitionStage = some (st.removeTransition item.getTransitionId)
        ∧ s1._items = s._items := by
    intro s1 hs1
    subst hs1
    split
    · exact ⟨getTransitionStage_put _ hst, rfl⟩
    · rename_i hne
      have : item.getTransitionId = INVALID_INDEX := by simpa using hne
      rw [this, removeTransition_invalid]
      exact ⟨hst, rfl⟩
  obtain ⟨hA, hAi⟩ := hst1 _ rfl
  generalize (if item.getTransitionId != INVALID_INDEX
      then s.putTransitionStage (st.removeTransition item.getTransitionId) else s) = sA
    at hrem hA hAi
  have hadd : sA.addTransitionFor id ty b
      = some (sA.putTransitionStage
            ((st.removeTransition item.getTransitionId).addTransition id ty b).1,
          ((st.removeTransition item.getTransitionId).addTransition id ty b).2) := by
    simp [Scene.addTransitionFor, hty, hA]
  have hBi : (sA.putTransitionStage
      ((st.removeTransition item.getTransitionId).addTransition id ty b).1)._items = s._items := hAi
  obtain ⟨N, _, s1, _, h1, h2, _, h4⟩ := setItemTransition_reaches
    (sA.putTransitionStage ((st.removeTransition item.getTransitionId).addTransition id ty b).1)
    id ((st.removeTransition item.getTransitionId).addTransition id ty b).2 item
    (by rw [hBi]; exact hitem) hlive (by rw [hBi]; exact hacyc) (by rw [hBi]; exact hstore)
  refine ⟨N, s1, fun fuel hfuel => ?_, ?_, ?_, ?_⟩
  · simp only [Scene.transitionItemsBody, hitem, hlive, if_true, hrem, hadd]
    exact (h1 fuel hfuel).2
  · rw [h4]
    exact getTransitionStage_put _ hA
  · have := (h2 id (Or.inl rfl)).2
    rw [hBi, hitem] at this
    exact this
  · have := setItemTransition_map Item._payload (fun _ _ => rfl) (h1 N (le_refl _)).2
    rw [this, hBi]

theorem transitionItems_pair (fuel : Nat) (s : Scene) (id1 id2 b1 b2 : ItemID)
    (ty1 ty2 : TransitionType) :
    s.transitionItems fuel [id1, id2] [ty1, ty2] [b1, b2]
      = (s.transitionItemsBody fuel id1 ty1 b1).bind
          (fun s1 => s1.transitionItemsBody fuel id2 ty2 b2) := by
  simp only [Scene.transitionItems]
  cases s.transitionItemsBody fuel id1 ty1 b1 with
  | none => rfl
  | some s1 =>
    simp only [Option.some_bind]
    cases s1.transitionItemsBody fuel id2 ty2 b2 <;> rfl

/-- C8 (as stated, refuted): item 2 is a live sub-item of item 1; a transition was
committed on item 2 and then one on item 1.  One batch with two transition
descriptors for item 2 (types other than `NONE`) then leaves the transition
stage with two entries whose subject is item 2: the entry of the second
descriptor, to which item 2 refers, and the entry of the first commit. -/
theorem two_descriptors_leave_two_entries :
    demoTwoDescriptors.map
        (fun s => (s.getTransitionStage, (s._items[2]?).map Item.getTransitionId))
      = some (some ⟨[some ⟨2, TransitionType.tag 1, 0⟩, some ⟨2, TransitionType.tag 3, 0⟩]⟩,
          some 1) := by
  decide

/-- C8 (amended): let `id` be a live item whose sub-item graph is acyclic and inside
the store, with the transition stage registered and holding no entry whose
subject is `id` other than the one the item's transition id refers to.  Two
transition descriptors for `id` with types other than `NONE`, applied in one
batch, make `transitionItems` return (from some fuel on) one scene in which the
stage is the old one with the item's old transition deregistered, the first
descriptor's entry registered and deregistered again, and the second's
registered; the item's transition id refers to the second's entry, and that is
the only entry of the stage whose subject is `id`. -/
theorem two_descriptors_leave_second (s : Scene) (id b1 b2 : ItemID) (ty1 ty2 : TransitionType)
    (item : Item) (st : TransitionStage)
    (hitem : s._items[id]? = some item) (hlive : item.exist = true)
    (hst : s.getTransitionStage = some st)
    (hty1 : ty1 ≠ TransitionType.NONE) (hty2 : ty2 ≠ TransitionType.NONE)
    (hacyc : AcyclicFrom s._items id) (hstore : SubItemsInStore s._items id)
    (hone : ∀ (j : Int) (e : Transition),
      st.getTransition j = some e → e.itemId = id → j = item.getTransitionId) :
    ∃ N s2 st2 item2,
      (∀ fuel, N ≤ fuel → s.transitionItems fuel [id, id] [ty1, ty2] [b1, b2] = some s2)
      ∧ s2.getTransitionStage = some st2 ∧ s2._items[id]? = some item2
      ∧ st2 = ((((st.removeTransition item.getTransitionId).addTransition id ty1 b1).1.removeTransition
            ((st.removeTransition item.getTransitionId).addTransition id ty1 b1).2).addTransition
              id ty2 b2).1
      ∧ st2.getTransition item2.getTransitionId = some ⟨id, ty2, b2⟩
      ∧ (∀ (j : Int) (e : Transition),
          st2.getTransition j = some e → e.itemId = id → j = item2.getTransitionId) := by
  obtain ⟨N1, s1, h1, hs1, hi1, hp1⟩ :=
    transitionItemsBody_live s id b1 ty1 item st hitem hlive hst hty1 hacyc hstore
  have hg := graph_eq_of_payloads hp1 id
  obtain ⟨N2, s2, h2, hs2, hi2, _⟩ :=
    transitionItemsBody_live s1 id b2 ty2 _ _ hi1 hlive hs1 hty2 (hg.1 hacyc) (hg.2 hstore)
  refine ⟨max N1 N2, s2, _, _, fun fuel hfuel => ?_, hs2, hi2, rfl, ?_, ?_⟩
  · rw [transitionItems_pair, h1 fuel (le_trans (le_max_left _ _) hfuel)]
    exact h2 fuel (le_trans (le_max_right _ _) hfuel)
  · simp only [Item.getTransitionId, Item.setTransitionId]
    rw [(addTransition_spec _ id b2 ty2).2.2]
    simp
  · intro j e hj he
    simp only [Item.getTransitionId, Item.setTransitionId] at hj ⊢
    rw [(addTransition_spec _ id b2 ty2).2.2] at hj
    by_cases hj2 : j = ((((st.removeTransition item._transitionId).addTransition id ty1
        b1).1.removeTransition
          ((st.removeTransition item._transitionId).addTransition id ty1 b1).2).addTransition
            id ty2 b2).2
    · exact hj2
    · exfalso
      simp only [hj2, if_false] at hj
      rw [getTransition_removeTransition] at hj
      split at hj
      · cases hj
      · rename_i hj1
        rw [(addTransition_spec _ id b1 ty1).2.2] at hj
        simp only [hj1, if_false] at hj
        rw [getTransition_removeTransition] at hj
        split at hj
        · cases hj
        · rename_i hj0
          exact hj0 (hone j e hj he)

/-- The amended C8 at the store `demoFamily` with its empty transition stage: two
descriptors for item 1 leave exactly the second's entry. -/
theorem two_descriptors_leave_second_witness :
    ∃ N s2, (∀ fuel, N ≤ fuel →
        demoFamily.transitionItems fuel [1, 1] [TransitionType.tag 1, TransitionType.tag 2] [0, 0]
          = some s2)
      ∧ s2.getTransitionStage = some ⟨[some ⟨1, TransitionType.tag 2, 0⟩]⟩ := by
  obtain ⟨N, s2, st2, item2, h1, h2, _, h4, _⟩ :=
    two_descriptors_leave_second demoFamily 1 0 0 (TransitionType.tag 1) (TransitionType.tag 2)
      ⟨some ⟨⟨false, false, 1⟩, ⟨(0, 0, 0), (1, 1, 1)⟩, [2, 3]⟩, ⟨false, false, 1⟩, -1, -1⟩
      ⟨[]⟩ (by decide) (by decide) (by decide) (by decide) (by decide)
      (demoFamily_acyclic 1) (demoFamily_inStore 1)
      (fun j e h => by simp [TransitionStage.getTransition] at h)
  refine ⟨N, s2, h1, ?_⟩
  rw [h2, h4]
  decide

/-! ## Removing an item twice -/

theorem removeTransition_idem (st : TransitionStage) (i : Int) :
    (st.removeTransition i).removeTransition i = st.removeTransition i := by
  unfold TransitionStage.removeTransition
  by_cases hi : i < 0
  · simp [hi]
  · simp only [hi, if_false]
    congr 1
    apply List.ext_getElem?
    intro n
    simp only [List.getElem?_set, List.length_set]
    by_cases hn : i.toNat = n <;> simp [hn]

theorem removeTransition_of_free (st : TransitionStage) (i : Int)
    (h : st.getTransition i = none) : st.removeTransition i = st := by
  unfold TransitionStage.removeTransition
  unfold TransitionStage.getTransition at h
  by_cases hi : i < 0
  · simp [hi]
  · simp only [hi, if_false] at h ⊢
    cases st with
    | mk l =>
      simp only at h ⊢
      congr 1
      apply List.ext_getElem?
      intro n
      rw [List.getElem?_set]
      by_cases hn : i.toNat = n
      · subst hn
        simp only [if_true]
        rw [List.getD_eq_getElem?_getD] at h
        by_cases hlt : i.toNat < l.length
        · simp only [hlt, if_true]
          rw [List.getElem?_eq_getElem hlt] at h ⊢
          simp only [Option.getD_some] at h
          rw [h]
        · simp only [hlt, if_false]
          rw [List.getElem?_eq_none (Nat.le_of_not_lt hlt)]
      · simp [hn]

theorem removeTransitionOf_observed {s s1 : Scene} {item : Item}
    (h : s.removeTransitionOf item = some s1) :
    s1._items = s._items ∧ s1._masterNonspatialSet = s._masterNonspatialSet
    ∧ s1._masterSpatialTree = s._masterSpatialTree
    ∧ (item.getTransitionId = INVALID_INDEX → s1 = s)
    ∧ (item.getTransitionId ≠ INVALID_INDEX →
        ∃ st, s.getTransitionStage = some st
          ∧ s1 = s.putTransitionStage (st.removeTransition item.getTransitionId)) := by
  obtain ⟨e1, e2, e3⟩ := removeTransitionOf_containers h
  refine ⟨e1, e2, e3, ?_, ?_⟩
  · intro ht
    simp [Scene.removeTransitionOf, ht] at h
    exact h.symm
  · intro ht
    simp only [Scene.removeTransitionOf, bne_iff_ne, ne_eq, ht, not_false_eq_true, if_true] at h
    cases hs : s.getTransitionStage with
    | none => simp [hs] at h
    | some st =>
      simp only [hs, Option.some.injEq] at h
      exact ⟨st, rfl, h.symm⟩

theorem kill_kill (item : Item) : item.kill.kill = item.kill := rfl

theorem getTransitionStage_of_stages {s s1 : Scene} (h : s1._stages = s._stages) :
    s1.getTransitionStage = s.getTransitionStage := by
  unfold Scene.getTransitionStage Scene.getStage
  rw [h]

theorem removeItemsBody_some {g r : Scene} {id : ItemID} {item : Item}
    (hitem : g._items[id]? = some item) (h : g.removeItemsBody id = some r) :
    ∃ gT, (g.removeFromContainer item.getCell item.getKey id).removeTransitionOf item = some gT
      ∧ r = { gT with _items := gT._items.set id item.kill } := by
  simp only [Scene.removeItemsBody, hitem] at h
  split at h
  · simp at h
  · rename_i gT hT
    simp only [Option.some.injEq] at h
    exact ⟨gT, hT, h.symm⟩

theorem removeItemsBody_twice {g r : Scene} {id : ItemID} {item : Item}
    (hitem : g._items[id]? = some item)
    (hcls : item.getKey.isSpatial = true → id ∉ g._masterNonspatialSet)
    (h : g.removeItemsBody id = some r) :
    ∃ r2, r.removeItemsBody id = some r2 ∧ r2.observed = r.observed := by
  have hlt : id < g._items.length := lt_length_of_getElem? hitem
  obtain ⟨gT, hT, hr⟩ := removeItemsBody_some hitem h
  obtain ⟨e1, e2, e3, e4, e5⟩ := removeTransitionOf_observed hT
  obtain ⟨c1, c2⟩ := removeFromContainer_containers g item.getCell item.getKey id
  have hgi : gT._items = g._items := e1.trans (removeFromContainer_frame g _ _ _).2.1
  have hri : r._items = g._items.set id item.kill := by rw [hr]; simp only [hgi]
  have hritem : r._items[id]? = some item.kill := by rw [hri, List.getElem?_set_self hlt]
  have hrset : r._masterNonspatialSet
      = if item.getKey.isSpatial then g._masterNonspatialSet
        else g._masterNonspatialSet.erase id := by
    rw [hr]; simp only; rw [e2, c1]
  have herase : r._masterNonspatialSet.erase id = r._masterNonspatialSet := by
    rw [hrset]
    split
    · rename_i hsp
      exact Finset.erase_eq_of_not_mem (hcls hsp)
    · exact Finset.erase_eq_of_not_mem (Finset.not_mem_erase _ _)
  have hcont : r.removeFromContainer item.kill.getCell item.kill.getKey id
      = { r with _masterNonspatialSet := r._masterNonspatialSet.erase id } := by
    simp [Scene.removeFromContainer, Item.kill, Item.getKey, ItemKey.cleared, ItemKey.isSpatial]
  have hset2 : (g._items.set id item.kill).set id item.kill.kill = g._items.set id item.kill := by
    rw [kill_kill, List.set_set]
  by_cases ht : item.getTransitionId = INVALID_INDEX
  · have hkt : item.kill.getTransitionId = INVALID_INDEX := ht
    refine ⟨{ r with _masterNonspatialSet := r._masterNonspatialSet.erase id,
                     _items := r._items.set id item.kill.kill }, ?_, ?_⟩
    · simp [Scene.removeItemsBody, hritem, hcont, Scene.removeTransitionOf, hkt]
    · simp only [Scene.observed, herase, hri, hset2]
      rfl
  · obtain ⟨st, hst, hgT⟩ := e5 ht
    have hstr : r.getTransitionStage = some (st.removeTransition item.getTransitionId) := by
      have : r._stages = gT._stages := by rw [hr]
      rw [getTransitionStage_of_stages this, hgT]
      exact getTransitionStage_put _ hst
    have hkt : item.kill.getTransitionId = item.getTransitionId := rfl
    have hst2 : Scene.getTransitionStage
        { r with _masterNonspatialSet := r._masterNonspatialSet.erase id }
        = some (st.removeTransition item.getTransitionId) := hstr
    refine ⟨{ Scene.putTransitionStage
                { r with _masterNonspatialSet := r._masterNonspatialSet.erase id }
                ((st.removeTransition item.getTransitionId).removeTransition item.getTransitionId)
              with _items := r._items.set id item.kill.kill }, ?_, ?_⟩
    · simp only [Scene.removeItemsBody, hritem, hcont, Scene.removeTransitionOf, hkt, bne_iff_ne,
        ne_eq, ht, not_false_eq_true, if_true, hst2]
      rfl
    · have hs3 : Scene.getTransitionStage
          { Scene.putTransitionStage
                { r with _masterNonspatialSet := r._masterNonspatialSet.erase id }
                ((st.removeTransition item.getTransitionId).removeTransition item.getTransitionId)
              with _items := r._items.set id item.kill.kill }
          = some (st.removeTransition item.getTransitionId) := by
        have := getTransitionStage_put
          ((st.removeTransition item.getTransitionId).removeTransition item.getTransitionId) hst2
        rw [removeTransition_idem] at this
        rw [removeTransition_idem]
        exact this
      simp only [Scene.observed, hs3, hstr]
      simp only [Scene.putTransitionStage, herase, hri, hset2]

theorem scene_eta_queue (s : Scene) (hq : s._transactionQueue = []) :
    { s with _transactionQueue := [] } = s := by
  cases s
  simp only at hq
  subst hq
  rfl

theorem commitRemove_eq (fuel : Nat) (s : Scene) (id : ItemID) (hq : s._transactionQueue = []) :
    s.commitRemove fuel id
      = (s.beginCommit.removeItemsBody id).map (Scene.publish s._IDAllocator) := by
  have h := commit_of_ops fuel s [[Op.remove id]]
  have e1 : ({ s with _transactionQueue := [[Op.remove id]].map Transaction.ofOps } : Scene)
      = s.enqueueTransaction (Transaction.empty.removeItem id) := by
    unfold Scene.enqueueTransaction
    rw [hq]
    rfl
  rw [e1] at h
  unfold Scene.commitRemove
  rw [h]
  have e2 : stageOrder [[Op.remove id]].flatten = [Op.remove id] := rfl
  rw [e2]
  simp only [List.foldlM_cons, List.foldlM_nil, Scene.applyOp]
  cases s.beginCommit.removeItemsBody id <;> rfl

theorem processTransactionQueue_empty (fuel : Nat) (s : Scene) (hq : s._transactionQueue = []) :
    s.processTransactionQueue fuel = some (Scene.publish s._IDAllocator s.beginCommit) := by
  have h := commit_of_ops fuel s []
  have e1 : ({ s with _transactionQueue := ([] : List (List Op)).map Transaction.ofOps } : Scene)
      = s := scene_eta_queue s hq
  rw [e1] at h
  rw [h]
  rfl

theorem beginCommit_getElem? {s : Scene} {id : ItemID} {item : Item}
    (h : s._items[id]? = some item) : s.beginCommit._items[id]? = some item := by
  have hlt := lt_length_of_getElem? h
  unfold Scene.beginCommit
  simp only
  split
  · unfold resizeItems
    rw [List.take_of_length_le (by omega), List.getElem?_append_left hlt]
    exact h
  · exact h

theorem beginCommit_length (s : Scene) : s._IDAllocator ≤ s.beginCommit._items.length := by
  unfold Scene.beginCommit
  simp only
  split
  · unfold resizeItems
    rw [List.take_of_length_le (by omega)]
    simp only [List.length_append, List.length_replicate]
    omega
  · omega

theorem beginCommit_of_grown (s : Scene) (hq : s._transactionQueue = [])
    (hlen : s._IDAllocator ≤ s._items.length) : s.beginCommit = s := by
  unfold Scene.beginCommit
  have : ¬ s._items.length < s._IDAllocator := by omega
  simp only [this, if_false]
  exact scene_eta_queue s hq

theorem observed_publish (n : Nat) (s : Scene) : (Scene.publish n s).observed = s.observed := rfl

theorem removeItemsBody_publish (n : Nat) (s : Scene) (id : ItemID) :
    (Scene.publish n s).removeItemsBody id = (s.removeItemsBody id).map (Scene.publish n) :=
  applyOp_publish 0 n s (Op.remove id)

theorem set_of_getElem? {α : Type} {l : List α} {i : Nat} {a : α} (h : l[i]? = some a) :
    l.set i a = l := by
  apply List.ext_getElem?
  intro n
  rw [List.getElem?_set]
  by_cases hn : i = n
  · subst hn
    simp [lt_length_of_getElem? h, h]
  · simp [hn]

theorem kill_of_dead (item : Item) (hdead : item.exist = false)
    (hkey : item.getKey = ItemKey.cleared) (hcell : item.getCell = INVALID_CELL) :
    item.kill = item := by
  cases item with
  | mk payload key cell tid =>
    simp only [Item.exist, Item.getKey, Item.getCell] at hdead hkey hcell
    cases payload with
    | some p => simp at hdead
    | none =>
      subst hkey hcell
      rfl

/-- C10 (as stated, refuted): in the scene `demoFiledTwice`, reached by completed
commits, committing `remove(1)` once leaves id 1 in the non-spatial set and
committing it again takes it out; and in the scene `demoDeadSubItem`, where the
never-created item 2 is a sub-item of item 1, committing `remove(2)` on the dead
item 2 deregisters the transition of item 1 from the transition stage. -/
theorem remove_again_changes_state :
    (demoFiledTwice.commitRemove 0 1).map (fun s => s._masterNonspatialSet) = some {1}
    ∧ ((demoFiledTwice.commitRemove 0 1).bind (fun s => s.commitRemove 0 1)).map
        (fun s => s._masterNonspatialSet) = some ∅
    ∧ demoDeadSubItem.map (fun s => ((s._items[2]?).map Item.exist, s.getTransitionStage))
        = some (some false, some ⟨[some ⟨1, TransitionType.tag 1, 0⟩]⟩)
    ∧ (demoDeadSubItem.bind (fun s => s.commitRemove 0 2)).map (fun s => s.getTransitionStage)
        = some (some ⟨[none]⟩) := by
  refine ⟨?_, ?_, ?_, ?_⟩ <;> decide

/-- C10 (amended): let the queue be empty and `id` an id whose slot the store holds,
not a member of the non-spatial set while its item's key is spatial.  Then a
commit of `remove(id)` followed by a second commit of `remove(id)` completes and
leaves the item store, the spatial index, the non-spatial set and the
transition stage as the first commit left them; the first commit completes when
the item holds no transition or the transition stage is registered; and
committing `remove(id)` for a dead item with unset key and cell that is in
neither container and holds no registered transition id leaves those four parts
as a commit of nothing does. -/
theorem remove_twice_same_as_once (fuel : Nat) (s : Scene) (id : ItemID) (item : Item)
    (hq : s._transactionQueue = []) (hitem : s._items[id]? = some item)
    (hcls : item.getKey.isSpatial = true → id ∉ s._masterNonspatialSet) :
    (∀ s1, s.commitRemove fuel id = some s1 →
        ∃ s2, s1.commitRemove fuel id = some s2 ∧ s2.observed = s1.observed)
    ∧ ((item.getTransitionId = INVALID_INDEX ∨ s.getTransitionStage.isSome = true) →
        (s.commitRemove fuel id).isSome = true)
    ∧ (item.exist = false → item.getKey = ItemKey.cleared → item.getCell = INVALID_CELL →
        id ∉ s._masterNonspatialSet → s.holdsNoTransition item →
        (s.commitRemove fuel id).map Scene.observed
          = (s.processTransactionQueue fuel).map Scene.observed) := by
  have hg : s.beginCommit._items[id]? = some item := beginCommit_getElem? hitem
  have hgset : s.beginCommit._masterNonspatialSet = s._masterNonspatialSet := rfl
  have hgstage : s.beginCommit.getTransitionStage = s.getTransitionStage := rfl
  rw [commitRemove_eq fuel s id hq]
  refine ⟨fun s1 h1 => ?_, fun hreg => ?_, fun hdead hkey hcell hset hno => ?_⟩
  · cases hr : s.beginCommit.removeItemsBody id with
    | none => simp [hr] at h1
    | some r =>
      simp only [hr, Option.map_some', Option.some.injEq] at h1
      subst h1
      obtain ⟨r2, hr2, hobs⟩ := removeItemsBody_twice hg (by rw [hgset]; exact hcls) hr
      have hfr := removeItemsBody_frame hr
      have hq1 : (Scene.publish s._IDAllocator r)._transactionQueue = [] := hfr.2.2.1
      have hlen1 : (Scene.publish s._IDAllocator r)._IDAllocator
          ≤ (Scene.publish s._IDAllocator r)._items.length := by
        show r._IDAllocator ≤ r._items.length
        rw [hfr.1, hfr.2.2.2.2.1]
        exact beginCommit_length s
      rw [commitRemove_eq fuel _ id hq1, beginCommit_of_grown _ hq1 hlen1,
        removeItemsBody_publish, hr2]
      exact ⟨_, rfl, hobs⟩
  · simp only [Scene.removeItemsBody, hg]
    have hst : (s.beginCommit.removeFromContainer item.getCell item.getKey id).getTransitionStage
        = s.getTransitionStage :=
      getTransitionStage_of_stages (removeFromContainer_frame _ _ _ _).2.2
    by_cases ht : item.getTransitionId = INVALID_INDEX
    · simp [Scene.removeTransitionOf, ht]
    · have hsome : s.getTransitionStage.isSome = true := by
        rcases hreg with h | h
        · exact absurd h ht
        · exact h
      cases hs : s.getTransitionStage with
      | none => simp [hs] at hsome
      | some st =>
        rw [removeTransitionOf_registered item (hst.trans hs)]
        rfl
  · rw [processTransactionQueue_empty fuel s hq]
    simp only [Option.map_some', observed_publish]
    have hkill : item.kill = item := kill_of_dead item hdead hkey hcell
    have hcont : s.beginCommit.removeFromContainer item.getCell item.getKey id = s.beginCommit := by
      unfold Scene.removeFromContainer
      rw [hkey]
      simp only [ItemKey.isSpatial, ItemKey.cleared, Bool.false_eq_true, if_false]
      rw [Finset.erase_eq_of_not_mem (by rw [hgset]; exact hset)]
    simp only [Scene.removeItemsBody, hg, hcont, hkill]
    rcases hno with hinv | ⟨st, hst, hfree⟩
    · simp only [Scene.removeTransitionOf, hinv, bne_self_eq_false, Bool.false_eq_true, if_false,
        Option.map_some', observed_publish]
      simp only [Scene.observed, set_of_getElem? hg]
    · rw [removeTransitionOf_registered item (hgstage.trans hst)]
      simp only [Option.map_some', observed_publish, removeTransition_of_free st _ hfree]
      have hput := getTransitionStage_put (s := s.beginCommit) st (hgstage.trans hst)
      split
      · refine congrArg some ?_
        unfold Scene.observed
        refine Prod.ext ?_ (Prod.ext rfl (Prod.ext rfl ?_))
        · exact set_of_getElem? hg
        · exact hput.trans (hgstage.trans hst).symm
      · simp only [Scene.observed, set_of_getElem? hg]

theorem demoSpatialScene_queue : demoSpatialScene._transactionQueue = [] :=
  @commitInStages_queue 0 _ _
    ((processTransactionQueue_eq_stages 0 _).symm.trans (Option.some_get _).symm)

/-- The amended C10 at the committed scene with the spatial item 1: committing
`remove(1)` twice completes and leaves the state of the first commit. -/
theorem remove_twice_same_as_once_witness :
    ∃ s1 s2, demoSpatialScene.commitRemove 0 1 = some s1 ∧ s1.commitRemove 0 1 = some s2
      ∧ s2.observed = s1.observed := by
  obtain ⟨hA, hB, _⟩ := remove_twice_same_as_once 0 demoSpatialScene 1
    ⟨some demoSpatialPayload, ⟨true, false, 1⟩, 7, -1⟩ demoSpatialScene_queue (by decide)
    (by decide)
  have hsome := hB (Or.inl rfl)
  obtain ⟨s2, h2, hobs⟩ := hA _ (Option.some_get hsome).symm
  exact ⟨_, s2, (Option.some_get hsome).symm, h2, hobs⟩

/-! ## The published counter of visible ids -/

theorem commit_unfold {fuel : Nat} {s s1 : Scene} (h : s.processTransactionQueue fuel = some s1) :
    ∃ a b c d, s.beginCommit.resetItems s.batch._resetItems s.batch._resetPayloads = some a
      ∧ (Scene.publish s._IDAllocator a).updateItems s.batch._updatedItems s.batch._updateFunctors
          = some b
      ∧ b.removeItems s.batch._removedItems = some c
      ∧ c.transitionItems fuel s.batch._transitioningItems s.batch._transitionTypes
          s.batch._transitioningItemBounds = some d
      ∧ s1 = (Scene.publish s._IDAllocator d).resetSelections s.batch._resetSelections := by
  rw [processTransactionQueue_eq_stages] at h
  simp only [Scene.commitInStages, Option.bind_eq_some, Option.some.injEq] at h
  obtain ⟨a, h1, b, h2, c, h3, d, h4, h5⟩ := h
  exact ⟨a, b, c, d, h1, h2, h3, h4, h5.symm⟩

theorem find?_assign_key {β : Type} (n name : String) (v : β) (l : List (String × β)) :
    (assign n v l).find? (fun e => e.1 == name)
      = (l.find? (fun e => e.1 == name)).map (fun e => if e.1 == n then (e.1, v) else e) := by
  induction l with
  | nil => rfl
  | cons x xs ih =>
    unfold assign at ih ⊢
    simp only [List.map_cons, List.find?_cons]
    by_cases hx : x.1 == n
    · simp only [hx, if_true]
      cases hn : x.1 == name
      · simpa using ih
      · have hx1 : x.1 = n := by simpa using hx
        simp [hx1]
    · simp only [hx, Bool.false_eq_true, if_false]
      cases hn : x.1 == name
      · simpa using ih
      · have hx1 : ¬ x.1 = n := by simpa using hx
        simp [hx1]

theorem find?_assign_value {β : Type} (n name : String) (v : β) (l : List (String × β)) :
    ((assign n v l).find? (fun e => e.1 == name)).map Prod.snd
      = if n = name then (l.find? (fun e => e.1 == name)).map (fun _ => v)
        else (l.find? (fun e => e.1 == name)).map Prod.snd := by
  rw [find?_assign_key]
  cases hf : l.find? (fun e => e.1 == name) with
  | none => simp
  | some e =>
    have he : e.1 = name := by simpa using List.find?_some hf
    by_cases hn : n = name
    · simp [hn, he]
    · have : ¬ e.1 = n := fun h => hn (h.symm.trans he)
      simp [hn, this]

theorem find?_append_value {β : Type} (n name : String) (v : β) (l : List (String × β))
    (hfree : l.find? (fun e => e.1 == n) = none) :
    ((l ++ [(n, v)]).find? (fun e => e.1 == name)).map Prod.snd
      = if n = name then some v else (l.find? (fun e => e.1 == name)).map Prod.snd := by
  rw [List.find?_append]
  by_cases hn : n = name
  · subst hn
    simp [hfree]
  · simp [hn]

theorem resetSelections_cons (s : Scene) (x : Selection) (xs : List Selection) :
    s.resetSelections (x :: xs) = (s.resetSelections [x]).resetSelections xs := by
  simp only [Scene.resetSelections]
  split <;> rfl

theorem getSelection_eq (s : Scene) (name : String) :
    s.getSelection name
      = ((s._selections.find? (fun e => e.1 == name)).map Prod.snd).getD ⟨"", []⟩ := by
  unfold Scene.getSelection
  cases s._selections.find? (fun e => e.1 == name) <;> rfl

theorem getSelection_reset_one (s : Scene) (x : Selection) (name : String) :
    (s.resetSelections [x]).getSelection name
      = if x.name = name then x else s.getSelection name := by
  rw [getSelection_eq, getSelection_eq]
  simp only [Scene.resetSelections]
  split
  · rename_i hfree
    show ((List.find? _ (s._selections ++ [(x.name, x)])).map Prod.snd).getD _ = _
    rw [find?_append_value _ _ _ _ hfree]
    split <;> rfl
  · rename_i found hfound
    show ((List.find? _ (assign x.name x s._selections)).map Prod.snd).getD _ = _
    rw [find?_assign_value]
    by_cases hn : x.name = name
    · subst hn
      simp [hfound]
    · simp [hn]

theorem getSelection_resetSelections (s : Scene) (sels : List Selection) (name : String) :
    (s.resetSelections sels).getSelection name
      = ((sels.reverse.find? (fun sel => sel.name == name)).getD (s.getSelection name)) := by
  induction sels generalizing s with
  | nil => rfl
  | cons x xs ih =>
    rw [resetSelections_cons, ih, getSelection_reset_one, List.reverse_cons, List.find?_append]
    cases hf : xs.reverse.find? (fun sel => sel.name == name) with
    | some sel => simp
    | none =>
      by_cases hn : x.name = name
      · simp [hn]
      · simp [hn]

/-- C12: after `resetSelections` with any list of selections on any selection map,
`getSelection(name)` returns the last selection of the list that carries the
name when the list has one; it returns what it returned before when the list
has none; and it returns the empty selection when, in addition, no selection
was stored under the name before. -/
theorem resetSelections_last_wins (s : Scene) (sels : List Selection) (name : String) :
    (∀ sel, sels.reverse.find? (fun x => x.name == name) = some sel →
        (s.resetSelections sels).getSelection name = sel)
    ∧ ((∀ sel ∈ sels, sel.name ≠ name) →
        (s.resetSelections sels).getSelection name = s.getSelection name)
    ∧ ((∀ sel ∈ sels, sel.name ≠ name) → (∀ e ∈ s._selections, e.1 ≠ name) →
        (s.resetSelections sels).getSelection name = ⟨"", []⟩) := by
  have hnone : (∀ sel ∈ sels, sel.name ≠ name) →
      sels.reverse.find? (fun x => x.name == name) = none := by
    intro h
    rw [List.find?_eq_none]
    intro x hx
    simpa using h x (List.mem_reverse.mp hx)
  refine ⟨?_, ?_, ?_⟩
  · intro sel hsel
    rw [getSelection_resetSelections, hsel]; rfl
  · intro h
    rw [getSelection_resetSelections, hnone h]; rfl
  · intro h hs
    rw [getSelection_resetSelections, hnone h]
    have : s._selections.find? (fun e => e.1 == name) = none := by
      rw [List.find?_eq_none]
      intro e he
      simpa using hs e he
    simp [Scene.getSelection, this]

/-! ## The stage registry -/

theorem getStage_eq (s : Scene) (name : String) :
    s.getStage name = ((s._stages.find? (fun e => e.1 == name)).map Prod.snd).getD none := by
  unfold Scene.getStage
  cases s._stages.find? (fun e => e.1 == name) <;> rfl

theorem getStage_resetStage (s : Scene) (n name : String) (stage : StagePointer) :
    (s.resetStage n stage).getStage name = if n = name then stage else s.getStage name := by
  rw [getStage_eq, getStage_eq]
  unfold Scene.resetStage
  split
  · rename_i hfree
    show ((List.find? _ (s._stages ++ [(n, stage)])).map Prod.snd).getD _ = _
    rw [find?_append_value _ _ _ _ hfree]
    split <;> rfl
  · rename_i found hfound
    show ((List.find? _ (assign n stage s._stages)).map Prod.snd).getD _ = _
    rw [find?_assign_value]
    by_cases hn : n = name
    · subst hn
      simp [hfound]
    · simp [hn]

/-- C13: for every stage registry, name and stage handle, after
`resetStage(name, stage)` the call `getStage(name)` returns `stage`, whether or
not the name was registered before; `getStage` of every other name returns what
it returned before; and `getStage` of a name that was never registered returns
the empty handle. -/
theorem resetStage_registers (s : Scene) (name : String) (stage : StagePointer) :
    (s.resetStage name stage).getStage name = stage
    ∧ (∀ other, other ≠ name → (s.resetStage name stage).getStage other = s.getStage other)
    ∧ (∀ other, (∀ e ∈ s._stages, e.1 ≠ other) → s.getStage other = none)
    ∧ (∀ locate other, (Scene.new locate).getStage other = none) := by
  refine ⟨?_, ?_, ?_, ?_⟩
  · rw [getStage_resetStage]; simp
  · intro other h
    rw [getStage_resetStage]
    have : ¬ name = other := fun e => h e.symm
    simp [this]
  · intro other h
    have : s._stages.find? (fun e => e.1 == other) = none := by
      rw [List.find?_eq_none]
      intro e he
      simpa using h e he
    simp [Scene.getStage, this]
  · intro locate other
    rfl

/-! ## Updates skip the sentinel id -/

theorem updateItems_zip (s : Scene) (ids : List ItemID) (functors : List UpdateFunctor)
    (hlen : ids.length = functors.length) :
    s.updateItems ids functors
      = (ids.zip functors).foldlM (fun t p => Scene.updateItemsBody t p.1 p.2) s := by
  induction ids generalizing s functors with
  | nil => rfl
  | cons id ids ih =>
    cases functors with
    | nil => simp at hlen
    | cons f fs =>
      simp only [Scene.updateItems, List.zip_cons_cons, List.foldlM_cons]
      cases h : s.updateItemsBody id f with
      | none => rfl
      | some s1 => simpa using ih s1 fs (by simpa using hlen)

theorem updateItemsBody_sentinel (t : Scene) (f : UpdateFunctor) :
    t.updateItemsBody INVALID_ITEM_ID f = some t := by
  simp [Scene.updateItemsBody]

theorem foldlM_updateItemsBody_filter (s : Scene) (pairs : List (ItemID × UpdateFunctor)) :
    pairs.foldlM (fun t p => Scene.updateItemsBody t p.1 p.2) s
      = (pairs.filter (fun p => p.1 != INVALID_ITEM_ID)).foldlM
          (fun t p => Scene.updateItemsBody t p.1 p.2) s := by
  induction pairs generalizing s with
  | nil => rfl
  | cons p ps ih =>
    by_cases hp : p.1 = INVALID_ITEM_ID
    · rw [List.filter_cons_of_neg (by simp [hp])]
      simp only [List.foldlM_cons]
      rw [hp, updateItemsBody_sentinel]
      simpa using ih s
    · rw [List.filter_cons_of_pos (by simp [hp])]
      simp only [List.foldlM_cons]
      cases h : s.updateItemsBody p.1 p.2 with
      | none => rfl
      | some s1 => simpa using ih s1

theorem zip_unzip_pairs (pairs : List (ItemID × UpdateFunctor)) :
    (pairs.map Prod.fst).zip (pairs.map Prod.snd) = pairs := by
  induction pairs with
  | nil => rfl
  | cons p ps ih => simp [ih]

theorem updateItemsBody_applies {t t1 : Scene} {id : ItemID} {f : UpdateFunctor} {item : Item}
    (hid : id ≠ INVALID_ITEM_ID) (hitem : t._items[id]? = some item)
    (h : t.updateItemsBody id f = some t1) :
    ∃ item1, t1._items[id]? = some item1 ∧ item1._payload = item._payload.map f := by
  have hlt := lt_length_of_getElem? hitem
  have hset : ∀ (x : Item), (t._items.set id x)[id]? = some x := fun x => by
    simp [List.getElem?_set, hlt]
  have hbeq : (id == INVALID_ITEM_ID) = false := by simpa using hid
  simp only [Scene.updateItemsBody, hbeq, Bool.false_eq_true, if_false, hitem] at h
  cases hp : item._payload with
  | none => simp [Item.update, hp] at h
  | some p =>
    simp only [Item.update, hp] at h
    repeat' split at h
    all_goals first
      | (simp at h; done)
      | (simp only [Option.some.injEq] at h; subst h
         exact ⟨_, hset _, by simp [Item.resetCell]⟩)

/-- C17: for id and functor lists of equal length, `updateItems` is the run of its
loop body over the pairs (id at position i, functor at position i); the body
leaves the scene untouched for the sentinel id; for any other id it installs
the functor's image of the item's payload; and dropping the sentinel entries
together with their functors gives the same result, so that a skipped entry
never shifts the pairing. -/
theorem updateItems_skips_sentinel (s : Scene) (ids : List ItemID) (functors : List UpdateFunctor)
    (hlen : ids.length = functors.length) :
    s.updateItems ids functors
        = (ids.zip functors).foldlM (fun t p => Scene.updateItemsBody t p.1 p.2) s
    ∧ (∀ (t : Scene) (f : UpdateFunctor), t.updateItemsBody INVALID_ITEM_ID f = some t)
    ∧ (∀ (t t1 : Scene) (id : ItemID) (f : UpdateFunctor) (item : Item),
        id ≠ INVALID_ITEM_ID → t._items[id]? = some item → t.updateItemsBody id f = some t1 →
        ∃ item1, t1._items[id]? = some item1 ∧ item1._payload = item._payload.map f)
    ∧ s.updateItems ids functors
        = s.updateItems
            (((ids.zip functors).filter (fun p => p.1 != INVALID_ITEM_ID)).map Prod.fst)
            (((ids.zip functors).filter (fun p => p.1 != INVALID_ITEM_ID)).map Prod.snd) := by
  refine ⟨updateItems_zip s ids functors hlen, updateItemsBody_sentinel,
    fun t t1 id f item hid hitem h => updateItemsBody_applies hid hitem h, ?_⟩
  rw [updateItems_zip s ids functors hlen, updateItems_zip _ _ _ (by simp), zip_unzip_pairs]
  exact foldlM_updateItemsBody_filter s _

/-- C17 at the committed scene with the spatial item 1: the update list
`[0, 1, 0]` paired with three functors acts as the single update of item 1 by
the second functor. -/
theorem updateItems_skips_sentinel_witness :
    demoSpatialScene.updateItems [0, 1, 0] [id, demoMakeNonspatial, id]
      = demoSpatialScene.updateItems [1] [demoMakeNonspatial] :=
  (updateItems_skips_sentinel demoSpatialScene [0, 1, 0] [id, demoMakeNonspatial, id] rfl).2.2.2

/-! ## Transition descriptors for dead items -/

theorem transitionItemsBody_dead {s : Scene} {itemId : ItemID} {item : Item} (fuel : Nat)
    (ty : TransitionType) (b : ItemID)
    (hitem : s._items[itemId]? = some item) (hdead : item.exist = false) :
    s.transitionItemsBody fuel itemId ty b = some s := by
  simp [Scene.transitionItemsBody, hitem, hdead]

theorem removeItemsBody_items {t t1 : Scene} {id : ItemID} (h : t.removeItemsBody id = some t1) :
    ∃ item, t._items[id]? = some item ∧ t1._items = t._items.set id item.kill := by
  cases hitem : t._items[id]? with
  | none => simp [Scene.removeItemsBody, hitem] at h
  | some item =>
    obtain ⟨gT, hT, hr⟩ := removeItemsBody_some hitem h
    refine ⟨item, rfl, ?_⟩
    rw [hr]
    show gT._items.set id item.kill = _
    rw [(removeTransitionOf_frame hT).2, (removeFromContainer_frame _ _ _ _).2.1]

theorem removeItemsBody_keeps_dead {t t1 : Scene} {id j : ItemID} {it : Item}
    (h : t.removeItemsBody id = some t1) (hj : t._items[j]? = some it) (hdead : it.exist = false) :
    ∃ it1, t1._items[j]? = some it1 ∧ it1.exist = false := by
  obtain ⟨item, hitem, hitems⟩ := removeItemsBody_items h
  rw [hitems]
  by_cases e : id = j
  · subst e
    exact ⟨item.kill, by simp [List.getElem?_set, lt_length_of_getElem? hitem], rfl⟩
  · exact ⟨it, by rw [List.getElem?_set_ne e]; exact hj, hdead⟩

theorem removeItems_keeps_dead {t t1 : Scene} {ids : List ItemID} {j : ItemID} {it : Item}
    (h : t.removeItems ids = some t1) (hj : t._items[j]? = some it) (hdead : it.exist = false) :
    ∃ it1, t1._items[j]? = some it1 ∧ it1.exist = false := by
  induction ids generalizing t it with
  | nil => simp [Scene.removeItems] at h; subst h; exact ⟨it, hj, hdead⟩
  | cons id ids ih =>
    simp only [Scene.removeItems] at h
    split at h
    · simp at h
    · rename_i t2 h2
      obtain ⟨it2, hj2, hdead2⟩ := removeItemsBody_keeps_dead h2 hj hdead
      exact ih h hj2 hdead2

theorem removeItems_kills {t t1 : Scene} {ids : List ItemID} {j : ItemID}
    (h : t.removeItems ids = some t1) (hj : j ∈ ids) :
    ∃ it1, t1._items[j]? = some it1 ∧ it1.exist = false := by
  induction ids generalizing t with
  | nil => simp at hj
  | cons id ids ih =>
    simp only [Scene.removeItems] at h
    split at h
    · simp at h
    · rename_i t2 h2
      by_cases e : id = j
      · subst e
        obtain ⟨item, hitem, hitems⟩ := removeItemsBody_items h2
        have h3 : t2._items[id]? = some item.kill := by
          rw [hitems]; simp [List.getElem?_set, lt_length_of_getElem? hitem]
        exact removeItems_keeps_dead h h3 rfl
      · have : j ∈ ids := by
          rcases List.mem_cons.mp hj with e1 | e1
          · exact absurd e1.symm e
          · exact e1
        exact ih h this

/-- C18: a transition descriptor whose subject item is dead when it is applied
makes its pass through the loop of `transitionItems` return the scene as it
was (nothing is registered or deregistered in the transition stage and no item
changes), and the descriptors that follow it are applied as if it were not
there, each with its own type and bound id.  A slot that was never filled is
dead, and so is, when the transitions of a commit are applied, every item that
the consolidated batch removes anywhere. -/
theorem transition_of_dead_item_is_skipped (fuel : Nat) (s : Scene) (itemId : ItemID) (item : Item)
    (hitem : s._items[itemId]? = some item) (hdead : item.exist = false) :
    (∀ ty b, s.transitionItemsBody fuel itemId ty b = some s)
    ∧ (∀ ty b ids tys bs,
        s.transitionItems fuel (itemId :: ids) (ty :: tys) (b :: bs)
          = s.transitionItems fuel ids tys bs)
    ∧ Item.new.exist = false
    ∧ (∀ (t t1 : Scene) (removed : List ItemID) (id : ItemID),
        t.removeItems removed = some t1 → id ∈ removed →
        ∃ it, t1._items[id]? = some it ∧ it.exist = false)
    ∧ (∀ (t t1 : Scene) (id : ItemID), t.processTransactionQueue fuel = some t1 →
        id ∈ t.batch._removedItems →
        ∃ (b c d : Scene) (it : Item), b.removeItems t.batch._removedItems = some c
          ∧ c.transitionItems fuel t.batch._transitioningItems t.batch._transitionTypes
            t.batch._transitioningItemBounds = some d
          ∧ t1._items = d._items ∧ t1._stages = d._stages
          ∧ c._items[id]? = some it ∧ it.exist = false) := by
  refine ⟨fun ty b => transitionItemsBody_dead fuel ty b hitem hdead, ?_, rfl,
    fun t t1 removed id h hid => removeItems_kills h hid, ?_⟩
  · intro ty b ids tys bs
    simp only [Scene.transitionItems, transitionItemsBody_dead fuel ty b hitem hdead]
  · intro t t1 id h hid
    obtain ⟨a, b, c, d, h1, h2, h3, h4, h5⟩ := commit_unfold h
    obtain ⟨it, hit, hd⟩ := removeItems_kills h3 hid
    refine ⟨b, c, d, it, h3, h4, ?_, ?_, hit, hd⟩
    · rw [h5, (resetSelections_frame _ _).2.1]; rfl
    · rw [h5, (resetSelections_frame _ _).2.2.2.2.1]; rfl

/-- C18 at the committed scene with the spatial item 1, whose slot 5 was never
filled: a descriptor for item 5 followed by a descriptor for item 1 acts as the
descriptor for item 1 alone. -/
theorem transition_of_dead_item_is_skipped_witness :
    demoSpatialScene.transitionItems 2 [5, 1] [TransitionType.tag 1, TransitionType.tag 2] [0, 3]
      = demoSpatialScene.transitionItems 2 [1] [TransitionType.tag 2] [3] :=
  (transition_of_dead_item_is_skipped 2 demoSpatialScene 5 Item.new (by decide) rfl).2.1
    (TransitionType.tag 1) 0 [1] [TransitionType.tag 2] [3]

/-! ## Transition ids after a remove -/

/-- C20, evaluated on the code: after the commits `resetItem(1, parent of 2)`,
`resetItem(2)`, then a transition on item 1, then `removeItem(1)`, the transition
stage has deregistered entry 0 while the live sub-item 2 still holds the
transition id 0; and when, instead of the remove, a `removeTransitionFromItem(2)`
descriptor is committed, the live parent 1 still holds the deregistered id 0.
In both scenes some live item refers to no registered entry. -/
theorem live_item_keeps_deregistered_transition_id :
    (demoRemovedParent.map fun s =>
        (s._items[1]?.map Item.exist, s._items[2]?.map Item.exist,
          s._items[2]?.map Item.getTransitionId, s.getTransitionStage))
      = some (some false, some true, some 0, some ⟨[none]⟩)
    ∧ (demoClearedSubItem.map fun s =>
        (s._items[1]?.map Item.exist, s._items[1]?.map Item.getTransitionId,
          s._items[2]?.map Item.getTransitionId, s.getTransitionStage))
      = some (some true, some 0, some (-1), some ⟨[none]⟩)
    ∧ (∃ s, demoRemovedParent = some s ∧ ¬ s.transitionsRegistered)
    ∧ (∃ s, demoClearedSubItem = some s ∧ ¬ s.transitionsRegistered) := by
  refine ⟨by decide, by decide, ?_, ?_⟩
  · refine ⟨demoRemovedParent.get (by decide), (Option.some_get _).symm, fun h => ?_⟩
    obtain ⟨st, entry, hst, hentry⟩ :=
      h 2 ⟨some demoLeafPayload, ⟨false, false, 1⟩, -1, 0⟩ (by decide) (by decide) (by decide)
    have e : (demoRemovedParent.get (by decide)).getTransitionStage = some ⟨[none]⟩ := by decide
    rw [e] at hst
    cases hst
    have e0 : (⟨[none]⟩ : TransitionStage).getTransition 0 = none := by decide
    exact Option.noConfusion (e0.symm.trans hentry)
  · refine ⟨demoClearedSubItem.get (by decide), (Option.some_get _).symm, fun h => ?_⟩
    obtain ⟨st, entry, hst, hentry⟩ :=
      h 1 ⟨some demoParentPayload, ⟨false, false, 1⟩, -1, 0⟩ (by decide) (by decide) (by decide)
    have e : (demoClearedSubItem.get (by decide)).getTransitionStage = some ⟨[none]⟩ := by decide
    rw [e] at hst
    cases hst
    have e0 : (⟨[none]⟩ : TransitionStage).getTransition 0 = none := by decide
    exact Option.noConfusion (e0.symm.trans hentry)

/-! ## The avatar hold action -/

theorem float_ne_self (a : Float32) (h : a.isNaN = false) : a.ne a = false := by
  simp [Float32.ne, h]

theorem readArguments_hand (api : EntityActionInterface) (world : HoldCollaborators)
    (changed : Bool) (self : AvatarActionHold) (arguments : QVariantMap)
    (hhand : AvatarActionHold.handRejected api arguments = true) :
    (AvatarActionHold.readArguments api world changed self arguments).hand = self._hand := by
  unfold AvatarActionHold.handRejected at hhand
  unfold AvatarActionHold.readArguments
  simp only
  split
  · rename_i h heq
    rw [heq] at hhand
    simp only at hhand
    rw [if_pos hhand]
  · rfl

theorem updateArguments_cases (api : EntityActionInterface) (world : HoldCollaborators)
    (self : AvatarActionHold) (arguments : QVariantMap) :
    (AvatarActionHold.updateArguments api world self arguments).1 = true
    ∧ (self.needsUpdate api world arguments = false →
        (AvatarActionHold.updateArguments api world self arguments).2
          = self.afterBase world arguments)
    ∧ (self.needsUpdate api world arguments = true →
        (AvatarActionHold.updateArguments api world self arguments).2._hand
            = (AvatarActionHold.readArguments api world
                (world.objectActionUpdateArguments arguments self.toObjectAction).1
                (self.afterBase world arguments) arguments).hand
          ∧ (AvatarActionHold.updateArguments api world self arguments).2._ownerEntity
            = (self.afterBase world arguments)._ownerEntity.map (fun _ => true)
          ∧ (AvatarActionHold.updateArguments api world self arguments).2.bodyActivated = true
          ∧ (AvatarActionHold.updateArguments api world self arguments).2._active = true) := by
  unfold AvatarActionHold.needsUpdate AvatarActionHold.updateArguments AvatarActionHold.afterBase
  simp only
  refine ⟨?_, ?_, ?_⟩
  · split <;> rfl
  · intro h
    rw [if_neg (by simp [h])]
  · intro h
    rw [if_pos h]
    exact ⟨rfl, rfl, rfl, rfl⟩

theorem vec3_ne_self (v : Vec3) (h : v.hasNaN = false) : v.ne v = false := by
  simp only [Vec3.hasNaN, Bool.or_eq_false_iff] at h
  simp [Vec3.ne, float_ne_self, h]

theorem quat_ne_self (q : Quat) (h : q.hasNaN = false) : q.ne q = false := by
  simp only [Quat.hasNaN, Bool.or_eq_false_iff] at h
  simp [Quat.ne, float_ne_self, h]

theorem needsUpdate_iff (api : EntityActionInterface) (world : HoldCollaborators)
    (self : AvatarActionHold) (arguments : QVariantMap)
    (hhand : AvatarActionHold.handRejected api arguments = true) :
    self.needsUpdate api world arguments = true ↔
      (world.objectActionUpdateArguments arguments self.toObjectAction).1 = true
      ∨ ((api.extractVec3Argument arguments "relativePosition").getD self._relativePosition).ne
          self._relativePosition = true
      ∨ ((api.extractQuatArgument arguments "relativeRotation").getD self._relativeRotation).ne
          self._relativeRotation = true
      ∨ ((api.extractFloatArgument arguments "timeScale").getD self._linearTimeScale).ne
          self._linearTimeScale = true
      ∨ world.mySessionUUID ≠ self._holderID := by
  have hh := readArguments_hand api world
    (world.objectActionUpdateArguments arguments self.toObjectAction).1
    (self.afterBase world arguments) arguments hhand
  have e1 : (AvatarActionHold.readArguments api world
      (world.objectActionUpdateArguments arguments self.toObjectAction).1
      (self.afterBase world arguments) arguments).needUpdate
      = ((world.objectActionUpdateArguments arguments self.toObjectAction).1
        || ((api.extractVec3Argument arguments "relativePosition").getD self._relativePosition).ne
            self._relativePosition
        || ((api.extractQuatArgument arguments "relativeRotation").getD self._relativeRotation).ne
            self._relativeRotation
        || ((api.extractFloatArgument arguments "timeScale").getD self._linearTimeScale).ne
            self._linearTimeScale
        || (AvatarActionHold.readArguments api world
              (world.objectActionUpdateArguments arguments self.toObjectAction).1
              (self.afterBase world arguments) arguments).hand != self._hand
        || world.mySessionUUID != self._holderID) := by
    unfold AvatarActionHold.readArguments AvatarActionHold.afterBase
    simp only
    cases api.extractVec3Argument arguments "relativePosition" <;>
      cases api.extractQuatArgument arguments "relativeRotation" <;>
      cases api.extractFloatArgument arguments "timeScale" <;> rfl
  unfold AvatarActionHold.needsUpdate
  rw [e1, hh]
  have e2 : (self.afterBase world arguments)._hand = self._hand := rfl
  rw [e2]
  simp [or_assoc]
/-- C14 as stated fails at the test action (left hand, held by the local user) and
the argument map `hand = "up"`: the hand argument is rejected, the base class
reports no change, no other argument is given and the holder is the local user,
so that no field differs from the stored value; yet the call returns `true`, and
it leaves the action as it was. -/
theorem updateArguments_returns_true_without_change :
    AvatarActionHold.handRejected demoInterface [("hand", QVariant.string "up")] = true
    ∧ (demoWorld.objectActionUpdateArguments [("hand", QVariant.string "up")]
        demoHold.toObjectAction).1 = false
    ∧ demoInterface.extractVec3Argument [("hand", QVariant.string "up")] "relativePosition" = none
    ∧ demoInterface.extractQuatArgument [("hand", QVariant.string "up")] "relativeRotation" = none
    ∧ demoInterface.extractFloatArgument [("hand", QVariant.string "up")] "timeScale" = none
    ∧ demoWorld.mySessionUUID = demoHold._holderID
    ∧ AvatarActionHold.updateArguments demoInterface demoWorld demoHold
        [("hand", QVariant.string "up")] = (true, demoHold) := by
  refine ⟨?_, ?_, ?_, ?_, ?_, ?_, ?_⟩ <;> decide

/-- C14 (amended): when the hand argument is missing or malformed, or is neither
"left" nor "right", `updateArguments` keeps the previous hand value.  The call
returns `true` whether or not anything differs.  Its internal decision
`needUpdate` is then taken exactly when the base class reports a change or the
relative position, the relative rotation, the time scale or the holder identity
compares unequal to the stored value.  Without that decision the action is left
as the base class left it; with it the owner's action data is marked dirty and
the body activated.  In particular an update that carries nothing but the
rejected hand, on an action held by the local user whose stored floats are
numbers, takes no such decision. -/
theorem updateArguments_rejected_hand (api : EntityActionInterface) (world : HoldCollaborators)
    (self : AvatarActionHold) (arguments : QVariantMap)
    (hhand : AvatarActionHold.handRejected api arguments = true) :
    (AvatarActionHold.updateArguments api world self arguments).2._hand = self._hand
    ∧ (self.needsUpdate api world arguments = true ↔
        (world.objectActionUpdateArguments arguments self.toObjectAction).1 = true
        ∨ ((api.extractVec3Argument arguments "relativePosition").getD self._relativePosition).ne
            self._relativePosition = true
        ∨ ((api.extractQuatArgument arguments "relativeRotation").getD self._relativeRotation).ne
            self._relativeRotation = true
        ∨ ((api.extractFloatArgument arguments "timeScale").getD self._linearTimeScale).ne
            self._linearTimeScale = true
        ∨ world.mySessionUUID ≠ self._holderID)
    ∧ (self.needsUpdate api world arguments = false →
        (AvatarActionHold.updateArguments api world self arguments).2
          = self.afterBase world arguments)
    ∧ (self.needsUpdate api world arguments = true →
        (AvatarActionHold.updateArguments api world self arguments).2._ownerEntity
            = (self.afterBase world arguments)._ownerEntity.map (fun _ => true)
          ∧ (AvatarActionHold.updateArguments api world self arguments).2.bodyActivated = true)
    ∧ (AvatarActionHold.updateArguments api world self arguments).1 = true
    ∧ ((world.objectActionUpdateArguments arguments self.toObjectAction).1 = false →
        api.extractVec3Argument arguments "relativePosition" = none →
        api.extractQuatArgument arguments "relativeRotation" = none →
        api.extractFloatArgument arguments "timeScale" = none →
        world.mySessionUUID = self._holderID →
        self._relativePosition.hasNaN = false → self._relativeRotation.hasNaN = false →
        self._linearTimeScale.isNaN = false →
        self.needsUpdate api world arguments = false) := by
  have hc := updateArguments_cases api world self arguments
  have hiff := needsUpdate_iff api world self arguments hhand
  have hh := readArguments_hand api world
    (world.objectActionUpdateArguments arguments self.toObjectAction).1
    (self.afterBase world arguments) arguments hhand
  refine ⟨?_, hiff, hc.2.1, fun h => ⟨(hc.2.2 h).2.1, (hc.2.2 h).2.2.1⟩, hc.1, ?_⟩
  · cases hr : self.needsUpdate api world arguments with
    | false => rw [hc.2.1 hr]; rfl
    | true => rw [(hc.2.2 hr).1, hh]; rfl
  · intro hb hp hq hf hid np nq nf
    cases hr : self.needsUpdate api world arguments with
    | false => rfl
    | true =>
      have := hiff.mp hr
      rw [hb, hp, hq, hf] at this
      simp only [Option.getD_none, vec3_ne_self _ np, quat_ne_self _ nq, float_ne_self _ nf,
        Bool.false_eq_true, false_or] at this
      exact absurd hid this

/-- The amended C14 at the test action (left hand, held by the local user) and the
argument map `hand = "up"`: the hand argument is rejected, the action still
holds in the left hand, and the decision `needUpdate` is not taken. -/
theorem updateArguments_rejected_hand_witness :
    AvatarActionHold.handRejected demoInterface [("hand", QVariant.string "up")] = true
      ∧ (AvatarActionHold.updateArguments demoInterface demoWorld demoHold
          [("hand", QVariant.string "up")]).2._hand = "left"
      ∧ demoHold.needsUpdate demoInterface demoWorld [("hand", QVariant.string "up")] = false :=
  ⟨by decide,
   (updateArguments_rejected_hand demoInterface demoWorld demoHold
      [("hand", QVariant.string "up")] (by decide)).1,
   (updateArguments_rejected_hand demoInterface demoWorld demoHold
      [("hand", QVariant.string "up")] (by decide)).2.2.2.2.2
      rfl (by decide) (by decide) (by decide) rfl (by decide) (by decide) (by decide)⟩

/-- C15: for every state of the hold action and every record whose type tag and id
read back as the action's own and whose version field is not `holdVersion`
(which is 1), `deserialize` returns and leaves the action as it was, every field
included. -/
theorem deserialize_skips_other_version (stream : QDataStream) (self : AvatarActionHold)
    (serializedArguments : QByteArray)
    (htype : (stream.readEntityActionType serializedArguments).1 = self._type)
    (hid : (stream.readQUuid (stream.readEntityActionType serializedArguments).2).1 = self._id)
    (hversion :
      (stream.readUInt16
        (stream.readQUuid (stream.readEntityActionType serializedArguments).2).2).1
        ≠ AvatarActionHold.holdVersion) :
    AvatarActionHold.holdVersion = 1
    ∧ AvatarActionHold.deserialize stream self serializedArguments = some self := by
  refine ⟨rfl, ?_⟩
  unfold AvatarActionHold.deserialize
  simp [htype, hid, hversion]

/-- C15 at the test action and a record of version 2: the action is unchanged. -/
theorem deserialize_skips_other_version_witness :
    AvatarActionHold.deserialize demoStream demoHold demoRecordOfVersion2 = some demoHold :=
  (deserialize_skips_other_version demoStream demoHold demoRecordOfVersion2
    (by decide) (by decide) (by decide)).2

/-- C16: a tick forwards to `ObjectActionSpring::updateActionWorker` if and only if
the non-blocking read lock was acquired, the holder's avatar was found and the
non-blocking write lock was acquired.  When the read lock is not acquired the
action, with its positional and rotational targets, is left as it was and
nothing is forwarded; whenever nothing is forwarded the action is left as it
was; and when the tick forwards, the spring update runs on the action with the
new targets written. -/
theorem updateActionWorker_forwards_iff (world : HoldCollaborators) (readLocked writeLocked : Bool)
    (self : AvatarActionHold) (deltaTimeStep : Float32) :
    ((AvatarActionHold.updateActionWorker world readLocked writeLocked self
          deltaTimeStep).forwarded = true ↔
        readLocked = true ∧ (world.getAvatarBySessionID self._holderID).isSome = true
          ∧ writeLocked = true)
    ∧ (readLocked = false →
        AvatarActionHold.updateActionWorker world readLocked writeLocked self deltaTimeStep
          = ⟨self, false⟩)
    ∧ ((AvatarActionHold.updateActionWorker world readLocked writeLocked self
          deltaTimeStep).forwarded = false →
        (AvatarActionHold.updateActionWorker world readLocked writeLocked self
          deltaTimeStep).action = self)
    ∧ (∀ avatar, readLocked = true → writeLocked = true →
        world.getAvatarBySessionID self._holderID = some avatar →
        (AvatarActionHold.updateActionWorker world readLocked writeLocked self
          deltaTimeStep).action
          = { self with
              toObjectActionSpring :=
                world.springUpdateActionWorker deltaTimeStep
                  { self.toObjectActionSpring with
                    _positionalTarget :=
                      world.vecAdd
                        (if self._hand == "right" then avatar.rightPalmPosition
                          else avatar.leftPalmPosition)
                        (world.quatRotate
                          (world.quatMul
                            (if self._hand == "right" then avatar.rightPalmRotation
                              else avatar.leftPalmRotation) self._relativeRotation)
                          self._relativePosition),
                    _rotationalTarget :=
                      world.quatMul
                        (if self._hand == "right" then avatar.rightPalmRotation
                          else avatar.leftPalmRotation) self._relativeRotation } }) := by
  unfold AvatarActionHold.updateActionWorker
  cases readLocked <;> cases writeLocked <;>
    cases h : world.getAvatarBySessionID self._holderID <;> simp [h]

/-! ## Transactions keep their streams aligned -/

theorem aligned_of_built {t : Transaction} (h : t.Built) : t.aligned := by
  induction h with
  | empty => exact ⟨rfl, rfl, rfl, rfl⟩
  | resetItem id payload _ ih =>
    cases payload with
    | none => exact ih
    | some p =>
      obtain ⟨h1, h2, h3, h4⟩ := ih
      refine ⟨?_, h2, h3, h4⟩
      simp [Transaction.resetItem, h1]
  | removeItem id _ ih => exact ih
  | updateItem id functor _ ih =>
    obtain ⟨h1, h2, h3, h4⟩ := ih
    refine ⟨h1, ?_, h3, h4⟩
    simp [Transaction.updateItem, h2]
  | addTransitionToItem id transition boundId _ ih =>
    obtain ⟨h1, h2, h3, h4⟩ := ih
    refine ⟨h1, h2, ?_, ?_⟩
    · simp [Transaction.addTransitionToItem, h3]
    · simp [Transaction.addTransitionToItem, h4]
  | removeTransitionFromItem id _ ih =>
    obtain ⟨h1, h2, h3, h4⟩ := ih
    refine ⟨h1, h2, ?_, ?_⟩
    · simp [Transaction.removeTransitionFromItem, h3]
    · simp [Transaction.removeTransitionFromItem, h4]
  | resetSelection selection _ ih => exact ih
  | merge _ _ ih1 ih2 =>
    obtain ⟨a1, a2, a3, a4⟩ := ih1
    obtain ⟨b1, b2, b3, b4⟩ := ih2
    refine ⟨?_, ?_, ?_, ?_⟩
    · simp [Transaction.merge, a1, b1]
    · simp [Transaction.merge, a2, b2]
    · simp [Transaction.merge, a3, b3]
    · simp [Transaction.merge, a4, b4]

theorem built_foldl_merge {queue : List Transaction} {t : Transaction} (ht : t.Built)
    (hq : ∀ u ∈ queue, Transaction.Built u) :
    Transaction.Built (queue.foldl Transaction.merge t) := by
  induction queue generalizing t with
  | nil => exact ht
  | cons u us ih =>
    exact ih (Transaction.Built.merge ht (hq u (List.mem_cons_self u us)))
      (fun v hv => hq v (List.mem_cons_of_mem u hv))

/-- C21: every transaction built from the empty one by any sequence of `resetItem`,
`removeItem`, `updateItem`, `addTransitionToItem`, `removeTransitionFromItem`,
`resetSelection` and `merge` (with a transaction built the same way) has its
parallel streams aligned: as many reset payloads as reset ids, as many update
functors as update ids, and as many transition types and bound ids as
transition ids.  So has the batch that a commit consolidates from a queue of
such transactions. -/
theorem built_transaction_streams_aligned (t : Transaction) (h : t.Built) :
    t._resetItems.length = t._resetPayloads.length
    ∧ t._updatedItems.length = t._updateFunctors.length
    ∧ t._transitioningItems.length = t._transitionTypes.length
    ∧ t._transitioningItems.length = t._transitioningItemBounds.length
    ∧ (∀ s : Scene, (∀ u ∈ s._transactionQueue, Transaction.Built u) →
        (consolidateTransaction s._transactionQueue t).2.aligned) := by
  obtain ⟨h1, h2, h3, h4⟩ := aligned_of_built h
  refine ⟨h1, h2, h3, h4, fun s hq => ?_⟩
  rw [consolidateTransaction_eq]
  exact aligned_of_built (built_foldl_merge h hq)

/-- C21 at the transaction that records a reset with a payload, a reset with an
empty payload handle, an update and a transition removal, merged with a
transaction that records a transition. -/
theorem built_transaction_streams_aligned_witness :
    (((((Transaction.empty.resetItem 1 (some demoSpatialPayload)).resetItem 2 none).updateItem 1
        demoMakeNonspatial).removeTransitionFromItem 1).merge
      (Transaction.empty.addTransitionToItem 2 (TransitionType.tag 1) 0)).aligned :=
  let h := built_transaction_streams_aligned _
    (Transaction.Built.merge
      (Transaction.Built.removeTransitionFromItem 1
        (Transaction.Built.updateItem 1 demoMakeNonspatial
          (Transaction.Built.resetItem 2 none
            (Transaction.Built.resetItem 1 (some demoSpatialPayload) Transaction.Built.empty))))
      (Transaction.Built.addTransitionToItem 2 (TransitionType.tag 1) 0 Transaction.Built.empty))
  ⟨h.1, h.2.1, h.2.2.1, h.2.2.2.1⟩

/-! ## Resetting the transition of an item -/

theorem resetItemTransition_live (s : Scene) (id : ItemID) (item : Item) (st : TransitionStage)
    (hitem : s._items[id]? = some item) (hlive : item.exist = true)
    (hst : s.getTransitionStage = some st)
    (hacyc : AcyclicFrom s._items id) (hstore : SubItemsInStore s._items id) :
    ∃ N s1, (∀ fuel, N ≤ fuel → s.resetItemTransition fuel id = some s1)
      ∧ s1.getTransitionStage = some (st.removeTransition item.getTransitionId)
      ∧ (∀ x, (x = id ∨ Reach s._items id x) →
          (s1._items[x]?).map Item.getTransitionId = some TransitionType.NONE.toIndex)
      ∧ (∀ x, ¬ (x = id ∨ Reach s._items id x) → s1._items[x]? = s._items[x]?) := by
  obtain ⟨N, subItems, s1, _, h2, h3, h4, h5⟩ :=
    setItemTransition_reaches (s.putTransitionStage (st.removeTransition item.getTransitionId)) id
      TransitionType.NONE.toIndex item hitem hlive hacyc hstore
  refine ⟨N, s1, fun fuel hf => ?_, ?_, fun x hx => (h3 x hx).1, h4⟩
  · simp only [Scene.resetItemTransition, hitem, hst]
    exact (h2 fuel hf).2
  · rw [h5]
    exact getTransitionStage_put _ hst

/-- C22, evaluated on the code: `resetItemTransition` deregisters the item's
transition entry and then hands the type `NONE` to `setItemTransition`, so the
item and its sub-items end up with the integer value of `NONE` as their
transition id, which is not the sentinel `INVALID_INDEX`.  On the scene where
the items 1 and 2 hold the transition id 0, `resetItemTransition(1)` leaves both
with the id 7 and the stage without entries, while a committed
`removeTransitionFromItem(1)` leaves both with the sentinel -1.  In general, for
a live item with an acyclic sub-item graph inside the store and a registered
transition stage, the call returns, the former entry is deregistered, and the
item and every reachable sub-item hold the value of `NONE`. -/
theorem resetItemTransition_leaves_type_none_as_id :
    (demoTransitionOnParent.map Scene.transitionView
        = some (some 0, some 0, some ⟨[some ⟨1, TransitionType.tag 1, 0⟩]⟩))
    ∧ ((demoTransitionOnParent.bind fun s => s.resetItemTransition 2 1).map Scene.transitionView
        = some (some 7, some 7, some ⟨[none]⟩))
    ∧ ((demoTransitionOnParent.bind fun s =>
          (s.enqueueTransaction
            (Transaction.empty.removeTransitionFromItem 1)).processTransactionQueue 2).map
          Scene.transitionView
        = some (some (-1), some (-1), some ⟨[none]⟩))
    ∧ INVALID_INDEX = -1
    ∧ (∀ ty : TransitionType, ty.toIndex ≠ INVALID_INDEX)
    ∧ (∀ (s : Scene) (id : ItemID) (item : Item) (st : TransitionStage),
        s._items[id]? = some item → item.exist = true → s.getTransitionStage = some st →
        AcyclicFrom s._items id → SubItemsInStore s._items id →
        ∃ N s1, (∀ fuel, N ≤ fuel → s.resetItemTransition fuel id = some s1)
          ∧ s1.getTransitionStage = some (st.removeTransition item.getTransitionId)
          ∧ (∀ x, (x = id ∨ Reach s._items id x) →
              (s1._items[x]?).map Item.getTransitionId = some TransitionType.NONE.toIndex
              ∧ (s1._items[x]?).map Item.getTransitionId ≠ some INVALID_INDEX)) := by
  have hne : ∀ ty : TransitionType, ty.toIndex ≠ INVALID_INDEX := by
    intro ty
    cases ty with
    | NONE => decide
    | tag n =>
      show (n : Int) ≠ -1
      omega
  refine ⟨by decide, by decide, by decide, rfl, hne, ?_⟩
  intro s id item st hitem hlive hst hacyc hstore
  obtain ⟨N, s1, h1, h2, h3, _⟩ := resetItemTransition_live s id item st hitem hlive hst hacyc hstore
  refine ⟨N, s1, h1, h2, fun x hx => ⟨h3 x hx, ?_⟩⟩
  rw [h3 x hx]
  intro e
  exact hne _ (Option.some.inj e)

/-! ## The persisted record makes the round trip -/

theorem deserialize_serialize (reader : QDataStream) (writer : QDataStreamWriter)
    (source target : AvatarActionHold) (hback : writer.readBackBy reader source)
    (htype : target._type = AvatarActionHold.ACTION_TYPE_HOLD) (hid : target._id = source._id) :
    AvatarActionHold.deserialize reader target (AvatarActionHold.serialize writer source)
      = some { target with
          _holderID := source._holderID,
          _relativePosition := source._relativePosition,
          _relativeRotation := source._relativeRotation,
          _linearTimeScale := source._linearTimeScale,
          _angularTimeScale := source._linearTimeScale,
          _hand := source._hand,
          _expires := source._expires,
          _tag := source._tag,
          _active := true } := by
  obtain ⟨h1, h2, h3, h4, h5, h6, h7, h8, h9, h10⟩ := hback
  have h10b : reader.readQString (writer.writeQString source._tag) = (source._tag, []) := by
    have := h10 []
    rwa [List.append_nil] at this
  unfold AvatarActionHold.deserialize AvatarActionHold.serialize
  simp only [List.append_assoc, h1 _, h2 _, h3 _, h4 _, h5 _, h6 _, h7 _, h8 _, h9 _, h10b,
    htype, hid, bne_self_eq_false, Bool.false_eq_true, if_false]

/-- C23: let the readers of the data stream give back each field of the record as
the writers write it.  Then `deserialize`, applied by a hold action to the bytes
that `serialize` produces for a hold action of the same type and id, returns,
and the action then holds the holder id, the relative position, the relative
rotation, the linear time scale, the hand, the expiry and the tag of the
serialized action; its angular time scale is the linear one, it is active, and
its other fields are as they were. -/
theorem serialize_deserialize_round_trip (reader : QDataStream) (writer : QDataStreamWriter)
    (source target : AvatarActionHold) (hback : writer.readBackBy reader source)
    (hhold : source._type = AvatarActionHold.ACTION_TYPE_HOLD)
    (htype : target._type = source._type) (hid : target._id = source._id) :
    ∃ restored,
      AvatarActionHold.deserialize reader target (AvatarActionHold.serialize writer source)
        = some restored
      ∧ restored._holderID = source._holderID
      ∧ restored._relativePosition = source._relativePosition
      ∧ restored._relativeRotation = source._relativeRotation
      ∧ restored._linearTimeScale = source._linearTimeScale
      ∧ restored._hand = source._hand
      ∧ restored._expires = source._expires
      ∧ restored._tag = source._tag
      ∧ restored._angularTimeScale = source._linearTimeScale
      ∧ restored._active = true
      ∧ restored._type = target._type ∧ restored._id = target._id
      ∧ restored._ownerEntity = target._ownerEntity
      ∧ restored.bodyActivated = target.bodyActivated
      ∧ restored._positionalTarget = target._positionalTarget
      ∧ restored._rotationalTarget = target._rotationalTarget :=
  ⟨_, deserialize_serialize reader writer source target hback (htype.trans hhold) hid,
    rfl, rfl, rfl, rfl, rfl, rfl, rfl, rfl, rfl, rfl, rfl, rfl, rfl, rfl, rfl⟩

theorem demoWriter_readBack : demoWriter.readBackBy demoStream demoHeldRight :=
  ⟨fun _ => rfl, fun _ => rfl, fun _ => rfl, fun _ => rfl, fun _ => rfl, fun _ => rfl,
    fun _ => rfl, fun _ => rfl, fun _ => rfl, fun _ => rfl⟩

/-- C23 at the test actions: the record of `demoHeldRight`, read by `demoHold`,
leaves `demoHold` with the fields of the record. -/
theorem serialize_deserialize_round_trip_witness :
    ∃ restored,
      AvatarActionHold.deserialize demoStream demoHold
          (AvatarActionHold.serialize demoWriter demoHeldRight) = some restored
      ∧ restored._holderID = 9 ∧ restored._hand = "right" ∧ restored._expires = 5
      ∧ restored._tag = "t" ∧ restored._linearTimeScale = ⟨0x3F000000⟩ := by
  obtain ⟨restored, h, h1, _, _, h4, h5, h6, h7, _⟩ :=
    serialize_deserialize_round_trip demoStream demoWriter demoHeldRight demoHold
      demoWriter_readBack rfl rfl rfl
  exact ⟨restored, h, h1, h5, h6, h7, h4⟩

end render
